import Mathlib

/-!
# Realm object store: the predicate query builder (`parser/query_builder.cpp`)

A shallow embedding of `query_builder.cpp`: the translation of a parsed
predicate tree into calls on a `realm::Query`.

* The `Query` accumulator is the ordered list of the mutating calls made on it
  (`QueryOp`); it is threaded through every function as explicit state and is
  kept when an exception is thrown, as in the C++ (the query is mutated in
  place and nothing is rolled back).
* Calls on the read-only collaborators (the `Arguments` resolver and
  `Query::validate`) are recorded in a second list (`Call`).
* C++ exceptions are values of `Exception`; dereferencing a null pointer or an
  end iterator, which is undefined behaviour in C++, is the separate outcome
  `Exception.undefined`.
-/

namespace QueryBuilder

/-! ## Exceptions -/

/-- The exceptions raised while building a query.  `logic_error` and
`invalid_argument` are the two `std::` exceptions thrown by the file itself,
`foreign` is anything thrown by a collaborator (an `Arguments` accessor), and
`undefined` marks undefined behaviour (a null or end-iterator dereference). -/
inductive Exception where
  | logic_error (what : String)
  | invalid_argument (what : String)
  | foreign (what : String)
  | undefined (what : String)
  deriving DecidableEq, Repr

/-- The text carried by an exception (`what()`). -/
def Exception.what : Exception → String
  | .logic_error w => w
  | .invalid_argument w => w
  | .foreign w => w
  | .undefined w => w

/-! ## The parsed predicate (`parser.hpp`) -/

/-- Modelled from the spec: `parser::Expression::Type`, declared in `parser.hpp`;
the kinds of leaf expression of the spec's data model (§3), under the names the
builder uses for them. -/
inductive ExpressionType where
  | Number | String | KeyPath | Argument | True | False | Null
  deriving DecidableEq, Repr

/-- A `parser::Expression`: its kind and its text `s`. -/
structure Expression where
  type : ExpressionType
  s : String
  deriving DecidableEq, Repr

/-- Modelled from the spec: `Predicate::Operator`, declared in `parser.hpp`; the
nine operators the builder switches on (the table of §4.3). -/
inductive Operator where
  | Equal | NotEqual | LessThan | LessThanOrEqual | GreaterThan | GreaterThanOrEqual
  | BeginsWith | EndsWith | Contains
  deriving DecidableEq, Repr

/-- Modelled from the spec: `Predicate::OperatorOption`, declared in `parser.hpp`. -/
inductive OperatorOption where
  | None | CaseInsensitive
  deriving DecidableEq, Repr

/-- The struct `Predicate::Comparison`: operator, option and the array `expr[2]`. -/
structure Comparison where
  op : Operator
  option : OperatorOption
  expr0 : Expression
  expr1 : Expression
  deriving DecidableEq, Repr

/-- Modelled from the spec: `Predicate::Type`, declared in `parser.hpp`; the five
node kinds of §3. -/
inductive PredicateType where
  | Comparison | Or | And | True | False
  deriving DecidableEq, Repr

/-- A `parser::Predicate`: every node carries its kind, the `negate` flag, a
comparison (`cmpr`) and a compound (`cpnd.sub_predicates`), whatever its kind. -/
inductive Predicate where
  | mk (type : PredicateType) (negate : Bool) (cmpr : Comparison)
      (sub_predicates : List Predicate)

/-- Field `pred.type`. -/
def Predicate.type : Predicate → PredicateType
  | .mk t _ _ _ => t

/-- Field `pred.negate`. -/
def Predicate.negate : Predicate → Bool
  | .mk _ n _ _ => n

/-- Field `pred.cmpr`. -/
def Predicate.cmpr : Predicate → Comparison
  | .mk _ _ c _ => c

/-- Field `pred.cpnd.sub_predicates`. -/
def Predicate.sub_predicates : Predicate → List Predicate
  | .mk _ _ _ subs => subs

/-! ## The schema (`schema.hpp`, `object_schema.hpp`, `property.hpp`) -/

/-- Modelled from the spec: `PropertyType`, declared in `property.hpp`; the nine
semantic types of §3, under the names of the enumerators the builder switches
on.  The `default:` arms of those switches are not reachable for them. -/
inductive PropertyType where
  | Int | Bool | Float | Double | String | Data | Date | Object | Array
  deriving DecidableEq, Repr

/-- A `Property`: the fields the builder reads. -/
structure Property where
  name : String
  type : PropertyType
  object_type : String
  table_column : Nat
  deriving DecidableEq, Repr

/-- Modelled from the spec: an `ObjectSchema`, declared in `object_schema.hpp`;
its `name` and the lookup `property_for_name(name) -> Property | null` (§6). -/
structure ObjectSchema where
  name : String
  property_for_name : String → Option Property

/-- Modelled from the spec: the `Schema`, declared in `schema.hpp`; the lookup
`find(type_name) -> ObjectSchema | not found` (§6), `none` being `end()`. -/
structure Schema where
  find : String → Option ObjectSchema

/-! ## The query accumulator (`realm.hpp`) -/

/-- The template argument `T` of a core `Columns<T>`. -/
inductive ColumnType where
  | Bool | Timestamp | Double | Float | Int | String | Binary | Link
  deriving DecidableEq, Repr

/-- A core `Columns<T>` as obtained from `table->column<T>(column_ndx)`: the
link chain that was on the table (set by `Table::link`) and the column index. -/
structure Columns where
  type : ColumnType
  link_chain : List Nat
  column_ndx : Nat
  deriving DecidableEq, Repr

/-- A `realm::Timestamp`. -/
structure Timestamp where
  seconds : Int
  nanoseconds : Int
  deriving DecidableEq, Repr

/-- A `realm::Double`, by its bit pattern. -/
structure Double where
  bits : Nat
  deriving DecidableEq, Repr

/-- A `realm::Float`, by its bit pattern. -/
structure Float where
  bits : Nat
  deriving DecidableEq, Repr

/-- One side of a core comparison expression: a column, a typed value, or
`realm::null()`. -/
inductive Operand where
  | column (c : Columns)
  | bool (b : Bool)
  | timestamp (t : Timestamp)
  | double (d : Double)
  | float (f : Float)
  | int (i : Int)
  | null
  deriving DecidableEq, Repr

/-- The C++ comparison operators of the core expression API. -/
inductive Relation where
  | lt | le | gt | ge | eq | ne
  deriving DecidableEq, Repr

/-- A `realm::Expression` given to `Query::and_query`. -/
inductive QueryExpression where
  | TrueExpression
  | FalseExpression
  | compare (rel : Relation) (lhs rhs : Operand)
  | begins_with (column : Columns) (value : String) (case_sensitive : Bool)
  | ends_with (column : Columns) (value : String) (case_sensitive : Bool)
  | contains (column : Columns) (value : String) (case_sensitive : Bool)
  | equal (column : Columns) (value : String) (case_sensitive : Bool)
  | not_equal (column : Columns) (value : String) (case_sensitive : Bool)
  | is_null (column : Columns)
  deriving DecidableEq, Repr

/-- A mutating call on the `Query`.  The `binary_*` calls are the
`Query::begins_with(size_t, BinaryData)` family, `equal_null`/`not_equal_null`
are `Query::equal(size_t, realm::null)` and `Query::not_equal(size_t, realm::null)`. -/
inductive QueryOp where
  | and_query (e : QueryExpression)
  | group
  | end_group
  | Not
  | Or
  | binary_begins_with (column_ndx : Nat) (value : String)
  | binary_ends_with (column_ndx : Nat) (value : String)
  | binary_contains (column_ndx : Nat) (value : String)
  | binary_equal (column_ndx : Nat) (value : String)
  | binary_not_equal (column_ndx : Nat) (value : String)
  | equal_null (column_ndx : Nat)
  | not_equal_null (column_ndx : Nat)
  | links_to (column_ndx : Nat) (row_index : Nat)
  deriving DecidableEq, Repr

/-- A call on a read-only collaborator: an `Arguments` accessor with the index
it was given, or `Query::validate`. -/
inductive Call where
  | bool_for_argument (i : Int)
  | long_for_argument (i : Int)
  | float_for_argument (i : Int)
  | double_for_argument (i : Int)
  | string_for_argument (i : Int)
  | binary_for_argument (i : Int)
  | timestamp_for_argument (i : Int)
  | object_index_for_argument (i : Int)
  | is_argument_null (i : Int)
  | validate
  deriving DecidableEq, Repr

/-- The state the builder acts on: the query accumulator and the record of the
calls made on the collaborators. -/
structure Machine where
  query : List QueryOp
  calls : List Call
  deriving DecidableEq, Repr

/-- A computation of the builder: from a state it gives a value or an
exception, and the state reached (also when it throws). -/
def Build (α : Type) : Type := Machine → Except Exception α × Machine

/-- Return a value, state unchanged. -/
def Build.pure {α : Type} (a : α) : Build α := fun m => (.ok a, m)

/-- Sequencing: an exception of the first computation ends the whole, with the
state reached at the throw. -/
def Build.bind {α β : Type} (x : Build α) (f : α → Build β) : Build β := fun m =>
  match x m with
  | (.ok a, m1) => f a m1
  | (.error e, m1) => (.error e, m1)

instance : Monad Build where
  pure := Build.pure
  bind := Build.bind

/-- The statement `throw e`. -/
def Build.throw {α : Type} (e : Exception) : Build α := fun m => (.error e, m)

/-- A mutating call `op` on the query. -/
def Build.append (op : QueryOp) : Build Unit := fun m =>
  (.ok (), { m with query := m.query ++ [op] })

/-- A call `c` on a collaborator, whose outcome is `r`. -/
def Build.call {α : Type} (c : Call) (r : Except Exception α) : Build α := fun m =>
  (r, { m with calls := m.calls ++ [c] })

/-- A computation that does not touch the state. -/
def Build.lift {α : Type} (r : Except Exception α) : Build α := fun m => (r, m)

/-- Dereference of a pointer or iterator: undefined behaviour when it is null
or `end()`. -/
def Build.deref {α : Type} (what : String) : Option α → Build α
  | some a => Build.pure a
  | none => Build.throw (.undefined what)

/-! ## The argument resolver (`query_builder.hpp`) -/

/-- Modelled from the spec: the abstract class `Arguments`, declared in
`query_builder.hpp`; one accessor per kind and the null test (§6), each of which
may throw.  The index is the `int` read from the Argument expression. -/
structure Arguments where
  bool_for_argument : Int → Except Exception Bool
  long_for_argument : Int → Except Exception Int
  float_for_argument : Int → Except Exception Float
  double_for_argument : Int → Except Exception Double
  string_for_argument : Int → Except Exception String
  binary_for_argument : Int → Except Exception String
  timestamp_for_argument : Int → Except Exception Timestamp
  object_index_for_argument : Int → Except Exception Nat
  is_argument_null : Int → Except Exception Bool

/-! ## `stot` -/

/-- The C `isspace` of the classic locale, skipped by `operator>>`. -/
def isspace (c : Char) : Bool :=
  c.toNat = 32 || (9 ≤ c.toNat && c.toNat ≤ 13)

/-- A decimal digit. -/
def isdigit (c : Char) : Bool :=
  48 ≤ c.toNat && c.toNat ≤ 57

/-- The value of a run of decimal digits, `acc` being the value read so far. -/
def digits_value (acc : Nat) : List Char → Nat
  | [] => acc
  | c :: cs => digits_value (acc * 10 + (c.toNat - 48)) cs

/-- The template `stot<T>` for an integral `T` with range `lo..hi`:
`iss >> value` skips white space, reads an optional sign and the longest run of
digits, and fails when there is no digit or the value is out of range; what
follows the digits is left unread. -/
def stot_integral (lo hi : Int) (s : String) : Except Exception Int :=
  let cs := s.toList.dropWhile isspace
  let signed : Bool × List Char :=
    match cs with
    | [] => (false, [])
    | c :: rest => if c = '-' then (true, rest) else if c = '+' then (false, rest) else (false, c :: rest)
  let ds := signed.2.takeWhile isdigit
  let value : Int := if signed.1 then -(digits_value 0 ds : Int) else (digits_value 0 ds : Int)
  if ds.isEmpty then .error (.invalid_argument ("Cannot convert string '" ++ s ++ "'"))
  else if lo ≤ value ∧ value ≤ hi then .ok value
  else .error (.invalid_argument ("Cannot convert string '" ++ s ++ "'"))

/-- The instance `stot<int>` (32 bits). -/
def stot_int (s : String) : Except Exception Int :=
  stot_integral (-2147483648) 2147483647 s

/-- The instance `stot<long long>` (64 bits). -/
def stot_long_long (s : String) : Except Exception Int :=
  stot_integral (-9223372036854775808) 9223372036854775807 s

/-- The instances `stot<double>` and `stot<float>`: the stream extraction of a
floating-point value is not embedded; it is a parameter, `none` being
`iss.fail()`. -/
structure FloatingExtraction where
  extract_double : String → Option Double
  extract_float : String → Option Float

/-- The instance `stot<double>`. -/
def stot_double (fp : FloatingExtraction) (s : String) : Except Exception Double :=
  match fp.extract_double s with
  | some v => .ok v
  | none => .error (.invalid_argument ("Cannot convert string '" ++ s ++ "'"))

/-- The instance `stot<float>`. -/
def stot_float (fp : FloatingExtraction) (s : String) : Except Exception Float :=
  match fp.extract_float s with
  | some v => .ok v
  | none => .error (.invalid_argument ("Cannot convert string '" ++ s ++ "'"))

/-! ## Key paths -/

/-- The loop of `key_path_from_string`: `item` holds, reversed, the characters
read by the current `std::getline(ss, item, '.')`.  At the end of the stream a
`getline` that read nothing fails and ends the loop. -/
def key_path_items (item : List Char) : List Char → List String
  | [] => if item.isEmpty then [] else [String.mk item.reverse]
  | c :: cs =>
    if c = '.' then String.mk item.reverse :: key_path_items [] cs
    else key_path_items (c :: item) cs

/-- The function `key_path_from_string`. -/
def key_path_from_string (s : String) : List String :=
  key_path_items [] s.toList

/-- The data members of a `PropertyExpression`: the terminal property (a
pointer, null until a segment is resolved) and the link columns to follow.
The member `table_getter` is the function `PropertyExpression.table_getter`. -/
structure PropertyExpression where
  prop : Option Property
  indexes : List Nat
  deriving DecidableEq, Repr

/-- The loop of the constructor of `PropertyExpression` over the segments not
yet visited, with the loop variables `desc`, `prop` and `indexes`. -/
def PropertyExpression.walk (schema : Schema) :
    List String → Option ObjectSchema → Option Property → List Nat →
      Except Exception PropertyExpression
  | [], _, prop, indexes => .ok { prop := prop, indexes := indexes }
  | segment :: rest, desc, prop, indexes =>
    let linked : Except Exception (List Nat) :=
      match prop with
      | none => .ok indexes
      | some p =>
        if p.type = PropertyType.Object ∨ p.type = PropertyType.Array then
          .ok (indexes ++ [p.table_column])
        else
          match desc with
          | none => .error (.undefined "desc->name")
          | some d =>
            .error (.logic_error
              ("Property '" ++ segment ++ "' is not a link in object of type '" ++ d.name ++ "'"))
    match linked with
    | .error e => .error e
    | .ok indexes1 =>
      match desc with
      | none => .error (.undefined "desc->property_for_name")
      | some d =>
        match d.property_for_name segment with
        | none =>
          .error (.logic_error
            ("No property '" ++ segment ++ "' on object of type '" ++ d.name ++ "'"))
        | some p =>
          PropertyExpression.walk schema rest
            (if p.object_type.length ≠ 0 then schema.find p.object_type else some d)
            (some p) indexes1

/-- The constructor `PropertyExpression(query, schema, desc, key_path_string)`. -/
def PropertyExpression.new (schema : Schema) (desc : Option ObjectSchema)
    (key_path_string : String) : Except Exception PropertyExpression :=
  PropertyExpression.walk schema (key_path_from_string key_path_string) desc none []

/-- The closure `table_getter`: it calls `Table::link` for each index in turn
and returns the table, on which the link chain is then the list `indexes`. -/
def PropertyExpression.table_getter (expr : PropertyExpression) : List Nat :=
  expr.indexes

/-! ## Constraints -/

/-- The template `add_numeric_constraint_to_query<A, B>`, `lhs` and `rhs` being
the two operands in the order given. -/
def add_numeric_constraint_to_query (operatorType : Operator) (lhs rhs : Operand) :
    Build Unit :=
  match operatorType with
  | .LessThan => Build.append (.and_query (.compare .lt lhs rhs))
  | .LessThanOrEqual => Build.append (.and_query (.compare .le lhs rhs))
  | .GreaterThan => Build.append (.and_query (.compare .gt lhs rhs))
  | .GreaterThanOrEqual => Build.append (.and_query (.compare .ge lhs rhs))
  | .Equal => Build.append (.and_query (.compare .eq lhs rhs))
  | .NotEqual => Build.append (.and_query (.compare .ne lhs rhs))
  | _ => Build.throw (.logic_error "Unsupported operator for numeric queries.")

/-- The template `add_bool_constraint_to_query<A, B>`. -/
def add_bool_constraint_to_query (operatorType : Operator) (lhs rhs : Operand) :
    Build Unit :=
  match operatorType with
  | .Equal => Build.append (.and_query (.compare .eq lhs rhs))
  | .NotEqual => Build.append (.and_query (.compare .ne lhs rhs))
  | _ => Build.throw (.logic_error "Unsupported operator for numeric queries.")

/-- The overload `add_string_constraint_to_query(query, cmp, column, value)`. -/
def add_string_constraint_to_query_column_value (cmp : Comparison) (column : Columns)
    (value : String) : Build Unit :=
  let case_sensitive : Bool := decide (cmp.option ≠ OperatorOption.CaseInsensitive)
  match cmp.op with
  | .BeginsWith => Build.append (.and_query (.begins_with column value case_sensitive))
  | .EndsWith => Build.append (.and_query (.ends_with column value case_sensitive))
  | .Contains => Build.append (.and_query (.contains column value case_sensitive))
  | .Equal => Build.append (.and_query (.equal column value case_sensitive))
  | .NotEqual => Build.append (.and_query (.not_equal column value case_sensitive))
  | _ => Build.throw (.logic_error "Unsupported operator for string queries.")

/-- The overload `add_string_constraint_to_query(query, cmp, value, column)`. -/
def add_string_constraint_to_query_value_column (cmp : Comparison) (value : String)
    (column : Columns) : Build Unit :=
  let case_sensitive : Bool := decide (cmp.option ≠ OperatorOption.CaseInsensitive)
  match cmp.op with
  | .Equal => Build.append (.and_query (.equal column value case_sensitive))
  | .NotEqual => Build.append (.and_query (.not_equal column value case_sensitive))
  | _ =>
    Build.throw (.logic_error "Substring comparison not supported for keypath substrings.")

/-- The overload `add_binary_constraint_to_query(query, op, column, value)`: only
`column.column_ndx()` is used. -/
def add_binary_constraint_to_query_column_value (op : Operator) (column : Columns)
    (value : String) : Build Unit :=
  match op with
  | .BeginsWith => Build.append (.binary_begins_with column.column_ndx value)
  | .EndsWith => Build.append (.binary_ends_with column.column_ndx value)
  | .Contains => Build.append (.binary_contains column.column_ndx value)
  | .Equal => Build.append (.binary_equal column.column_ndx value)
  | .NotEqual => Build.append (.binary_not_equal column.column_ndx value)
  | _ => Build.throw (.logic_error "Unsupported operator for binary queries.")

/-- The overload `add_binary_constraint_to_query(query, op, value, column)`. -/
def add_binary_constraint_to_query_value_column (op : Operator) (value : String)
    (column : Columns) : Build Unit :=
  match op with
  | .Equal => Build.append (.binary_equal column.column_ndx value)
  | .NotEqual => Build.append (.binary_not_equal column.column_ndx value)
  | _ =>
    Build.throw (.logic_error "Substring comparison not supported for keypath substrings.")

/-- The function `add_link_constraint_to_query`; `NotEqual` calls `Not()` and
falls through to `Equal`. -/
def add_link_constraint_to_query (op : Operator) (prop_expr : PropertyExpression)
    (row_index : Nat) : Build Unit :=
  if ¬ prop_expr.indexes.isEmpty then
    Build.throw (.logic_error "KeyPath queries not supported for object comparisons.")
  else
    match op with
    | .NotEqual => do
      Build.append .Not
      let prop ← Build.deref "prop_expr.prop->table_column" prop_expr.prop
      Build.append (.links_to prop.table_column row_index)
    | .Equal => do
      let prop ← Build.deref "prop_expr.prop->table_column" prop_expr.prop
      Build.append (.links_to prop.table_column row_index)
    | _ =>
      Build.throw
        (.logic_error "Only 'equal' and 'not equal' operators supported for object comparison.")

/-- Both overloads of `link_argument`: the expression's kind is not looked at. -/
def link_argument (argExpr : Expression) (args : Arguments) : Build Nat := do
  let i ← Build.lift (stot_int argExpr.s)
  Build.call (.object_index_for_argument i) (args.object_index_for_argument i)

/-! ## Columns and values -/

/-- The function `ColumnGetter<RetType, TableGetter>::convert`:
`table()->column<RetType>(expr.prop->table_column)`, `table` being the link
chain left on the table by the table getter. -/
def ColumnGetter.convert (RetType : ColumnType) (table : List Nat)
    (expr : PropertyExpression) : Build Columns := do
  let prop ← Build.deref "expr.prop->table_column" expr.prop
  pure { type := RetType, link_chain := table, column_ndx := prop.table_column }

/-- The function `ValueGetter<Timestamp, TableGetter>::convert`. -/
def ValueGetter.Timestamp.convert (value : Expression) (args : Arguments) :
    Build Timestamp :=
  if value.type ≠ ExpressionType.Argument then
    Build.throw (.logic_error "You must pass in a date argument to compare")
  else do
    let i ← Build.lift (stot_int value.s)
    Build.call (.timestamp_for_argument i) (args.timestamp_for_argument i)

/-- The function `ValueGetter<bool, TableGetter>::convert`. -/
def ValueGetter.bool.convert (value : Expression) (args : Arguments) : Build Bool :=
  if value.type = ExpressionType.Argument then do
    let i ← Build.lift (stot_int value.s)
    Build.call (.bool_for_argument i) (args.bool_for_argument i)
  else if value.type ≠ ExpressionType.True ∧ value.type ≠ ExpressionType.False then
    Build.throw (.logic_error "Attempting to compare bool property to a non-bool value")
  else
    pure (decide (value.type = ExpressionType.True))

/-- The function `ValueGetter<Double, TableGetter>::convert`. -/
def ValueGetter.Double.convert (fp : FloatingExtraction) (value : Expression)
    (args : Arguments) : Build Double :=
  if value.type = ExpressionType.Argument then do
    let i ← Build.lift (stot_int value.s)
    Build.call (.double_for_argument i) (args.double_for_argument i)
  else
    Build.lift (stot_double fp value.s)

/-- The function `ValueGetter<Float, TableGetter>::convert`. -/
def ValueGetter.Float.convert (fp : FloatingExtraction) (value : Expression)
    (args : Arguments) : Build Float :=
  if value.type = ExpressionType.Argument then do
    let i ← Build.lift (stot_int value.s)
    Build.call (.float_for_argument i) (args.float_for_argument i)
  else
    Build.lift (stot_float fp value.s)

/-- The function `ValueGetter<Int, TableGetter>::convert`. -/
def ValueGetter.Int.convert (value : Expression) (args : Arguments) : Build Int :=
  if value.type = ExpressionType.Argument then do
    let i ← Build.lift (stot_int value.s)
    Build.call (.long_for_argument i) (args.long_for_argument i)
  else
    Build.lift (stot_long_long value.s)

/-- The function `ValueGetter<String, TableGetter>::convert`. -/
def ValueGetter.String.convert (value : Expression) (args : Arguments) : Build String :=
  if value.type = ExpressionType.Argument then do
    let i ← Build.lift (stot_int value.s)
    Build.call (.string_for_argument i) (args.string_for_argument i)
  else if value.type ≠ ExpressionType.String then
    Build.throw (.logic_error "Attempting to compare String property to a non-String value")
  else
    pure value.s

/-- The function `ValueGetter<Binary, TableGetter>::convert`. -/
def ValueGetter.Binary.convert (value : Expression) (args : Arguments) : Build String :=
  if value.type = ExpressionType.Argument then do
    let i ← Build.lift (stot_int value.s)
    Build.call (.binary_for_argument i) (args.binary_for_argument i)
  else
    Build.throw (.logic_error "Binary properties must be compared against a binary argument.")

/-- The two instances of the template parameters `<A, B>` of
`do_add_comparison_to_query`: the key path on the left and the value on the
right, or the value on the left and the key path on the right.  For the side
that is a `PropertyExpression`, `value_of_type_for_query` is
`ColumnGetter::convert`; for the other it is `ValueGetter::convert`. -/
inductive Sides where
  | column_value (lhs : PropertyExpression) (rhs : Expression)
  | value_column (lhs : Expression) (rhs : PropertyExpression)

/-- The two calls `value_of_type_for_query<RetType>(expr.table_getter, lhs, args)`
and `value_of_type_for_query<RetType>(expr.table_getter, rhs, args)` of one
comparison, for a `RetType` whose values become operands through `wrap`. -/
def values_of_type_for_query {α : Type} (RetType : ColumnType)
    (getter : Expression → Arguments → Build α) (wrap : α → Operand)
    (expr : PropertyExpression) (sides : Sides) (args : Arguments) :
    Build (Operand × Operand) :=
  match sides with
  | .column_value lhs rhs => do
    let l ← ColumnGetter.convert RetType expr.table_getter lhs
    let r ← getter rhs args
    pure (.column l, wrap r)
  | .value_column lhs rhs => do
    let l ← getter lhs args
    let r ← ColumnGetter.convert RetType expr.table_getter rhs
    pure (wrap l, .column r)

/-! ## Comparisons -/

/-- The template `do_add_comparison_to_query<A, B>`, `sides` being its arguments
`lhs` and `rhs`. -/
def do_add_comparison_to_query (fp : FloatingExtraction) (cmp : Comparison)
    (expr : PropertyExpression) (sides : Sides) (args : Arguments) : Build Unit := do
  let prop ← Build.deref "expr.prop->type" expr.prop
  match prop.type with
  | .Bool => do
    let v ← values_of_type_for_query .Bool ValueGetter.bool.convert Operand.bool expr sides args
    add_bool_constraint_to_query cmp.op v.1 v.2
  | .Date => do
    let v ← values_of_type_for_query .Timestamp ValueGetter.Timestamp.convert
      Operand.timestamp expr sides args
    add_numeric_constraint_to_query cmp.op v.1 v.2
  | .Double => do
    let v ← values_of_type_for_query .Double (ValueGetter.Double.convert fp)
      Operand.double expr sides args
    add_numeric_constraint_to_query cmp.op v.1 v.2
  | .Float => do
    let v ← values_of_type_for_query .Float (ValueGetter.Float.convert fp)
      Operand.float expr sides args
    add_numeric_constraint_to_query cmp.op v.1 v.2
  | .Int => do
    let v ← values_of_type_for_query .Int ValueGetter.Int.convert Operand.int expr sides args
    add_numeric_constraint_to_query cmp.op v.1 v.2
  | .String =>
    match sides with
    | .column_value lhs rhs => do
      let column ← ColumnGetter.convert .String expr.table_getter lhs
      let value ← ValueGetter.String.convert rhs args
      add_string_constraint_to_query_column_value cmp column value
    | .value_column lhs rhs => do
      let value ← ValueGetter.String.convert lhs args
      let column ← ColumnGetter.convert .String expr.table_getter rhs
      add_string_constraint_to_query_value_column cmp value column
  | .Data =>
    match sides with
    | .column_value lhs rhs => do
      let column ← ColumnGetter.convert .Binary expr.table_getter lhs
      let value ← ValueGetter.Binary.convert rhs args
      add_binary_constraint_to_query_column_value cmp.op column value
    | .value_column lhs rhs => do
      let value ← ValueGetter.Binary.convert lhs args
      let column ← ColumnGetter.convert .Binary expr.table_getter rhs
      add_binary_constraint_to_query_value_column cmp.op value column
  | .Object | .Array =>
    match sides with
    | .column_value _ rhs => do
      let row_index ← link_argument rhs args
      add_link_constraint_to_query cmp.op expr row_index
    | .value_column lhs _ => do
      let row_index ← link_argument lhs args
      add_link_constraint_to_query cmp.op expr row_index

/-- The primary template `do_add_null_comparison_to_query<T>`. -/
def do_add_null_comparison_to_query_T (T : ColumnType) (op : Operator)
    (expr : PropertyExpression) : Build Unit := do
  let prop ← Build.deref "expr.prop->table_column" expr.prop
  let column : Columns :=
    { type := T, link_chain := expr.table_getter, column_ndx := prop.table_column }
  match op with
  | .NotEqual => Build.append (.and_query (.compare .ne (.column column) .null))
  | .Equal => Build.append (.and_query (.compare .eq (.column column) .null))
  | _ =>
    Build.throw (.logic_error
      "Only 'equal' and 'not equal' operators supported when comparing against 'null'.")

/-- The specialisation `do_add_null_comparison_to_query<Binary>`. -/
def do_add_null_comparison_to_query_Binary (op : Operator) (expr : PropertyExpression) :
    Build Unit :=
  if ¬ expr.indexes.isEmpty then
    Build.throw (.logic_error "KeyPath queries not supported for data comparisons.")
  else do
    let prop ← Build.deref "expr.prop->table_column" expr.prop
    match op with
    | .NotEqual => Build.append (.not_equal_null prop.table_column)
    | .Equal => Build.append (.equal_null prop.table_column)
    | _ =>
      Build.throw (.logic_error
        "Only 'equal' and 'not equal' operators supported when comparing against 'null'.")

/-- The specialisation `do_add_null_comparison_to_query<Link>`; `NotEqual` calls
`Not()` and falls through to `Equal`.  The column is taken from
`query.get_table()`, without the table getter. -/
def do_add_null_comparison_to_query_Link (op : Operator) (expr : PropertyExpression) :
    Build Unit :=
  if ¬ expr.indexes.isEmpty then
    Build.throw (.logic_error "KeyPath queries not supported for object comparisons.")
  else
    match op with
    | .NotEqual => do
      Build.append .Not
      let prop ← Build.deref "expr.prop->table_column" expr.prop
      Build.append (.and_query (.is_null
        { type := .Link, link_chain := [], column_ndx := prop.table_column }))
    | .Equal => do
      let prop ← Build.deref "expr.prop->table_column" expr.prop
      Build.append (.and_query (.is_null
        { type := .Link, link_chain := [], column_ndx := prop.table_column }))
    | _ =>
      Build.throw
        (.logic_error "Only 'equal' and 'not equal' operators supported for object comparison.")

/-- The function `do_add_null_comparison_to_query(query, cmp, expr)`. -/
def do_add_null_comparison_to_query (cmp : Comparison) (expr : PropertyExpression) :
    Build Unit := do
  let prop ← Build.deref "expr.prop->type" expr.prop
  match prop.type with
  | .Bool => do_add_null_comparison_to_query_T .Bool cmp.op expr
  | .Date => do_add_null_comparison_to_query_T .Timestamp cmp.op expr
  | .Double => do_add_null_comparison_to_query_T .Double cmp.op expr
  | .Float => do_add_null_comparison_to_query_T .Float cmp.op expr
  | .Int => do_add_null_comparison_to_query_T .Int cmp.op expr
  | .String => do_add_null_comparison_to_query_T .String cmp.op expr
  | .Data => do_add_null_comparison_to_query_Binary cmp.op expr
  | .Object => do_add_null_comparison_to_query_Link cmp.op expr
  | .Array => Build.throw (.logic_error "Comparing Lists to 'null' is not supported")

/-- The function `expression_is_null`. -/
def expression_is_null (expr : Expression) (args : Arguments) : Build Bool :=
  if expr.type = ExpressionType.Null then
    pure true
  else if expr.type = ExpressionType.Argument then do
    let i ← Build.lift (stot_int expr.s)
    Build.call (.is_argument_null i) (args.is_argument_null i)
  else
    pure false

/-- The function `add_comparison_to_query`. -/
def add_comparison_to_query (fp : FloatingExtraction) (pred : Predicate) (args : Arguments)
    (schema : Schema) (type : String) : Build Unit :=
  let cmpr := pred.cmpr
  let t0 := cmpr.expr0.type
  let t1 := cmpr.expr1.type
  let object_schema := schema.find type
  if t0 = ExpressionType.KeyPath ∧ t1 ≠ ExpressionType.KeyPath then do
    let expr ← Build.lift (PropertyExpression.new schema object_schema cmpr.expr0.s)
    if (← expression_is_null cmpr.expr1 args) then
      do_add_null_comparison_to_query cmpr expr
    else
      do_add_comparison_to_query fp cmpr expr (.column_value expr cmpr.expr1) args
  else if t0 ≠ ExpressionType.KeyPath ∧ t1 = ExpressionType.KeyPath then do
    let expr ← Build.lift (PropertyExpression.new schema object_schema cmpr.expr1.s)
    if (← expression_is_null cmpr.expr0 args) then
      do_add_null_comparison_to_query cmpr expr
    else
      do_add_comparison_to_query fp cmpr expr (.value_column cmpr.expr0 expr) args
  else
    Build.throw (.logic_error
      "Predicate expressions must compare a keypath and another keypath or a constant value")

/-! ## Predicates -/

mutual
/-- The function `update_query_with_predicate`. -/
def update_query_with_predicate (fp : FloatingExtraction) (arguments : Arguments)
    (schema : Schema) (type : String) : Predicate → Build Unit
  | .mk ptype negate cmpr sub_predicates => do
    if negate then
      Build.append .Not
    match ptype with
    | .And => do
      Build.append .group
      update_query_with_and_subs fp arguments schema type sub_predicates
      if sub_predicates.length = 0 then
        Build.append (.and_query .TrueExpression)
      Build.append .end_group
    | .Or => do
      Build.append .group
      update_query_with_or_subs fp arguments schema type sub_predicates
      if sub_predicates.length = 0 then
        Build.append (.and_query .FalseExpression)
      Build.append .end_group
    | .Comparison =>
      add_comparison_to_query fp (.mk ptype negate cmpr sub_predicates) arguments schema type
    | .True => Build.append (.and_query .TrueExpression)
    | .False => Build.append (.and_query .FalseExpression)
/-- The loop `for (auto &sub : pred.cpnd.sub_predicates)` of the `And` case. -/
def update_query_with_and_subs (fp : FloatingExtraction) (arguments : Arguments)
    (schema : Schema) (type : String) : List Predicate → Build Unit
  | [] => pure ()
  | sub :: rest => do
    update_query_with_predicate fp arguments schema type sub
    update_query_with_and_subs fp arguments schema type rest
/-- The loop `for (auto &sub : pred.cpnd.sub_predicates)` of the `Or` case: each
turn calls `query.Or()` and then compiles the sub-predicate. -/
def update_query_with_or_subs (fp : FloatingExtraction) (arguments : Arguments)
    (schema : Schema) (type : String) : List Predicate → Build Unit
  | [] => pure ()
  | sub :: rest => do
    Build.append .Or
    update_query_with_predicate fp arguments schema type sub
    update_query_with_or_subs fp arguments schema type rest
end

/-- The function `realm::query_builder::apply_predicate`; `validate` is
`Query::validate` of the engine, applied to the query built so far. -/
def apply_predicate (fp : FloatingExtraction) (validate : List QueryOp → String)
    (predicate : Predicate) (arguments : Arguments) (schema : Schema)
    (objectType : String) : Build Unit := do
  update_query_with_predicate fp arguments schema objectType predicate
  let validateMessage ← (fun m => Build.call .validate (.ok (validate m.query)) m : Build String)
  if validateMessage.isEmpty then
    pure ()
  else
    Build.throw (.logic_error validateMessage)

/-! ## Auxiliary definitions for the statements -/

/-- Whether an outcome is a returned value (no exception). -/
def returns {α : Type} : Except Exception α → Bool
  | .ok _ => true
  | .error _ => false

/-- The table of supported operators per property type, in the spec's words
(§4.3). -/
def spec_supported_operator : PropertyType → Operator → Bool
  | .Bool, op => op = .Equal || op = .NotEqual
  | .Date, op | .Double, op | .Float, op | .Int, op =>
    op = .LessThan || op = .LessThanOrEqual || op = .GreaterThan || op = .GreaterThanOrEqual
      || op = .Equal || op = .NotEqual
  | .String, op | .Data, op =>
    op = .BeginsWith || op = .EndsWith || op = .Contains || op = .Equal || op = .NotEqual
  | .Object, op | .Array, op => op = .Equal || op = .NotEqual

/-- The text of the `std::logic_error` thrown in the `default:` arm of the
constraint function of each property type, for a key path on the left. -/
def unsupported_operator_what : PropertyType → String
  | .Bool | .Date | .Double | .Float | .Int => "Unsupported operator for numeric queries."
  | .String => "Unsupported operator for string queries."
  | .Data => "Unsupported operator for binary queries."
  | .Object | .Array =>
    "Only 'equal' and 'not equal' operators supported for object comparison."

/-- Whether the accessor that the value getter of a property type calls returns
a value for argument `i`. -/
def typed_accessor_returns (args : Arguments) (i : Int) : PropertyType → Bool
  | .Bool => returns (args.bool_for_argument i)
  | .Date => returns (args.timestamp_for_argument i)
  | .Double => returns (args.double_for_argument i)
  | .Float => returns (args.float_for_argument i)
  | .Int => returns (args.long_for_argument i)
  | .String => returns (args.string_for_argument i)
  | .Data => returns (args.binary_for_argument i)
  | .Object | .Array => returns (args.object_index_for_argument i)

/-! ## Example inputs -/

/-- The object type `Person` of the spec's scenarios (§8), with a list property
and a property of each remaining type added. -/
def person : ObjectSchema :=
  { name := "Person"
    property_for_name := fun n =>
      if n = "name" then some ⟨"name", .String, "", 0⟩
      else if n = "age" then some ⟨"age", .Int, "", 1⟩
      else if n = "best_friend" then some ⟨"best_friend", .Object, "Person", 2⟩
      else if n = "friends" then some ⟨"friends", .Array, "Person", 3⟩
      else if n = "retired" then some ⟨"retired", .Bool, "", 4⟩
      else if n = "photo" then some ⟨"photo", .Data, "", 5⟩
      else if n = "born" then some ⟨"born", .Date, "", 6⟩
      else none }

/-- A schema holding `Person` only. -/
def person_schema : Schema :=
  { find := fun n => if n = "Person" then some person else none }

/-- An argument resolver that binds every index: argument 9 is null, the
object row index of argument `i` is `i + 2`. -/
def sample_arguments : Arguments :=
  { bool_for_argument := fun _ => .ok true
    long_for_argument := fun i => .ok (i + 100)
    float_for_argument := fun _ => .ok ⟨0⟩
    double_for_argument := fun _ => .ok ⟨0⟩
    string_for_argument := fun _ => .ok "x"
    binary_for_argument := fun _ => .ok "b"
    timestamp_for_argument := fun _ => .ok ⟨0, 0⟩
    object_index_for_argument := fun i => .ok (i.toNat + 2)
    is_argument_null := fun i => .ok (decide (i = 9)) }

/-- A floating-point extraction that accepts no text. -/
def no_floating : FloatingExtraction :=
  { extract_double := fun _ => none, extract_float := fun _ => none }

/-- A comparison node `lhs op rhs`, not negated, with no option. -/
def comparison (op : Operator) (lhs rhs : Expression) : Predicate :=
  .mk .Comparison false ⟨op, .None, lhs, rhs⟩ []

/-- The empty query, with no call recorded. -/
def empty_machine : Machine := ⟨[], []⟩

/-- The walk of the spec (§4.1) over the non-final segments `segments` from the
object schema `d`: every segment names an object-link or link-list property of
the object schema reached so far, whose referenced type is named and found in
the schema.  It gives the columns of the segments, in order, and the object
schema reached. -/
def follow_links (schema : Schema) :
    ObjectSchema → List String → Option (List Nat × ObjectSchema)
  | d, [] => some ([], d)
  | d, segment :: rest =>
    match d.property_for_name segment with
    | none => none
    | some p =>
      if (p.type = PropertyType.Object ∨ p.type = PropertyType.Array)
          ∧ p.object_type.length ≠ 0 then
        match schema.find p.object_type with
        | none => none
        | some target =>
          match follow_links schema target rest with
          | none => none
          | some r => some (p.table_column :: r.1, r.2)
      else none

/-- The column a pending property adds to the hop list when a further segment
follows: the constructor pushes the column of `prop` at the next turn. -/
def pending_column : Option Property → List Nat
  | none => []
  | some p => [p.table_column]

/-- Whether the property resolved last, if any, is a link. -/
def is_link_or_absent : Option Property → Bool
  | none => true
  | some p => p.type = PropertyType.Object || p.type = PropertyType.Array

/-- A schema for the key path `a.b.c`: `Root.a` is a link to `Mid`, `Mid.b` a
list of `Leaf`, `Leaf.c` and `Mid.n` are integers. -/
def chain_schema : Schema :=
  { find := fun n =>
      if n = "Root" then
        some { name := "Root"
               property_for_name := fun k =>
                 if k = "a" then some ⟨"a", .Object, "Mid", 0⟩ else none }
      else if n = "Mid" then
        some { name := "Mid"
               property_for_name := fun k =>
                 if k = "b" then some ⟨"b", .Array, "Leaf", 1⟩
                 else if k = "n" then some ⟨"n", .Int, "", 2⟩ else none }
      else if n = "Leaf" then
        some { name := "Leaf"
               property_for_name := fun k =>
                 if k = "c" then some ⟨"c", .Int, "", 0⟩ else none }
      else none }

/-- The object schema `Root` of `chain_schema`. -/
def chain_root : ObjectSchema :=
  { name := "Root"
    property_for_name := fun k => if k = "a" then some ⟨"a", .Object, "Mid", 0⟩ else none }

/-- The state `m` followed by what `d` holds: the calls of `d` come after those
of `m`. -/
def Machine.extend (m d : Machine) : Machine :=
  { query := m.query ++ d.query, calls := m.calls ++ d.calls }

/-- A computation that only adds to the state and does not read it: from any
state it gives the outcome it gives from the empty state, and adds to the state
what it adds to the empty state. -/
def Framed {α : Type} (x : Build α) : Prop :=
  ∀ m : Machine, x m = ((x empty_machine).1, m.extend (x empty_machine).2)

/-- The calls a computation makes on the query, from the empty query on. -/
def emitted {α : Type} (x : Build α) : List QueryOp :=
  (x empty_machine).2.query

/-- The fragments of the sub-predicates `subs`, in order, each preceded by the
ops `before`: a fragment is what compiling the sub-predicate alone adds to the
query. -/
def sub_fragments (before : List QueryOp) (fp : FloatingExtraction) (arguments : Arguments)
    (schema : Schema) (type : String) : List Predicate → List QueryOp
  | [] => []
  | sub :: rest =>
    before ++ emitted (update_query_with_predicate fp arguments schema type sub)
      ++ sub_fragments before fp arguments schema type rest

/-- A comparison that plays no part (the `cmpr` member of a node that is not a
comparison). -/
def no_comparison : Comparison :=
  ⟨.Equal, .None, ⟨.Null, ""⟩, ⟨.Null, ""⟩⟩

/-- The node `True`, not negated. -/
def true_predicate : Predicate := .mk .True false no_comparison []

/-- A value that is null, in the spec's words (§4.4): the null literal, or an
Argument whose index is read and whose null test reports true. -/
def is_null_value (args : Arguments) (value : Expression) : Bool :=
  match value.type with
  | .Null => true
  | .Argument =>
    match stot_int value.s with
    | .ok i =>
      match args.is_argument_null i with
      | .ok b => b
      | .error _ => false
    | .error _ => false
  | _ => false

/-- The calls on the argument resolver that the null test of a value makes: the
null test of an Argument, none for a literal. -/
def null_test_calls (value : Expression) : List Call :=
  match value.type with
  | .Argument =>
    match stot_int value.s with
    | .ok i => [.is_argument_null i]
    | .error _ => []
  | _ => []

/-- The core column type of the null comparison of a scalar property type. -/
def scalar_column_type : PropertyType → ColumnType
  | .Bool => .Bool
  | .Date => .Timestamp
  | .Double => .Double
  | .Float => .Float
  | .Int => .Int
  | _ => .String

/-- The null comparison on the column of `p`, named directly, for `==`
(`equal = true`) or `!=`: a comparison of the column with `realm::null()` for a
bool, date, double, float, int or string property; `Query::equal` or
`Query::not_equal` with `realm::null()` for a binary property; `is_null()` on
the link column, after `Not()` for `!=`, for an object-link property. -/
def null_comparison_ops (p : Property) (equal : Bool) : List QueryOp :=
  match p.type with
  | .Data => if equal then [.equal_null p.table_column] else [.not_equal_null p.table_column]
  | .Object =>
    (if equal then [] else [.Not])
      ++ [.and_query (.is_null { type := .Link, link_chain := [], column_ndx := p.table_column })]
  | t =>
    [.and_query (.compare (if equal then .eq else .ne)
      (.column { type := scalar_column_type t, link_chain := [], column_ndx := p.table_column })
      .null)]

/-- The comparison with the key path on the left (`keypath_left`) or on the
right of the value. -/
def comparison_of (keypath_left : Bool) (op : Operator) (option : OperatorOption)
    (key_path : String) (value : Expression) : Comparison :=
  if keypath_left then ⟨op, option, ⟨.KeyPath, key_path⟩, value⟩
  else ⟨op, option, value, ⟨.KeyPath, key_path⟩⟩

/-- A value that is present, that is, neither a key path nor null: a literal
other than the null literal, or an Argument whose index is read and whose null
test reports false. -/
def is_present_value (args : Arguments) (value : Expression) : Bool :=
  match value.type with
  | .KeyPath => false
  | .Null => false
  | .Argument =>
    match stot_int value.s with
    | .ok i =>
      match args.is_argument_null i with
      | .ok b => !b
      | .error _ => false
    | .error _ => false
  | _ => true

/-- The arguments `lhs` and `rhs` that `add_comparison_to_query` gives to
`do_add_comparison_to_query`, for the key path on the left or on the right. -/
def sides_of (keypath_left : Bool) (expr : PropertyExpression) (value : Expression) : Sides :=
  if keypath_left then .column_value expr value else .value_column value expr

/-- The state in which a comparison is dispatched, from the state `m` in which
its node is visited: `Not` has been added if the node is negated, and the null
test of the value has been made. -/
def before_dispatch (negate : Bool) (value : Expression) (m : Machine) : Machine :=
  { query := m.query ++ (if negate then [QueryOp.Not] else [])
    calls := m.calls ++ null_test_calls value }

/-- The C++ operator that `add_numeric_constraint_to_query` applies for a
predicate operator, when it has one. -/
def numeric_relation : Operator → Option Relation
  | .LessThan => some .lt
  | .LessThanOrEqual => some .le
  | .GreaterThan => some .gt
  | .GreaterThanOrEqual => some .ge
  | .Equal => some .eq
  | .NotEqual => some .ne
  | _ => none

/-- The core comparison `column rel value` (key path written on the left) or
`value rel column` (key path written on the right), given to `and_query`. -/
def compare_op (keypath_left : Bool) (rel : Relation) (column : Columns) (value : Operand) :
    QueryOp :=
  if keypath_left then .and_query (.compare rel (.column column) value)
  else .and_query (.compare rel value (.column column))

/-- A literal: an expression that is a number, a string, `true` or `false`. -/
def is_literal (value : Expression) : Bool :=
  value.type = ExpressionType.Number || value.type = ExpressionType.String
    || value.type = ExpressionType.True || value.type = ExpressionType.False

/-- The dispatch of `do_add_comparison_to_query` for the property types that go
to `add_numeric_constraint_to_query`: the core column type and the value getter
of the type, its value wrapped as an operand. -/
def numeric_getter (fp : FloatingExtraction) :
    PropertyType → Option (ColumnType × (Expression → Arguments → Build Operand))
  | .Date =>
    some (.Timestamp, fun value args => do
      let v ← ValueGetter.Timestamp.convert value args
      pure (Operand.timestamp v))
  | .Double =>
    some (.Double, fun value args => do
      let v ← ValueGetter.Double.convert fp value args
      pure (Operand.double v))
  | .Float =>
    some (.Float, fun value args => do
      let v ← ValueGetter.Float.convert fp value args
      pure (Operand.float v))
  | .Int =>
    some (.Int, fun value args => do
      let v ← ValueGetter.Int.convert value args
      pure (Operand.int v))
  | _ => none

/-- The core string comparison `column.equal(value, case_sensitive)` given to
`and_query` for `==` on a string property, with the flag that
`add_string_constraint_to_query` computes from the option. -/
def string_equal_op (option : OperatorOption) (column : Columns) (value : String) : QueryOp :=
  .and_query (.equal column value (decide (option ≠ OperatorOption.CaseInsensitive)))

/-- The state after the null test of the Argument `$i` and one call `c` of a
typed accessor, and after `ops` have been added to the query (after `Not` when
the node is negated). -/
def after_argument (negate : Bool) (i : Int) (c : Call) (ops : List QueryOp) (m : Machine) :
    Machine :=
  { query := m.query ++ (if negate then [QueryOp.Not] else []) ++ ops
    calls := m.calls ++ [Call.is_argument_null i, c] }

/-- The state after a comparison with a literal has added `ops` to the query
(after `Not` when the node is negated): no call is made. -/
def after_literal (negate : Bool) (ops : List QueryOp) (m : Machine) : Machine :=
  { query := m.query ++ (if negate then [QueryOp.Not] else []) ++ ops
    calls := m.calls }

/-- The tree `And[age > 30, missing == 1]` on `Person`: a comparison that
compiles, then a comparison on a property that `Person` does not have. -/
def and_valid_then_unknown : Predicate :=
  .mk .And false no_comparison
    [comparison .GreaterThan ⟨.KeyPath, "age"⟩ ⟨.Number, "30"⟩,
     comparison .Equal ⟨.KeyPath, "missing"⟩ ⟨.Number, "1"⟩]

/-- The core string expression that `add_string_constraint_to_query` builds for
a predicate operator, when it has one, from the column, the text and the
case-sensitive flag. -/
def string_expression :
    Operator → Option (Columns → String → Bool → QueryExpression)
  | .BeginsWith => some QueryExpression.begins_with
  | .EndsWith => some QueryExpression.ends_with
  | .Contains => some QueryExpression.contains
  | .Equal => some QueryExpression.equal
  | .NotEqual => some QueryExpression.not_equal
  | _ => none

/-- The dispatch of `do_add_comparison_to_query` for the property types whose
value is a text: the core column type and the value getter of the type. -/
def text_getter : PropertyType → Option (ColumnType × (Expression → Arguments → Build String))
  | .String => some (.String, ValueGetter.String.convert)
  | .Data => some (.Binary, ValueGetter.Binary.convert)
  | _ => none

/-- The overload of the constraint function that `do_add_comparison_to_query`
calls for a string or binary property, with the key path on the left or on the
right.  For other types there is none. -/
def text_constraint (t : PropertyType) (keypath_left : Bool) (cmp : Comparison)
    (column : Columns) (value : String) : Option (Build Unit) :=
  match t, keypath_left with
  | .String, true => some (add_string_constraint_to_query_column_value cmp column value)
  | .String, false => some (add_string_constraint_to_query_value_column cmp value column)
  | .Data, true => some (add_binary_constraint_to_query_column_value cmp.op column value)
  | .Data, false => some (add_binary_constraint_to_query_value_column cmp.op value column)
  | _, _ => none

mutual
/-- The number of `And` and `Or` nodes of the tree that the builder visits from
a node: the node itself if it is an `And` or an `Or`, and then those of its
sub-predicates; the sub-predicates of a node of another kind are not visited. -/
def compound_nodes : Predicate → Nat
  | .mk ptype _ _ sub_predicates =>
    match ptype with
    | .And => 1 + compound_nodes_list sub_predicates
    | .Or => 1 + compound_nodes_list sub_predicates
    | _ => 0
/-- The number of `And` and `Or` nodes visited from a list of sub-predicates. -/
def compound_nodes_list : List Predicate → Nat
  | [] => 0
  | sub :: rest => compound_nodes sub + compound_nodes_list rest
end

/-- A sequence of ops that is balanced in `group` and `end_group` with `n`
groups: in every prefix the number of `end_group` is at most the number of
`group`, and over the whole sequence both numbers are `n`. -/
def balanced (n : Nat) (ops : List QueryOp) : Prop :=
  (∀ k : Nat, (ops.take k).count QueryOp.end_group ≤ (ops.take k).count QueryOp.group)
    ∧ ops.count QueryOp.group = n ∧ ops.count QueryOp.end_group = n

/-- A computation that adds neither `group` nor `end_group` to the query. -/
def Ungrouped {α : Type} (x : Build α) : Prop :=
  ∀ m : Machine,
    (x m).2.query.count QueryOp.group = m.query.count QueryOp.group
      ∧ (x m).2.query.count QueryOp.end_group = m.query.count QueryOp.end_group

/-- A computation that, when it ends without an exception, has added to the
query a sequence of ops that is balanced with `n` groups. -/
def Grouped (n : Nat) (x : Build Unit) : Prop :=
  ∀ m : Machine, (x m).1 = .ok () →
    ∃ ops : List QueryOp, (x m).2.query = m.query ++ ops ∧ balanced n ops

/-- The exception thrown by the accessor that the value getter of a property
type calls for argument `i`, when it throws. -/
def typed_accessor_exception (args : Arguments) (i : Int) : PropertyType → Option Exception
  | .Bool => match args.bool_for_argument i with | .error e => some e | .ok _ => none
  | .Date => match args.timestamp_for_argument i with | .error e => some e | .ok _ => none
  | .Double => match args.double_for_argument i with | .error e => some e | .ok _ => none
  | .Float => match args.float_for_argument i with | .error e => some e | .ok _ => none
  | .Int => match args.long_for_argument i with | .error e => some e | .ok _ => none
  | .String => match args.string_for_argument i with | .error e => some e | .ok _ => none
  | .Data => match args.binary_for_argument i with | .error e => some e | .ok _ => none
  | .Object => match args.object_index_for_argument i with | .error e => some e | .ok _ => none
  | .Array => match args.object_index_for_argument i with | .error e => some e | .ok _ => none

/-- An argument resolver like `sample_arguments`, except that its bool accessor
throws: argument 0 is bound to a value that is not a bool. -/
def refusing_arguments : Arguments :=
  { sample_arguments with
    bool_for_argument := fun _ => .error (.foreign "Argument is not a bool") }

/-! ## Lemmas on the builder monad -/

theorem returns_iff {α : Type} (r : Except Exception α) :
    returns r = true ↔ ∃ a, r = .ok a := by
  cases r <;> simp [returns]

theorem bind_apply {α β : Type} (x : Build α) (f : α → Build β) (m : Machine) :
    (x >>= f) m = match x m with
      | (.ok a, m1) => f a m1
      | (.error e, m1) => (.error e, m1) := rfl

theorem pure_apply {α : Type} (a : α) (m : Machine) : (pure a : Build α) m = (.ok a, m) := rfl

/-! ## Lemmas on the functions -/

theorem new_single (schema : Schema) (d : ObjectSchema) (s name : String) (p : Property)
    (hs : key_path_from_string s = [name]) (hp : d.property_for_name name = some p) :
    PropertyExpression.new schema (some d) s = .ok { prop := some p, indexes := [] } := by
  simp [PropertyExpression.new, hs, PropertyExpression.walk, hp]

theorem apply_predicate_error (fp : FloatingExtraction) (validate : List QueryOp → String)
    (predicate : Predicate) (arguments : Arguments) (schema : Schema) (objectType : String)
    (m m1 : Machine) (e : Exception)
    (h : update_query_with_predicate fp arguments schema objectType predicate m
      = (.error e, m1)) :
    apply_predicate fp validate predicate arguments schema objectType m = (.error e, m1) := by
  simp only [apply_predicate, bind_apply, h]

theorem update_comparison (fp : FloatingExtraction) (arguments : Arguments) (schema : Schema)
    (type : String) (negate : Bool) (cmpr : Comparison) (subs : List Predicate) (m : Machine) :
    update_query_with_predicate fp arguments schema type (.mk .Comparison negate cmpr subs) m
      = add_comparison_to_query fp (.mk .Comparison negate cmpr subs) arguments schema type
          (if negate then { m with query := m.query ++ [.Not] } else m) := by
  cases negate <;> rfl

/-- A comparison `keypath op $i` whose key path is one segment naming `p` and
whose argument is not null goes to `do_add_comparison_to_query`, after one
null test. -/
theorem add_comparison_keypath_argument (fp : FloatingExtraction) (args : Arguments)
    (schema : Schema) (objectType : String) (d : ObjectSchema) (p : Property)
    (negate : Bool) (op : Operator) (option : OperatorOption) (key_path text : String)
    (subs : List Predicate) (i : Int) (m : Machine)
    (hd : schema.find objectType = some d)
    (hk : key_path_from_string key_path = [p.name])
    (hp : d.property_for_name p.name = some p)
    (hi : stot_int text = .ok i)
    (hnull : args.is_argument_null i = .ok false) :
    add_comparison_to_query fp
        (.mk .Comparison negate ⟨op, option, ⟨.KeyPath, key_path⟩, ⟨.Argument, text⟩⟩ subs)
        args schema objectType m
      = do_add_comparison_to_query fp ⟨op, option, ⟨.KeyPath, key_path⟩, ⟨.Argument, text⟩⟩
          ⟨some p, []⟩ (.column_value ⟨some p, []⟩ ⟨.Argument, text⟩) args
          { m with calls := m.calls ++ [.is_argument_null i] } := by
  have hnew := new_single schema d key_path p.name p hk hp
  simp [add_comparison_to_query, Predicate.cmpr, hd, hnew, bind_apply, Build.lift,
    expression_is_null, hi, hnull, Build.call]

set_option maxHeartbeats 4000000 in
/-- For an operator outside the supported set of the property's type, and an
argument the typed accessor returns a value for, `do_add_comparison_to_query`
throws the unsupported-operator error of that type. -/
theorem do_add_comparison_unsupported (fp : FloatingExtraction) (args : Arguments)
    (p : Property) (op : Operator) (option : OperatorOption) (lhs : Expression)
    (text : String) (i : Int) (m : Machine)
    (hi : stot_int text = .ok i)
    (hval : typed_accessor_returns args i p.type = true)
    (hop : spec_supported_operator p.type op = false) :
    (do_add_comparison_to_query fp ⟨op, option, lhs, ⟨.Argument, text⟩⟩
        ⟨some p, []⟩ (.column_value ⟨some p, []⟩ ⟨.Argument, text⟩) args m).1
      = .error (.logic_error (unsupported_operator_what p.type)) := by
  rcases p with ⟨pname, ptype, pobj, pcol⟩
  cases ptype <;> cases op <;> simp [spec_supported_operator] at hop <;>
    simp only [typed_accessor_returns, returns_iff] at hval <;>
    obtain ⟨v, hv⟩ := hval <;>
    simp [do_add_comparison_to_query, bind_apply, Build.deref, Build.pure,
      values_of_type_for_query, ColumnGetter.convert, pure_apply, ValueGetter.bool.convert,
      ValueGetter.Timestamp.convert, ValueGetter.Double.convert,
      ValueGetter.Float.convert, ValueGetter.Int.convert, ValueGetter.String.convert,
      ValueGetter.Binary.convert, link_argument, Build.lift, hi, Build.call, hv,
      add_bool_constraint_to_query, add_numeric_constraint_to_query,
      add_string_constraint_to_query_column_value, add_binary_constraint_to_query_column_value,
      add_link_constraint_to_query, Build.throw, unsupported_operator_what]

set_option maxHeartbeats 4000000 in
/-- For every operator, when the typed accessor of the property's type throws,
`do_add_comparison_to_query` ends with that exception: the value getter runs
before the operator is looked at. -/
theorem do_add_comparison_accessor_throws (fp : FloatingExtraction) (args : Arguments)
    (p : Property) (op : Operator) (option : OperatorOption) (lhs : Expression)
    (text : String) (i : Int) (m : Machine) (e : Exception)
    (hi : stot_int text = .ok i)
    (hthrow : typed_accessor_exception args i p.type = some e) :
    (do_add_comparison_to_query fp ⟨op, option, lhs, ⟨.Argument, text⟩⟩
        ⟨some p, []⟩ (.column_value ⟨some p, []⟩ ⟨.Argument, text⟩) args m).1
      = .error e := by
  rcases p with ⟨pname, ptype, pobj, pcol⟩
  cases ptype <;> simp only [typed_accessor_exception] at hthrow <;>
    split at hthrow <;> simp at hthrow <;> subst hthrow <;>
    rename_i hacc <;>
    simp [do_add_comparison_to_query, bind_apply, Build.deref, Build.pure,
      values_of_type_for_query, ColumnGetter.convert, pure_apply, ValueGetter.bool.convert,
      ValueGetter.Timestamp.convert, ValueGetter.Double.convert,
      ValueGetter.Float.convert, ValueGetter.Int.convert, ValueGetter.String.convert,
      ValueGetter.Binary.convert, link_argument, Build.lift, hi, Build.call, hacc]

/-! ## Properties of the builder -/

/-- C1 (counterexample): `retired < $0` on the boolean property `retired`, with
an Argument that is not null but for which the bool accessor throws: the
comparison fails with the exception of the accessor, not with the
unsupported-operator error. -/
theorem C1_accessor_error_counterexample :
    refusing_arguments.is_argument_null 0 = .ok false
      ∧ spec_supported_operator .Bool .LessThan = false
      ∧ (apply_predicate no_floating (fun _ => "")
          (.mk .Comparison false
            ⟨.LessThan, .None, ⟨.KeyPath, "retired"⟩, ⟨.Argument, "0"⟩⟩ [])
          refusing_arguments person_schema "Person" empty_machine).1
        = .error (.foreign "Argument is not a bool")
      ∧ Exception.foreign "Argument is not a bool"
        ≠ Exception.logic_error (unsupported_operator_what .Bool) :=
  ⟨rfl, rfl, rfl, by decide⟩

/-- C1 (amended): for every property type and every operator outside that
type's supported set, compiling the single comparison `keypath OP $i`, whose
key path is one segment naming a property `p` of the root type and whose
Argument is not null, fails: with the unsupported-operator `logic_error` of the
type when the typed accessor of `p`'s type returns a value for the Argument, and
with the exception of that accessor when it throws (the value is fetched before
the operator is looked at). -/
theorem C1_unsupported_operator_fails (fp : FloatingExtraction)
    (validate : List QueryOp → String) (args : Arguments)
    (schema : Schema) (objectType : String) (d : ObjectSchema) (p : Property)
    (negate : Bool) (op : Operator) (option : OperatorOption) (key_path text : String)
    (subs : List Predicate) (i : Int) (m : Machine)
    (hd : schema.find objectType = some d)
    (hk : key_path_from_string key_path = [p.name])
    (hp : d.property_for_name p.name = some p)
    (hi : stot_int text = .ok i)
    (hnull : args.is_argument_null i = .ok false)
    (hop : spec_supported_operator p.type op = false) :
    (typed_accessor_returns args i p.type = true →
        (apply_predicate fp validate
          (.mk .Comparison negate ⟨op, option, ⟨.KeyPath, key_path⟩, ⟨.Argument, text⟩⟩ subs)
          args schema objectType m).1
          = .error (.logic_error (unsupported_operator_what p.type)))
      ∧ (∀ e, typed_accessor_exception args i p.type = some e →
        (apply_predicate fp validate
          (.mk .Comparison negate ⟨op, option, ⟨.KeyPath, key_path⟩, ⟨.Argument, text⟩⟩ subs)
          args schema objectType m).1
          = .error e) := by
  have hroute : ∀ err : Exception,
      (do_add_comparison_to_query fp ⟨op, option, ⟨.KeyPath, key_path⟩, ⟨.Argument, text⟩⟩
        ⟨some p, []⟩ (.column_value ⟨some p, []⟩ ⟨.Argument, text⟩) args
        { (if negate then { m with query := m.query ++ [.Not] } else m) with
          calls := (if negate then { m with query := m.query ++ [.Not] } else m).calls
            ++ [.is_argument_null i] }).1 = .error err →
      (apply_predicate fp validate
        (.mk .Comparison negate ⟨op, option, ⟨.KeyPath, key_path⟩, ⟨.Argument, text⟩⟩ subs)
        args schema objectType m).1 = .error err := by
    intro err h
    rw [← add_comparison_keypath_argument fp args schema objectType d p negate op option
      key_path text subs i _ hd hk hp hi hnull, ← update_comparison] at h
    generalize hr : update_query_with_predicate fp args schema objectType
      (.mk .Comparison negate ⟨op, option, ⟨.KeyPath, key_path⟩, ⟨.Argument, text⟩⟩ subs) m
      = r at h
    rcases r with ⟨r1, m1⟩
    simp only at h
    subst h
    rw [apply_predicate_error fp validate _ args schema objectType m m1 _ hr]
  constructor
  · intro hval
    exact hroute _ (do_add_comparison_unsupported fp args p op option ⟨.KeyPath, key_path⟩
      text i _ hi hval hop)
  · intro e hthrow
    exact hroute _ (do_add_comparison_accessor_throws fp args p op option
      ⟨.KeyPath, key_path⟩ text i _ e hi hthrow)

/-- C1 (amended), at an input: `retired < $0` on the boolean property `retired`,
with an Argument for which the bool accessor returns a value. -/
theorem C1_unsupported_operator_fails_witness :
    (apply_predicate no_floating (fun _ => "")
      (.mk .Comparison false
        ⟨.LessThan, .None, ⟨.KeyPath, "retired"⟩, ⟨.Argument, "0"⟩⟩ [])
      sample_arguments person_schema "Person" empty_machine).1
      = .error (.logic_error "Unsupported operator for numeric queries.") :=
  (C1_unsupported_operator_fails no_floating (fun _ => "") sample_arguments person_schema
    "Person" person ⟨"retired", .Bool, "", 4⟩ false .LessThan .None "retired" "0" [] 0
    empty_machine (by rfl) (by rfl) (by rfl) (by rfl) (by rfl) (by rfl)).1 (by rfl)

/-- Following link segments takes the constructor's loop to the object schema
reached: the loop continues on the remaining segments with a pending property
that is a link (or absent), and the hops already pushed together with the
pending column are the columns followed. -/
theorem walk_follow_links (schema : Schema) (segments : List String) :
    ∀ (d : ObjectSchema) (prop : Option Property) (indexes : List Nat) (cols : List Nat)
      (target : ObjectSchema),
      is_link_or_absent prop = true →
      follow_links schema d segments = some (cols, target) →
      ∃ (prop1 : Option Property) (indexes1 : List Nat),
        is_link_or_absent prop1 = true ∧
        indexes1 ++ pending_column prop1 = indexes ++ pending_column prop ++ cols ∧
        ∀ rest, PropertyExpression.walk schema (segments ++ rest) (some d) prop indexes
          = PropertyExpression.walk schema rest (some target) prop1 indexes1 := by
  induction segments with
  | nil =>
    intro d prop indexes cols target hprop hf
    simp [follow_links] at hf
    obtain ⟨rfl, rfl⟩ := hf
    exact ⟨prop, indexes, hprop, by simp, fun rest => rfl⟩
  | cons segment more ih =>
    intro d prop indexes cols target hprop hf
    simp only [follow_links] at hf
    cases hq : d.property_for_name segment with
    | none => simp [hq] at hf
    | some q =>
      simp only [hq] at hf
      by_cases hlink : (q.type = PropertyType.Object ∨ q.type = PropertyType.Array)
          ∧ q.object_type.length ≠ 0
      · rw [if_pos hlink] at hf
        cases hfind : schema.find q.object_type with
        | none => simp [hfind] at hf
        | some mid =>
          simp only [hfind] at hf
          cases hrec : follow_links schema mid more with
          | none => simp [hrec] at hf
          | some r =>
            simp only [hrec, Option.some.injEq, Prod.mk.injEq] at hf
            obtain ⟨hcols, htarget⟩ := hf
            have hq_link : is_link_or_absent (some q) = true := by
              simp [is_link_or_absent, hlink.1]
            obtain ⟨prop1, indexes1, h1, h2, h3⟩ :=
              ih mid (some q) (indexes ++ pending_column prop) r.1 r.2 hq_link hrec
            refine ⟨prop1, indexes1, h1, ?_, ?_⟩
            · rw [h2, ← hcols]
              simp [pending_column]
            · intro rest
              rw [← htarget, ← h3 rest]
              cases prop with
              | none =>
                simp [PropertyExpression.walk, hq, hlink.2, hfind, pending_column]
              | some p0 =>
                have hp0 : p0.type = PropertyType.Object ∨ p0.type = PropertyType.Array := by
                  simpa [is_link_or_absent] using hprop
                simp [PropertyExpression.walk, hq, hlink.2, hfind, pending_column, hp0]
      · rw [if_neg hlink] at hf
        simp at hf

/-- The last turn of the constructor's loop, on a segment that names a
property. -/
theorem walk_last (schema : Schema) (d : ObjectSchema) (prop : Option Property)
    (indexes : List Nat) (last : String) (p : Property)
    (hprop : is_link_or_absent prop = true)
    (hp : d.property_for_name last = some p) :
    PropertyExpression.walk schema [last] (some d) prop indexes
      = .ok { prop := some p, indexes := indexes ++ pending_column prop } := by
  cases prop with
  | none => simp [PropertyExpression.walk, hp, pending_column]
  | some p0 =>
    have hp0 : p0.type = PropertyType.Object ∨ p0.type = PropertyType.Array := by
      simpa [is_link_or_absent] using hprop
    simp [PropertyExpression.walk, hp, pending_column, hp0]

/-- C2: for a key path whose non-final segments can be followed as links from
the starting object schema (each names an object-link or link-list property of
the schema reached so far, with a resolvable target) and whose final segment
names a property `p` of the schema reached, resolution succeeds; the hop list is
the list of the columns of the non-final segments, in order, so it has one entry
per non-final segment; and the terminal property is `p`. -/
theorem C2_key_path_resolution (schema : Schema) (d target : ObjectSchema)
    (key_path_string : String) (links : List String) (last : String) (cols : List Nat)
    (p : Property)
    (hs : key_path_from_string key_path_string = links ++ [last])
    (hf : follow_links schema d links = some (cols, target))
    (hp : target.property_for_name last = some p) :
    PropertyExpression.new schema (some d) key_path_string
        = .ok { prop := some p, indexes := cols }
      ∧ cols.length = links.length
      ∧ cols.length + 1 = (key_path_from_string key_path_string).length := by
  obtain ⟨prop1, indexes1, h1, h2, h3⟩ :=
    walk_follow_links schema links d none [] cols target rfl hf
  have hlen : ∀ (segments : List String) (d0 t0 : ObjectSchema) (cs : List Nat),
      follow_links schema d0 segments = some (cs, t0) → cs.length = segments.length := by
    intro segments
    induction segments with
    | nil =>
      intro d0 t0 cs h
      simp [follow_links] at h
      simp [h.1.symm]
    | cons segment more ih =>
      intro d0 t0 cs h
      simp only [follow_links] at h
      split at h
      · simp at h
      · split at h
        · split at h
          · simp at h
          · split at h
            · simp at h
            · rename_i r hr
              simp only [Option.some.injEq, Prod.mk.injEq] at h
              rw [← h.1]
              simp [ih _ r.2 r.1 (by rw [hr])]
        · simp at h
  refine ⟨?_, hlen links d target cols hf, ?_⟩
  · rw [PropertyExpression.new, hs, h3 [last], walk_last schema target prop1 indexes1 last p h1 hp,
      h2]
    simp [pending_column]
  · rw [hs, hlen links d target cols hf]
    simp

/-- C2, at an input: `a.b.c` with links `a` and `b` and an integer `c` resolves
with the two hops `[0, 1]` and terminal property `c`. -/
theorem C2_key_path_resolution_witness :
    PropertyExpression.new chain_schema (some chain_root) "a.b.c"
        = .ok { prop := some ⟨"c", .Int, "", 0⟩, indexes := [0, 1] }
      ∧ [0, 1].length = ["a", "b"].length
      ∧ [0, 1].length + 1 = (key_path_from_string "a.b.c").length :=
  C2_key_path_resolution chain_schema chain_root
    { name := "Leaf"
      property_for_name := fun k => if k = "c" then some ⟨"c", .Int, "", 0⟩ else none }
    "a.b.c" ["a", "b"] "c" [0, 1] ⟨"c", .Int, "", 0⟩ (by rfl) (by rfl) (by rfl)

/-- A turn of the constructor's loop on a segment that is not a property of the
current object schema. -/
theorem walk_unknown (schema : Schema) (d : ObjectSchema) (prop : Option Property)
    (indexes : List Nat) (segment : String) (rest : List String)
    (hprop : is_link_or_absent prop = true)
    (hp : d.property_for_name segment = none) :
    PropertyExpression.walk schema (segment :: rest) (some d) prop indexes
      = .error (.logic_error
          ("No property '" ++ segment ++ "' on object of type '" ++ d.name ++ "'")) := by
  cases prop with
  | none => simp [PropertyExpression.walk, hp]
  | some p0 =>
    have hp0 : p0.type = PropertyType.Object ∨ p0.type = PropertyType.Array := by
      simpa [is_link_or_absent] using hprop
    simp [PropertyExpression.walk, hp, hp0]

/-- Two turns of the constructor's loop, the first on a segment naming a
property `q` that is not a link (and names no object type), the second on any
segment `next`: the exception names `next`. -/
theorem walk_non_link (schema : Schema) (d : ObjectSchema) (prop : Option Property)
    (indexes : List Nat) (segment next : String) (rest : List String) (q : Property)
    (hprop : is_link_or_absent prop = true)
    (hq : d.property_for_name segment = some q)
    (hlink : ¬ (q.type = PropertyType.Object ∨ q.type = PropertyType.Array))
    (hobj : q.object_type.length = 0) :
    PropertyExpression.walk schema (segment :: next :: rest) (some d) prop indexes
      = .error (.logic_error
          ("Property '" ++ next ++ "' is not a link in object of type '" ++ d.name ++ "'")) := by
  cases prop with
  | none => simp [PropertyExpression.walk, hq, hlink, hobj]
  | some p0 =>
    have hp0 : p0.type = PropertyType.Object ∨ p0.type = PropertyType.Array := by
      simpa [is_link_or_absent] using hprop
    simp [PropertyExpression.walk, hq, hlink, hobj, hp0]

/-- A comparison with the key path on the left whose resolution throws: the
exception leaves `add_comparison_to_query` with the state untouched. -/
theorem add_comparison_resolution_error (fp : FloatingExtraction) (args : Arguments)
    (schema : Schema) (objectType : String) (negate : Bool) (op : Operator)
    (option : OperatorOption) (key_path : String) (value : Expression)
    (subs : List Predicate) (m : Machine) (e : Exception)
    (hv : value.type ≠ ExpressionType.KeyPath)
    (he : PropertyExpression.new schema (schema.find objectType) key_path = .error e) :
    add_comparison_to_query fp
        (.mk .Comparison negate ⟨op, option, ⟨.KeyPath, key_path⟩, value⟩ subs)
        args schema objectType m
      = (.error e, m) := by
  simp [add_comparison_to_query, Predicate.cmpr, hv, he, bind_apply, Build.lift]

/-- C3 (as the code behaves): when a non-final segment resolves to a property
`q` that is neither object-link nor link-list (the earlier segments being
followed as links), resolution fails with a `logic_error` whose message names
the segment that FOLLOWS the non-link one, not the non-link segment itself:
`Property '<next>' is not a link in object of type '<type holding q>'`. -/
theorem C3_non_link_segment_error (schema : Schema) (d target : ObjectSchema)
    (key_path_string : String) (links : List String) (segment next : String)
    (rest : List String) (cols : List Nat) (q : Property)
    (hs : key_path_from_string key_path_string = links ++ segment :: next :: rest)
    (hf : follow_links schema d links = some (cols, target))
    (hq : target.property_for_name segment = some q)
    (hlink : ¬ (q.type = PropertyType.Object ∨ q.type = PropertyType.Array))
    (hobj : q.object_type.length = 0) :
    PropertyExpression.new schema (some d) key_path_string
      = .error (.logic_error
          ("Property '" ++ next ++ "' is not a link in object of type '"
            ++ target.name ++ "'")) := by
  obtain ⟨prop1, indexes1, h1, _, h3⟩ :=
    walk_follow_links schema links d none [] cols target rfl hf
  rw [PropertyExpression.new, hs, h3 (segment :: next :: rest),
    walk_non_link schema target prop1 indexes1 segment next rest q h1 hq hlink hobj]

/-- C3, at the failing input: for `a.n.c`, where `a` is a link to `Mid` and
`Mid.n` is an integer, the message names `c` and not the non-link segment `n`. -/
theorem C3_non_link_segment_error_witness :
    PropertyExpression.new chain_schema (some chain_root) "a.n.c"
      = .error (.logic_error "Property 'c' is not a link in object of type 'Mid'") :=
  C3_non_link_segment_error chain_schema chain_root
    { name := "Mid"
      property_for_name := fun k =>
        if k = "b" then some ⟨"b", .Array, "Leaf", 1⟩
        else if k = "n" then some ⟨"n", .Int, "", 2⟩ else none }
    "a.n.c" ["a"] "n" "c" [] [0] ⟨"n", .Int, "", 2⟩ (by rfl) (by rfl) (by rfl) (by decide)
    (by rfl)

/-- C4: when segment `segment` of a key path is not a property name of the
object schema `target` reached by following the segments before it as links,
resolution fails with the `logic_error`
`No property '<segment>' on object of type '<target.name>'`; and every
comparison with that key path on the left and a value on the right fails to
compile with that same error. -/
theorem C4_unknown_property_error (schema : Schema) (d target : ObjectSchema)
    (key_path_string : String) (links : List String) (segment : String)
    (rest : List String) (cols : List Nat)
    (hs : key_path_from_string key_path_string = links ++ segment :: rest)
    (hf : follow_links schema d links = some (cols, target))
    (hp : target.property_for_name segment = none) :
    PropertyExpression.new schema (some d) key_path_string
        = .error (.logic_error
            ("No property '" ++ segment ++ "' on object of type '" ++ target.name ++ "'"))
      ∧ ∀ (fp : FloatingExtraction) (validate : List QueryOp → String) (args : Arguments)
          (objectType : String) (negate : Bool) (op : Operator) (option : OperatorOption)
          (value : Expression) (subs : List Predicate) (m : Machine),
          schema.find objectType = some d → value.type ≠ ExpressionType.KeyPath →
          (apply_predicate fp validate
            (.mk .Comparison negate ⟨op, option, ⟨.KeyPath, key_path_string⟩, value⟩ subs)
            args schema objectType m).1
            = .error (.logic_error
                ("No property '" ++ segment ++ "' on object of type '" ++ target.name ++ "'")) := by
  obtain ⟨prop1, indexes1, h1, _, h3⟩ :=
    walk_follow_links schema links d none [] cols target rfl hf
  have hnew : PropertyExpression.new schema (some d) key_path_string
      = .error (.logic_error
          ("No property '" ++ segment ++ "' on object of type '" ++ target.name ++ "'")) := by
    rw [PropertyExpression.new, hs, h3 (segment :: rest),
      walk_unknown schema target prop1 indexes1 segment rest h1 hp]
  refine ⟨hnew, ?_⟩
  intro fp validate args objectType negate op option value subs m hd hv
  rw [← hd] at hnew
  rw [apply_predicate_error fp validate _ args schema objectType m _ _
    (by rw [update_comparison]
        exact add_comparison_resolution_error fp args schema objectType negate op option
          key_path_string value subs _ _ hv hnew)]

/-- C4, at an input: the comparison `missing_field == 1` on `Person`, which has
no `missing_field`, fails naming `missing_field` and `Person`. -/
theorem C4_unknown_property_error_witness :
    PropertyExpression.new person_schema (some person) "missing_field"
        = .error (.logic_error "No property 'missing_field' on object of type 'Person'")
      ∧ (apply_predicate no_floating (fun _ => "")
          (comparison .Equal ⟨.KeyPath, "missing_field"⟩ ⟨.Number, "1"⟩)
          sample_arguments person_schema "Person" empty_machine).1
        = .error (.logic_error "No property 'missing_field' on object of type 'Person'") :=
  ⟨(C4_unknown_property_error person_schema person person "missing_field" []
      "missing_field" [] [] (by rfl) (by rfl) (by rfl)).1,
   (C4_unknown_property_error person_schema person person "missing_field" []
      "missing_field" [] [] (by rfl) (by rfl) (by rfl)).2 no_floating (fun _ => "")
      sample_arguments "Person" false .Equal .None ⟨.Number, "1"⟩ [] empty_machine
      (by rfl) (by decide)⟩

/-! ## The builder only adds to its state -/

theorem extend_empty (d : Machine) : empty_machine.extend d = d := by
  simp [Machine.extend, empty_machine]

theorem extend_extend (m a b : Machine) : (m.extend a).extend b = m.extend (a.extend b) := by
  simp [Machine.extend]

theorem framed_pure {α : Type} (a : α) : Framed (pure a : Build α) := by
  intro m
  simp [pure_apply, Machine.extend, empty_machine]

theorem framed_build_pure {α : Type} (a : α) : Framed (Build.pure a) := framed_pure a

theorem framed_throw {α : Type} (e : Exception) : Framed (Build.throw e : Build α) := by
  intro m
  simp [Build.throw, Machine.extend, empty_machine]

theorem framed_append (op : QueryOp) : Framed (Build.append op) := by
  intro m
  simp [Build.append, Machine.extend, empty_machine]

theorem framed_call {α : Type} (c : Call) (r : Except Exception α) :
    Framed (Build.call c r) := by
  intro m
  simp [Build.call, Machine.extend, empty_machine]

theorem framed_lift {α : Type} (r : Except Exception α) : Framed (Build.lift r) := by
  intro m
  simp [Build.lift, Machine.extend, empty_machine]

theorem framed_deref {α : Type} (what : String) (o : Option α) :
    Framed (Build.deref what o) := by
  cases o
  · exact framed_throw _
  · exact framed_build_pure _

theorem framed_bind {α β : Type} (x : Build α) (f : α → Build β) (hx : Framed x)
    (hf : ∀ a, Framed (f a)) : Framed (x >>= f) := by
  intro m
  rw [bind_apply, bind_apply, hx m]
  rcases hxe : x empty_machine with ⟨r, d⟩
  cases r with
  | error e => simp
  | ok a =>
    simp only
    rw [hf a (m.extend d), hf a d, extend_extend]

theorem framed_ite {α : Type} (c : Prop) [Decidable c] (x y : Build α) (hx : Framed x)
    (hy : Framed y) : Framed (if c then x else y) := by
  split
  · exact hx
  · exact hy

theorem framed_add_numeric (op : Operator) (lhs rhs : Operand) :
    Framed (add_numeric_constraint_to_query op lhs rhs) := by
  cases op <;> first | exact framed_append _ | exact framed_throw _

theorem framed_add_bool (op : Operator) (lhs rhs : Operand) :
    Framed (add_bool_constraint_to_query op lhs rhs) := by
  cases op <;> first | exact framed_append _ | exact framed_throw _

theorem framed_add_string_column_value (cmp : Comparison) (column : Columns) (value : String) :
    Framed (add_string_constraint_to_query_column_value cmp column value) := by
  unfold add_string_constraint_to_query_column_value
  split <;> first | exact framed_append _ | exact framed_throw _

theorem framed_add_string_value_column (cmp : Comparison) (value : String) (column : Columns) :
    Framed (add_string_constraint_to_query_value_column cmp value column) := by
  unfold add_string_constraint_to_query_value_column
  split <;> first | exact framed_append _ | exact framed_throw _

theorem framed_add_binary_column_value (op : Operator) (column : Columns) (value : String) :
    Framed (add_binary_constraint_to_query_column_value op column value) := by
  cases op <;> first | exact framed_append _ | exact framed_throw _

theorem framed_add_binary_value_column (op : Operator) (value : String) (column : Columns) :
    Framed (add_binary_constraint_to_query_value_column op value column) := by
  cases op <;> first | exact framed_append _ | exact framed_throw _

theorem framed_add_link (op : Operator) (prop_expr : PropertyExpression) (row_index : Nat) :
    Framed (add_link_constraint_to_query op prop_expr row_index) := by
  unfold add_link_constraint_to_query
  split
  · exact framed_throw _
  · split
    · exact framed_bind _ _ (framed_append _) fun _ =>
        framed_bind _ _ (framed_deref _ _) fun _ => framed_append _
    · exact framed_bind _ _ (framed_deref _ _) fun _ => framed_append _
    · exact framed_throw _
theorem framed_link_argument (argExpr : Expression) (args : Arguments) :
    Framed (link_argument argExpr args) :=
  framed_bind _ _ (framed_lift _) fun _ => framed_call _ _

theorem framed_column_getter (RetType : ColumnType) (table : List Nat)
    (expr : PropertyExpression) : Framed (ColumnGetter.convert RetType table expr) :=
  framed_bind _ _ (framed_deref _ _) fun _ => framed_pure _

theorem framed_value_timestamp (value : Expression) (args : Arguments) :
    Framed (ValueGetter.Timestamp.convert value args) := by
  unfold ValueGetter.Timestamp.convert
  repeat' first
    | exact framed_pure _ | exact framed_throw _ | exact framed_call _ _
    | exact framed_lift _ | apply framed_bind | split | intro _

theorem framed_value_bool (value : Expression) (args : Arguments) :
    Framed (ValueGetter.bool.convert value args) := by
  unfold ValueGetter.bool.convert
  repeat' first
    | exact framed_pure _ | exact framed_throw _ | exact framed_call _ _
    | exact framed_lift _ | apply framed_bind | split | intro _

theorem framed_value_double (fp : FloatingExtraction) (value : Expression) (args : Arguments) :
    Framed (ValueGetter.Double.convert fp value args) := by
  unfold ValueGetter.Double.convert
  repeat' first
    | exact framed_pure _ | exact framed_throw _ | exact framed_call _ _
    | exact framed_lift _ | apply framed_bind | split | intro _

theorem framed_value_float (fp : FloatingExtraction) (value : Expression) (args : Arguments) :
    Framed (ValueGetter.Float.convert fp value args) := by
  unfold ValueGetter.Float.convert
  repeat' first
    | exact framed_pure _ | exact framed_throw _ | exact framed_call _ _
    | exact framed_lift _ | apply framed_bind | split | intro _

theorem framed_value_int (value : Expression) (args : Arguments) :
    Framed (ValueGetter.Int.convert value args) := by
  unfold ValueGetter.Int.convert
  repeat' first
    | exact framed_pure _ | exact framed_throw _ | exact framed_call _ _
    | exact framed_lift _ | apply framed_bind | split | intro _

theorem framed_value_string (value : Expression) (args : Arguments) :
    Framed (ValueGetter.String.convert value args) := by
  unfold ValueGetter.String.convert
  repeat' first
    | exact framed_pure _ | exact framed_throw _ | exact framed_call _ _
    | exact framed_lift _ | apply framed_bind | split | intro _

theorem framed_value_binary (value : Expression) (args : Arguments) :
    Framed (ValueGetter.Binary.convert value args) := by
  unfold ValueGetter.Binary.convert
  repeat' first
    | exact framed_pure _ | exact framed_throw _ | exact framed_call _ _
    | exact framed_lift _ | apply framed_bind | split | intro _

theorem framed_values_of_type {α : Type} (RetType : ColumnType)
    (getter : Expression → Arguments → Build α) (wrap : α → Operand)
    (expr : PropertyExpression) (sides : Sides) (args : Arguments)
    (hg : ∀ v, Framed (getter v args)) :
    Framed (values_of_type_for_query RetType getter wrap expr sides args) := by
  unfold values_of_type_for_query
  repeat' first
    | exact framed_pure _ | exact hg _ | exact framed_column_getter _ _ _
    | apply framed_bind | split | intro _

theorem framed_do_add_comparison (fp : FloatingExtraction) (cmp : Comparison)
    (expr : PropertyExpression) (sides : Sides) (args : Arguments) :
    Framed (do_add_comparison_to_query fp cmp expr sides args) := by
  unfold do_add_comparison_to_query
  repeat' first
    | exact framed_deref _ _
    | exact framed_values_of_type _ _ _ _ _ _ (framed_value_bool · args)
    | exact framed_values_of_type _ _ _ _ _ _ (framed_value_timestamp · args)
    | exact framed_values_of_type _ _ _ _ _ _ (framed_value_double fp · args)
    | exact framed_values_of_type _ _ _ _ _ _ (framed_value_float fp · args)
    | exact framed_values_of_type _ _ _ _ _ _ (framed_value_int · args)
    | exact framed_value_string _ _ | exact framed_value_binary _ _
    | exact framed_column_getter _ _ _ | exact framed_link_argument _ _
    | exact framed_add_bool _ _ _ | exact framed_add_numeric _ _ _
    | exact framed_add_string_column_value _ _ _ | exact framed_add_string_value_column _ _ _
    | exact framed_add_binary_column_value _ _ _ | exact framed_add_binary_value_column _ _ _
    | exact framed_add_link _ _ _
    | apply framed_bind | split | intro _

theorem framed_null_T (T : ColumnType) (op : Operator) (expr : PropertyExpression) :
    Framed (do_add_null_comparison_to_query_T T op expr) := by
  unfold do_add_null_comparison_to_query_T
  repeat' first
    | exact framed_deref _ _ | exact framed_append _ | exact framed_throw _
    | apply framed_bind | split | intro _

theorem framed_null_Binary (op : Operator) (expr : PropertyExpression) :
    Framed (do_add_null_comparison_to_query_Binary op expr) := by
  unfold do_add_null_comparison_to_query_Binary
  repeat' first
    | exact framed_deref _ _ | exact framed_append _ | exact framed_throw _
    | apply framed_bind | split | intro _

theorem framed_null_Link (op : Operator) (expr : PropertyExpression) :
    Framed (do_add_null_comparison_to_query_Link op expr) := by
  unfold do_add_null_comparison_to_query_Link
  repeat' first
    | exact framed_deref _ _ | exact framed_append _ | exact framed_throw _
    | apply framed_bind | split | intro _

theorem framed_do_add_null_comparison (cmp : Comparison) (expr : PropertyExpression) :
    Framed (do_add_null_comparison_to_query cmp expr) := by
  unfold do_add_null_comparison_to_query
  repeat' first
    | exact framed_deref _ _ | exact framed_throw _
    | exact framed_null_T _ _ _ | exact framed_null_Binary _ _ | exact framed_null_Link _ _
    | apply framed_bind | split | intro _

theorem framed_expression_is_null (expr : Expression) (args : Arguments) :
    Framed (expression_is_null expr args) := by
  unfold expression_is_null
  repeat' first
    | exact framed_pure _ | exact framed_call _ _ | exact framed_lift _
    | apply framed_bind | split | intro _

theorem framed_add_comparison (fp : FloatingExtraction) (pred : Predicate) (args : Arguments)
    (schema : Schema) (type : String) :
    Framed (add_comparison_to_query fp pred args schema type) := by
  unfold add_comparison_to_query
  dsimp only
  repeat' first
    | exact framed_lift _ | exact framed_throw _ | exact framed_expression_is_null _ _
    | exact framed_do_add_null_comparison _ _ | exact framed_do_add_comparison _ _ _ _ _
    | apply framed_bind | split | intro _

mutual
theorem framed_update (fp : FloatingExtraction) (arguments : Arguments) (schema : Schema)
    (type : String) :
    ∀ pred : Predicate, Framed (update_query_with_predicate fp arguments schema type pred)
  | .mk ptype negate cmpr subs => by
    have hand := framed_and_subs fp arguments schema type subs
    have hor := framed_or_subs fp arguments schema type subs
    unfold update_query_with_predicate
    repeat' first
      | exact framed_pure _ | exact framed_append _ | exact hand | exact hor
      | exact framed_add_comparison _ _ _ _ _
      | apply framed_bind | split | intro _
theorem framed_and_subs (fp : FloatingExtraction) (arguments : Arguments) (schema : Schema)
    (type : String) :
    ∀ subs : List Predicate, Framed (update_query_with_and_subs fp arguments schema type subs)
  | [] => by
    unfold update_query_with_and_subs
    exact framed_pure _
  | sub :: rest => by
    have h1 := framed_update fp arguments schema type sub
    have h2 := framed_and_subs fp arguments schema type rest
    unfold update_query_with_and_subs
    exact framed_bind _ _ h1 fun _ => h2
theorem framed_or_subs (fp : FloatingExtraction) (arguments : Arguments) (schema : Schema)
    (type : String) :
    ∀ subs : List Predicate, Framed (update_query_with_or_subs fp arguments schema type subs)
  | [] => by
    unfold update_query_with_or_subs
    exact framed_pure _
  | sub :: rest => by
    have h1 := framed_update fp arguments schema type sub
    have h2 := framed_or_subs fp arguments schema type rest
    unfold update_query_with_or_subs
    exact framed_bind _ _ (framed_append _) fun _ => framed_bind _ _ h1 fun _ => h2
end

theorem framed_result {α : Type} (x : Build α) (hx : Framed x) (m : Machine) :
    (x m).1 = (x empty_machine).1 := by
  rw [hx m]

theorem framed_query {α : Type} (x : Build α) (hx : Framed x) (m : Machine) :
    (x m).2.query = m.query ++ emitted x := by
  rw [hx m]
  rfl

theorem framed_calls {α : Type} (x : Build α) (hx : Framed x) (m : Machine) :
    (x m).2.calls = m.calls ++ (x empty_machine).2.calls := by
  rw [hx m]
  rfl

/-- The loop of the `And` case, when it ends without an exception, adds the
fragments of the sub-predicates in order. -/
theorem and_subs_query (fp : FloatingExtraction) (arguments : Arguments) (schema : Schema)
    (type : String) (subs : List Predicate) :
    ∀ m : Machine,
      (update_query_with_and_subs fp arguments schema type subs m).1 = .ok () →
      (update_query_with_and_subs fp arguments schema type subs m).2.query
        = m.query ++ sub_fragments [] fp arguments schema type subs := by
  induction subs with
  | nil =>
    intro m _
    simp [update_query_with_and_subs, pure_apply, sub_fragments]
  | cons sub rest ih =>
    intro m hok
    have hq := framed_query _ (framed_update fp arguments schema type sub) m
    simp only [update_query_with_and_subs, bind_apply] at hok ⊢
    rcases hsub : update_query_with_predicate fp arguments schema type sub m with ⟨r, m1⟩
    rw [hsub] at hok hq
    cases r with
    | error e => simp at hok
    | ok u =>
      simp only at hok hq ⊢
      rw [ih m1 hok, hq]
      simp [sub_fragments]

/-- The loop of the `Or` case, when it ends without an exception, adds the
fragments of the sub-predicates in order, each after one `Or`. -/
theorem or_subs_query (fp : FloatingExtraction) (arguments : Arguments) (schema : Schema)
    (type : String) (subs : List Predicate) :
    ∀ m : Machine,
      (update_query_with_or_subs fp arguments schema type subs m).1 = .ok () →
      (update_query_with_or_subs fp arguments schema type subs m).2.query
        = m.query ++ sub_fragments [.Or] fp arguments schema type subs := by
  induction subs with
  | nil =>
    intro m _
    simp [update_query_with_or_subs, pure_apply, sub_fragments]
  | cons sub rest ih =>
    intro m hok
    have hq := framed_query _ (framed_update fp arguments schema type sub)
      { m with query := m.query ++ [.Or] }
    simp only [update_query_with_or_subs, bind_apply, Build.append] at hok ⊢
    rcases hsub : update_query_with_predicate fp arguments schema type sub
      { m with query := m.query ++ [.Or] } with ⟨r, m1⟩
    rw [hsub] at hok hq
    cases r with
    | error e => simp at hok
    | ok u =>
      simp only at hok hq ⊢
      rw [ih m1 hok, hq]
      simp [sub_fragments]

/-- The `And` node, not negated, in terms of its loop. -/
theorem update_and (fp : FloatingExtraction) (arguments : Arguments) (schema : Schema)
    (type : String) (cmpr : Comparison) (subs : List Predicate) (m : Machine) :
    update_query_with_predicate fp arguments schema type (.mk .And false cmpr subs) m
      = match update_query_with_and_subs fp arguments schema type subs
            { m with query := m.query ++ [.group] } with
        | (.ok _, m1) =>
          (.ok (), { m1 with query := m1.query
            ++ (if subs.length = 0 then [.and_query .TrueExpression] else [])
            ++ [.end_group] })
        | (.error e, m1) => (.error e, m1) := by
  rcases h : update_query_with_and_subs fp arguments schema type subs
    { m with query := m.query ++ [.group] } with ⟨r, m1⟩
  cases r with
  | error e => simp [update_query_with_predicate, bind_apply, Build.append, pure_apply, h]
  | ok u =>
    cases subs <;> simp [update_query_with_predicate, bind_apply, Build.append, pure_apply, h]

/-- The `Or` node, not negated, in terms of its loop. -/
theorem update_or (fp : FloatingExtraction) (arguments : Arguments) (schema : Schema)
    (type : String) (cmpr : Comparison) (subs : List Predicate) (m : Machine) :
    update_query_with_predicate fp arguments schema type (.mk .Or false cmpr subs) m
      = match update_query_with_or_subs fp arguments schema type subs
            { m with query := m.query ++ [.group] } with
        | (.ok _, m1) =>
          (.ok (), { m1 with query := m1.query
            ++ (if subs.length = 0 then [.and_query .FalseExpression] else [])
            ++ [.end_group] })
        | (.error e, m1) => (.error e, m1) := by
  rcases h : update_query_with_or_subs fp arguments schema type subs
    { m with query := m.query ++ [.group] } with ⟨r, m1⟩
  cases r with
  | error e => simp [update_query_with_predicate, bind_apply, Build.append, pure_apply, h]
  | ok u =>
    cases subs <;> simp [update_query_with_predicate, bind_apply, Build.append, pure_apply, h]

/-- A non-empty `And` node that compiles adds `group`, the fragments of its
sub-predicates, and `end_group`. -/
theorem update_and_query (fp : FloatingExtraction) (arguments : Arguments) (schema : Schema)
    (type : String) (cmpr : Comparison) (subs : List Predicate) (m : Machine)
    (hsubs : subs ≠ [])
    (hok : (update_query_with_predicate fp arguments schema type
      (.mk .And false cmpr subs) m).1 = .ok ()) :
    (update_query_with_predicate fp arguments schema type (.mk .And false cmpr subs) m).2.query
      = m.query ++ [.group] ++ sub_fragments [] fp arguments schema type subs
          ++ [.end_group] := by
  have hloop := and_subs_query fp arguments schema type subs
    { m with query := m.query ++ [.group] }
  rw [update_and] at hok ⊢
  rcases hl : update_query_with_and_subs fp arguments schema type subs
    { m with query := m.query ++ [.group] } with ⟨r, m1⟩
  rw [hl] at hok hloop
  cases r with
  | error e => simp at hok
  | ok u =>
    have hlen : subs.length ≠ 0 := by simpa using hsubs
    simp only at hloop ⊢
    rw [hloop trivial]
    simp [hlen]

/-- A non-empty `Or` node that compiles adds `group`, the fragments of its
sub-predicates each after one `Or`, and `end_group`. -/
theorem update_or_query (fp : FloatingExtraction) (arguments : Arguments) (schema : Schema)
    (type : String) (cmpr : Comparison) (subs : List Predicate) (m : Machine)
    (hsubs : subs ≠ [])
    (hok : (update_query_with_predicate fp arguments schema type
      (.mk .Or false cmpr subs) m).1 = .ok ()) :
    (update_query_with_predicate fp arguments schema type (.mk .Or false cmpr subs) m).2.query
      = m.query ++ [.group] ++ sub_fragments [.Or] fp arguments schema type subs
          ++ [.end_group] := by
  have hloop := or_subs_query fp arguments schema type subs
    { m with query := m.query ++ [.group] }
  rw [update_or] at hok ⊢
  rcases hl : update_query_with_or_subs fp arguments schema type subs
    { m with query := m.query ++ [.group] } with ⟨r, m1⟩
  rw [hl] at hok hloop
  cases r with
  | error e => simp at hok
  | ok u =>
    have hlen : subs.length ≠ 0 := by simpa using hsubs
    simp only at hloop ⊢
    rw [hloop trivial]
    simp [hlen]

/-- C5: an `And` node with no sub-predicate (negate unset) adds exactly `group`,
the always-true sentinel, `end_group`; an `Or` node with no sub-predicate adds
exactly `group`, the always-false sentinel, `end_group`; and an `And` or `Or`
node with a non-empty list that compiles adds `group`, then the fragments of
its sub-predicates (each after one `Or` in an `Or` node), then `end_group`, and
nothing else: no sentinel of its own. -/
theorem C5_vacuous_and_or (fp : FloatingExtraction) (arguments : Arguments)
    (schema : Schema) (type : String) (cmpr : Comparison) (m : Machine) :
    update_query_with_predicate fp arguments schema type (.mk .And false cmpr []) m
        = (.ok (), { m with query := m.query
            ++ [.group, .and_query .TrueExpression, .end_group] })
      ∧ update_query_with_predicate fp arguments schema type (.mk .Or false cmpr []) m
        = (.ok (), { m with query := m.query
            ++ [.group, .and_query .FalseExpression, .end_group] })
      ∧ (∀ subs : List Predicate, subs ≠ [] →
          (update_query_with_predicate fp arguments schema type
            (.mk .And false cmpr subs) m).1 = .ok () →
          (update_query_with_predicate fp arguments schema type
            (.mk .And false cmpr subs) m).2.query
            = m.query ++ [.group] ++ sub_fragments [] fp arguments schema type subs
                ++ [.end_group])
      ∧ (∀ subs : List Predicate, subs ≠ [] →
          (update_query_with_predicate fp arguments schema type
            (.mk .Or false cmpr subs) m).1 = .ok () →
          (update_query_with_predicate fp arguments schema type
            (.mk .Or false cmpr subs) m).2.query
            = m.query ++ [.group] ++ sub_fragments [.Or] fp arguments schema type subs
                ++ [.end_group]) := by
  refine ⟨?_, ?_, ?_, ?_⟩
  · simp [update_and, update_query_with_and_subs, pure_apply]
  · simp [update_or, update_query_with_or_subs, pure_apply]
  · intro subs hsubs hok
    exact update_and_query fp arguments schema type cmpr subs m hsubs hok
  · intro subs hsubs hok
    exact update_or_query fp arguments schema type cmpr subs m hsubs hok

/-- C5, at an input: `And[True]` adds `group`, the fragment of `True` and
`end_group`; the sentinel in it is the fragment of the sub-predicate. -/
theorem C5_vacuous_and_or_witness :
    (update_query_with_predicate no_floating sample_arguments person_schema "Person"
      (.mk .And false no_comparison [true_predicate]) empty_machine).2.query
      = [] ++ [.group]
          ++ sub_fragments [] no_floating sample_arguments person_schema "Person"
              [true_predicate]
          ++ [.end_group] :=
  (C5_vacuous_and_or no_floating sample_arguments person_schema "Person" no_comparison
    empty_machine).2.2.1 [true_predicate] (by simp) (by rfl)

/-- A node with the negate flag set is compiled as the same node with the flag
cleared, after one `Not()`. -/
theorem update_negate (fp : FloatingExtraction) (arguments : Arguments) (schema : Schema)
    (type : String) (ptype : PredicateType) (cmpr : Comparison) (subs : List Predicate)
    (m : Machine) :
    update_query_with_predicate fp arguments schema type (.mk ptype true cmpr subs) m
      = update_query_with_predicate fp arguments schema type (.mk ptype false cmpr subs)
          { m with query := m.query ++ [.Not] } := by
  cases ptype <;> rfl

theorem count_or_sub_fragments (fp : FloatingExtraction) (arguments : Arguments)
    (schema : Schema) (type : String) (subs : List Predicate) :
    (sub_fragments [.Or] fp arguments schema type subs).count QueryOp.Or
      = subs.length + (sub_fragments [] fp arguments schema type subs).count QueryOp.Or := by
  induction subs with
  | nil => simp [sub_fragments]
  | cons sub rest ih =>
    simp only [sub_fragments, List.count_append, ih, List.length_cons]
    simp
    omega

/-- C6 (counterexample): for the `Or` node with the single sub-predicate `True`
(n = 1), the specification has the fragment of `True` directly after `group`
and no connective; the code puts one `Or` between `group` and that fragment. -/
theorem C6_or_connective_counterexample :
    update_query_with_predicate no_floating sample_arguments person_schema "Person"
        (.mk .Or false no_comparison [true_predicate]) empty_machine
        = (.ok (), ⟨[.group, .Or, .and_query .TrueExpression, .end_group], []⟩)
      ∧ emitted (update_query_with_predicate no_floating sample_arguments person_schema
          "Person" true_predicate) = [.and_query .TrueExpression]
      ∧ (update_query_with_predicate no_floating sample_arguments person_schema "Person"
          (.mk .Or false no_comparison [true_predicate]) empty_machine).2.query
        ≠ [QueryOp.group]
            ++ emitted (update_query_with_predicate no_floating sample_arguments
                person_schema "Person" true_predicate)
            ++ [QueryOp.end_group]
      ∧ ([QueryOp.group, .Or, .and_query .TrueExpression, .end_group].count QueryOp.Or
          ≠ [true_predicate].length - 1) :=
  ⟨rfl, rfl, by decide, by decide⟩

/-- C6 (amended): for every `Or` node with n >= 1 sub-predicates that all
compile, `query.Or()` is called before every sub-predicate, the first included:
the ops added are `Not` if the node is negated, `group`, `Or`, the fragment of
the first sub-predicate, then `Or` and the fragment of each further
sub-predicate, and `end_group`; so the node itself inserts exactly n
connectives (the count of `Or` in what it adds is n plus the count inside the
fragments of its sub-predicates). -/
theorem C6_or_connective_before_every_sub (fp : FloatingExtraction) (arguments : Arguments)
    (schema : Schema) (type : String) (negate : Bool) (cmpr : Comparison)
    (sub : Predicate) (rest : List Predicate) (m : Machine)
    (hok : (update_query_with_predicate fp arguments schema type
      (.mk .Or negate cmpr (sub :: rest)) m).1 = .ok ()) :
    (update_query_with_predicate fp arguments schema type
        (.mk .Or negate cmpr (sub :: rest)) m).2.query
        = m.query ++ (if negate then [QueryOp.Not] else []) ++ [.group, .Or]
            ++ emitted (update_query_with_predicate fp arguments schema type sub)
            ++ sub_fragments [.Or] fp arguments schema type rest ++ [.end_group]
      ∧ (sub_fragments [.Or] fp arguments schema type (sub :: rest)).count QueryOp.Or
        = (sub :: rest).length
            + (sub_fragments [] fp arguments schema type (sub :: rest)).count QueryOp.Or := by
  refine ⟨?_, count_or_sub_fragments fp arguments schema type (sub :: rest)⟩
  cases negate with
  | false =>
    rw [update_or_query fp arguments schema type cmpr (sub :: rest) m (by simp) hok]
    simp [sub_fragments]
  | true =>
    rw [update_negate] at hok ⊢
    rw [update_or_query fp arguments schema type cmpr (sub :: rest) _ (by simp) hok]
    simp [sub_fragments]

/-- C6 (amended), at an input: `Or[True, True]` adds `group`, `Or`, the
fragment of `True`, `Or`, the fragment of `True`, `end_group`. -/
theorem C6_or_connective_before_every_sub_witness :
    (update_query_with_predicate no_floating sample_arguments person_schema "Person"
        (.mk .Or false no_comparison [true_predicate, true_predicate]) empty_machine).2.query
        = [] ++ (if false then [QueryOp.Not] else []) ++ [.group, .Or]
            ++ emitted (update_query_with_predicate no_floating sample_arguments
                person_schema "Person" true_predicate)
            ++ sub_fragments [.Or] no_floating sample_arguments person_schema "Person"
                [true_predicate]
            ++ [.end_group]
      ∧ (sub_fragments [.Or] no_floating sample_arguments person_schema "Person"
          [true_predicate, true_predicate]).count QueryOp.Or
        = [true_predicate, true_predicate].length
            + (sub_fragments [] no_floating sample_arguments person_schema "Person"
                [true_predicate, true_predicate]).count QueryOp.Or :=
  C6_or_connective_before_every_sub no_floating sample_arguments person_schema "Person"
    false no_comparison true_predicate [true_predicate] empty_machine (by rfl)

/-- C7: for every predicate node, of any kind, the ops added for the node with
its negate flag set are one `Not` followed by exactly the ops added for the same
node (same kind, comparison and sub-predicates, so the flags of the
sub-predicates are untouched) with the flag cleared; the outcome and the calls
on the argument resolver are the same. -/
theorem C7_negate_prepends_not (fp : FloatingExtraction) (arguments : Arguments)
    (schema : Schema) (type : String) (ptype : PredicateType) (cmpr : Comparison)
    (subs : List Predicate) (m : Machine) :
    (update_query_with_predicate fp arguments schema type (.mk ptype false cmpr subs) m).2.query
        = m.query
            ++ emitted (update_query_with_predicate fp arguments schema type
                (.mk ptype false cmpr subs))
      ∧ (update_query_with_predicate fp arguments schema type
          (.mk ptype true cmpr subs) m).2.query
        = m.query ++ QueryOp.Not
            :: emitted (update_query_with_predicate fp arguments schema type
                (.mk ptype false cmpr subs))
      ∧ (update_query_with_predicate fp arguments schema type (.mk ptype true cmpr subs) m).1
        = (update_query_with_predicate fp arguments schema type (.mk ptype false cmpr subs) m).1
      ∧ (update_query_with_predicate fp arguments schema type
          (.mk ptype true cmpr subs) m).2.calls
        = (update_query_with_predicate fp arguments schema type
            (.mk ptype false cmpr subs) m).2.calls := by
  have hf := framed_update fp arguments schema type (.mk ptype false cmpr subs)
  refine ⟨framed_query _ hf m, ?_, ?_, ?_⟩
  · rw [update_negate, framed_query _ hf]
    simp
  · rw [update_negate, framed_result _ hf, framed_result _ hf m]
  · rw [update_negate, framed_calls _ hf, framed_calls _ hf m]

/-- A comparison between a one-segment key path naming `p` and a null value, the
key path on either side, goes to `do_add_null_comparison_to_query`, after the
null test only. -/
theorem add_comparison_null (fp : FloatingExtraction) (args : Arguments)
    (schema : Schema) (objectType : String) (d : ObjectSchema) (p : Property)
    (negate keypath_left : Bool) (op : Operator) (option : OperatorOption)
    (key_path : String) (value : Expression) (subs : List Predicate) (m : Machine)
    (hd : schema.find objectType = some d)
    (hk : key_path_from_string key_path = [p.name])
    (hp : d.property_for_name p.name = some p)
    (hnull : is_null_value args value = true) :
    add_comparison_to_query fp
        (.mk .Comparison negate (comparison_of keypath_left op option key_path value) subs)
        args schema objectType m
      = do_add_null_comparison_to_query (comparison_of keypath_left op option key_path value)
          ⟨some p, []⟩ { m with calls := m.calls ++ null_test_calls value } := by
  have hnew := new_single schema d key_path p.name p hk hp
  rcases value with ⟨vtype, text⟩
  cases vtype <;> simp [is_null_value] at hnull
  · -- Argument
    cases hi : stot_int text with
    | error e => simp [hi] at hnull
    | ok i =>
      cases hn : args.is_argument_null i with
      | error e => simp [hi, hn] at hnull
      | ok b =>
        simp [hi, hn] at hnull
        subst hnull
        cases keypath_left <;>
          simp [add_comparison_to_query, comparison_of, Predicate.cmpr, hd, hnew, bind_apply,
            Build.lift, expression_is_null, hi, hn, Build.call, null_test_calls]
  · -- Null
    cases keypath_left <;>
      simp [add_comparison_to_query, comparison_of, Predicate.cmpr, hd, hnew, bind_apply,
        Build.lift, expression_is_null, pure_apply, null_test_calls]

set_option maxHeartbeats 4000000 in
/-- The null comparison of a property named directly, by type and operator. -/
theorem do_add_null_comparison_direct (cmp : Comparison) (p : Property) (m : Machine) :
    (cmp.op = Operator.Equal ∨ cmp.op = Operator.NotEqual →
        p.type ≠ PropertyType.Array →
        do_add_null_comparison_to_query cmp ⟨some p, []⟩ m
          = (.ok (), { m with query := m.query
              ++ null_comparison_ops p (decide (cmp.op = Operator.Equal)) }))
      ∧ (p.type = PropertyType.Array →
          do_add_null_comparison_to_query cmp ⟨some p, []⟩ m
            = (.error (.logic_error "Comparing Lists to 'null' is not supported"), m))
      ∧ (¬ (cmp.op = Operator.Equal ∨ cmp.op = Operator.NotEqual) →
          ∃ e, do_add_null_comparison_to_query cmp ⟨some p, []⟩ m = (.error e, m)) := by
  rcases p with ⟨pname, ptype, pobj, pcol⟩
  rcases cmp with ⟨op, option, e0, e1⟩
  cases ptype <;> cases op <;>
    simp [do_add_null_comparison_to_query, do_add_null_comparison_to_query_T,
      do_add_null_comparison_to_query_Binary, do_add_null_comparison_to_query_Link,
      bind_apply, pure_apply, Build.deref, Build.pure, Build.append, Build.throw,
      PropertyExpression.table_getter, null_comparison_ops, scalar_column_type]
/-- C8: for a comparison between a one-segment key path naming a property `p`
of the root type and a null value (the null literal, or an Argument whose null
test reports true), with the key path on either side: with `==` or `!=` and a
bool, date, double, float, int, string, binary or object-link property it
compiles, adding (after `Not` when the node is negated) exactly the null
comparison on the column of `p`, and the only calls on the argument resolver
are those of the null test, so no typed accessor is called; for a link-list
property it fails, with `Comparing Lists to 'null' is not supported`; and with
any operator other than `==` and `!=` it fails. -/
theorem C8_null_comparison (fp : FloatingExtraction) (args : Arguments)
    (schema : Schema) (objectType : String) (d : ObjectSchema) (p : Property)
    (negate keypath_left : Bool) (op : Operator) (option : OperatorOption)
    (key_path : String) (value : Expression) (subs : List Predicate) (m : Machine)
    (hd : schema.find objectType = some d)
    (hk : key_path_from_string key_path = [p.name])
    (hp : d.property_for_name p.name = some p)
    (hnull : is_null_value args value = true) :
    (op = Operator.Equal ∨ op = Operator.NotEqual → p.type ≠ PropertyType.Array →
        update_query_with_predicate fp args schema objectType
            (.mk .Comparison negate (comparison_of keypath_left op option key_path value) subs) m
          = (.ok (),
              { query := m.query ++ (if negate then [QueryOp.Not] else [])
                  ++ null_comparison_ops p (decide (op = Operator.Equal))
                calls := m.calls ++ null_test_calls value }))
      ∧ (p.type = PropertyType.Array →
          update_query_with_predicate fp args schema objectType
              (.mk .Comparison negate (comparison_of keypath_left op option key_path value)
                subs) m
            = (.error (.logic_error "Comparing Lists to 'null' is not supported"),
                { query := m.query ++ (if negate then [QueryOp.Not] else [])
                  calls := m.calls ++ null_test_calls value }))
      ∧ (¬ (op = Operator.Equal ∨ op = Operator.NotEqual) →
          ∃ e, update_query_with_predicate fp args schema objectType
              (.mk .Comparison negate (comparison_of keypath_left op option key_path value)
                subs) m
            = (.error e,
                { query := m.query ++ (if negate then [QueryOp.Not] else [])
                  calls := m.calls ++ null_test_calls value })) := by
  have hop : (comparison_of keypath_left op option key_path value).op = op := by
    cases keypath_left <;> rfl
  have hroute := fun m0 => add_comparison_null fp args schema objectType d p negate
    keypath_left op option key_path value subs m0 hd hk hp hnull
  have hdirect := fun m0 => do_add_null_comparison_direct
    (comparison_of keypath_left op option key_path value) p m0
  simp only [hop] at hdirect
  refine ⟨?_, ?_, ?_⟩
  · intro h1 h2
    rw [update_comparison, hroute, (hdirect _).1 h1 h2]
    cases negate <;> simp
  · intro h
    rw [update_comparison, hroute, (hdirect _).2.1 h]
    cases negate <;> simp
  · intro h
    obtain ⟨e, he⟩ := (hdirect
      { query := m.query ++ (if negate then [QueryOp.Not] else [])
        calls := m.calls ++ null_test_calls value }).2.2 h
    refine ⟨e, ?_⟩
    rw [update_comparison, hroute, ← he]
    cases negate <;> simp

/-- C8, at an input: `$9 != best_friend` with argument 9 null compiles to
`Not` and `is_null` on the link column 2, after one null test and no other call
on the argument resolver. -/
theorem C8_null_comparison_witness :
    update_query_with_predicate no_floating sample_arguments person_schema "Person"
        (.mk .Comparison false
          (comparison_of false .NotEqual .None "best_friend" ⟨.Argument, "9"⟩) [])
        empty_machine
      = (.ok (),
          { query := [] ++ (if false then [QueryOp.Not] else [])
              ++ null_comparison_ops ⟨"best_friend", .Object, "Person", 2⟩
                  (decide (Operator.NotEqual = Operator.Equal))
            calls := [] ++ null_test_calls ⟨.Argument, "9"⟩ }) :=
  (C8_null_comparison no_floating sample_arguments person_schema "Person" person
    ⟨"best_friend", .Object, "Person", 2⟩ false false .NotEqual .None "best_friend"
    ⟨.Argument, "9"⟩ [] empty_machine (by rfl) (by rfl) (by rfl) (by rfl)).1
    (Or.inr rfl) (by decide)

/-- C9: for every object-link or link-list property `p` named directly (one
segment, no hop) and every Argument that is not null and is bound to the row
index `r`, `p == $i` compiles to exactly one `links_to` on the column of `p`
with row `r`, and `p != $i` compiles to exactly one `Not` followed by that same
`links_to`; the calls on the argument resolver are the null test and the
row-index accessor. -/
theorem C9_link_equality (fp : FloatingExtraction) (args : Arguments)
    (schema : Schema) (objectType : String) (d : ObjectSchema) (p : Property)
    (option : OperatorOption) (key_path text : String) (subs : List Predicate)
    (i : Int) (r : Nat) (m : Machine)
    (hd : schema.find objectType = some d)
    (hk : key_path_from_string key_path = [p.name])
    (hp : d.property_for_name p.name = some p)
    (hlink : p.type = PropertyType.Object ∨ p.type = PropertyType.Array)
    (hi : stot_int text = .ok i)
    (hnull : args.is_argument_null i = .ok false)
    (hrow : args.object_index_for_argument i = .ok r) :
    update_query_with_predicate fp args schema objectType
        (.mk .Comparison false ⟨.Equal, option, ⟨.KeyPath, key_path⟩, ⟨.Argument, text⟩⟩ subs)
        m
        = (.ok (),
            { query := m.query ++ [.links_to p.table_column r]
              calls := m.calls ++ [.is_argument_null i, .object_index_for_argument i] })
      ∧ update_query_with_predicate fp args schema objectType
          (.mk .Comparison false
            ⟨.NotEqual, option, ⟨.KeyPath, key_path⟩, ⟨.Argument, text⟩⟩ subs) m
        = (.ok (),
            { query := m.query ++ [.Not, .links_to p.table_column r]
              calls := m.calls ++ [.is_argument_null i, .object_index_for_argument i] }) := by
  rcases p with ⟨pname, ptype, pobj, pcol⟩
  simp only at hlink hk hp
  constructor <;>
    rw [update_comparison,
      add_comparison_keypath_argument fp args schema objectType d ⟨pname, ptype, pobj, pcol⟩
        false _ option key_path text subs i _ hd hk hp hi hnull] <;>
    rcases hlink with h | h <;> subst h <;>
    simp [do_add_comparison_to_query, bind_apply, pure_apply, Build.deref, Build.pure,
      link_argument, Build.lift, hi, Build.call, hrow, add_link_constraint_to_query,
      Build.append]

/-- C9, at an input: `best_friend == $0` and `best_friend != $0`, argument 0
being bound to row 2, on the link column 2. -/
theorem C9_link_equality_witness :
    update_query_with_predicate no_floating sample_arguments person_schema "Person"
        (.mk .Comparison false
          ⟨.Equal, .None, ⟨.KeyPath, "best_friend"⟩, ⟨.Argument, "0"⟩⟩ []) empty_machine
        = (.ok (),
            { query := [] ++ [.links_to 2 2]
              calls := [] ++ [.is_argument_null 0, .object_index_for_argument 0] })
      ∧ update_query_with_predicate no_floating sample_arguments person_schema "Person"
          (.mk .Comparison false
            ⟨.NotEqual, .None, ⟨.KeyPath, "best_friend"⟩, ⟨.Argument, "0"⟩⟩ []) empty_machine
        = (.ok (),
            { query := [] ++ [.Not, .links_to 2 2]
              calls := [] ++ [.is_argument_null 0, .object_index_for_argument 0] }) :=
  C9_link_equality no_floating sample_arguments person_schema "Person" person
    ⟨"best_friend", .Object, "Person", 2⟩ .None "best_friend" "0" [] 0 2 empty_machine
    (by rfl) (by rfl) (by rfl) (Or.inl rfl) (by rfl) (by rfl) (by rfl)

/-- A value that is not a key path, not the null literal and not an Argument is
not null, and its null test makes no call. -/
theorem expression_is_null_literal (value : Expression) (args : Arguments) (m : Machine)
    (h1 : value.type ≠ ExpressionType.Null) (h2 : value.type ≠ ExpressionType.Argument) :
    expression_is_null value args m = (.ok false, m) := by
  simp [expression_is_null, h1, h2, pure_apply]

/-- C10 (as the code behaves): `link_argument` does not look at the kind of the
value.  For an object-link or link-list property named directly and a value
that is a literal of any kind (number, string, true or false) whose text reads
as the `int` `i`, the row-index accessor is called with `i`, as if the literal
were the Argument `$i`, and when it returns row `r` the comparison `p == value`
is accepted and compiles to `links_to` on row `r`. -/
theorem C10_link_literal_accepted (fp : FloatingExtraction) (args : Arguments)
    (schema : Schema) (objectType : String) (d : ObjectSchema) (p : Property)
    (option : OperatorOption) (key_path : String) (value : Expression)
    (subs : List Predicate) (i : Int) (r : Nat) (m : Machine)
    (hd : schema.find objectType = some d)
    (hk : key_path_from_string key_path = [p.name])
    (hp : d.property_for_name p.name = some p)
    (hlink : p.type = PropertyType.Object ∨ p.type = PropertyType.Array)
    (hv : value.type = ExpressionType.Number ∨ value.type = ExpressionType.String
      ∨ value.type = ExpressionType.True ∨ value.type = ExpressionType.False)
    (hi : stot_int value.s = .ok i)
    (hrow : args.object_index_for_argument i = .ok r) :
    update_query_with_predicate fp args schema objectType
        (.mk .Comparison false ⟨.Equal, option, ⟨.KeyPath, key_path⟩, value⟩ subs) m
      = (.ok (),
          { query := m.query ++ [.links_to p.table_column r]
            calls := m.calls ++ [.object_index_for_argument i] }) := by
  have hnew := new_single schema d key_path p.name p hk hp
  have hkp : value.type ≠ ExpressionType.KeyPath := by
    rcases hv with h | h | h | h <;> simp [h]
  have hnl : value.type ≠ ExpressionType.Null := by
    rcases hv with h | h | h | h <;> simp [h]
  have har : value.type ≠ ExpressionType.Argument := by
    rcases hv with h | h | h | h <;> simp [h]
  rcases p with ⟨pname, ptype, pobj, pcol⟩
  simp only at hlink hk hp hnew
  rw [update_comparison]
  rcases hlink with h | h <;> subst h <;>
    simp [add_comparison_to_query, Predicate.cmpr, hd, hnew, hkp, bind_apply, Build.lift,
      expression_is_null_literal value args _ hnl har,
      do_add_comparison_to_query, pure_apply, Build.deref, Build.pure,
      link_argument, hi, Build.call, hrow, add_link_constraint_to_query, Build.append]

/-- C10, at the failing input: `best_friend == 3`, with the number literal `3`,
is accepted; the row-index accessor is called with index 3 and the comparison
compiles to `links_to` on the row bound to argument 3. -/
theorem C10_link_literal_accepted_witness :
    update_query_with_predicate no_floating sample_arguments person_schema "Person"
        (.mk .Comparison false
          ⟨.Equal, .None, ⟨.KeyPath, "best_friend"⟩, ⟨.Number, "3"⟩⟩ []) empty_machine
      = (.ok (),
          { query := [] ++ [.links_to 2 5]
            calls := [] ++ [.object_index_for_argument 3] }) :=
  C10_link_literal_accepted no_floating sample_arguments person_schema "Person" person
    ⟨"best_friend", .Object, "Person", 2⟩ .None "best_friend" ⟨.Number, "3"⟩ [] 3 5
    empty_machine (by rfl) (by rfl) (by rfl) (Or.inl rfl) (Or.inl rfl) (by rfl) (by rfl)

/-! ## Comparisons with a present value -/

theorem comparison_of_op (keypath_left : Bool) (op : Operator) (option : OperatorOption)
    (key_path : String) (value : Expression) :
    (comparison_of keypath_left op option key_path value).op = op := by
  cases keypath_left <;> rfl

theorem comparison_of_option (keypath_left : Bool) (op : Operator) (option : OperatorOption)
    (key_path : String) (value : Expression) :
    (comparison_of keypath_left op option key_path value).option = option := by
  cases keypath_left <;> rfl

/-- The null test of a present value reports false, after the calls of
`null_test_calls`. -/
theorem expression_is_null_present (args : Arguments) (value : Expression) (m : Machine)
    (hval : is_present_value args value = true) :
    expression_is_null value args m
      = (.ok false, { m with calls := m.calls ++ null_test_calls value }) := by
  rcases value with ⟨vtype, text⟩
  cases vtype <;> simp [is_present_value] at hval <;>
    try (simp [expression_is_null, pure_apply, null_test_calls]; done)
  cases hi : stot_int text with
  | error e => simp [hi] at hval
  | ok i =>
    cases hn : args.is_argument_null i with
    | error e => simp [hi, hn] at hval
    | ok b =>
      simp [hi, hn] at hval
      subst hval
      simp [expression_is_null, bind_apply, Build.lift, hi, hn, Build.call, null_test_calls]

theorem present_not_key_path (args : Arguments) (value : Expression)
    (hval : is_present_value args value = true) : value.type ≠ ExpressionType.KeyPath := by
  intro h
  simp [is_present_value, h] at hval

/-- A comparison between a key path that resolves to `expr` and a present
value, the key path on either side, goes to `do_add_comparison_to_query` after
the null test of the value. -/
theorem add_comparison_present (fp : FloatingExtraction) (args : Arguments)
    (schema : Schema) (objectType : String) (expr : PropertyExpression)
    (negate keypath_left : Bool) (op : Operator) (option : OperatorOption)
    (key_path : String) (value : Expression) (subs : List Predicate) (m : Machine)
    (hres : PropertyExpression.new schema (schema.find objectType) key_path = .ok expr)
    (hval : is_present_value args value = true) :
    add_comparison_to_query fp
        (.mk .Comparison negate (comparison_of keypath_left op option key_path value) subs)
        args schema objectType m
      = do_add_comparison_to_query fp (comparison_of keypath_left op option key_path value)
          expr (sides_of keypath_left expr value) args
          { m with calls := m.calls ++ null_test_calls value } := by
  have hkp := present_not_key_path args value hval
  have hnull := fun m0 => expression_is_null_present args value m0 hval
  cases keypath_left <;>
    simp [add_comparison_to_query, comparison_of, sides_of, Predicate.cmpr, hres, hkp,
      bind_apply, Build.lift, hnull]

/-- The same, for the node: `Not` is added first when the node is negated. -/
theorem update_comparison_present (fp : FloatingExtraction) (args : Arguments)
    (schema : Schema) (objectType : String) (expr : PropertyExpression)
    (negate keypath_left : Bool) (op : Operator) (option : OperatorOption)
    (key_path : String) (value : Expression) (subs : List Predicate) (m : Machine)
    (hres : PropertyExpression.new schema (schema.find objectType) key_path = .ok expr)
    (hval : is_present_value args value = true) :
    update_query_with_predicate fp args schema objectType
        (.mk .Comparison negate (comparison_of keypath_left op option key_path value) subs) m
      = do_add_comparison_to_query fp (comparison_of keypath_left op option key_path value)
          expr (sides_of keypath_left expr value) args (before_dispatch negate value m) := by
  rw [update_comparison, add_comparison_present fp args schema objectType expr negate
    keypath_left op option key_path value subs _ hres hval]
  cases negate <;> simp [before_dispatch]

/-- C11: for every key path that resolves with at least one link hop to a
terminal property `p` that is an object-link or a link-list, a comparison with
an Argument that is not null, the key path on either side, fails for every
operator, `==` and `!=` included; when it fails the comparison has added
nothing to the query (the query holds what it held, and `Not` if the node
itself is negated); and when the row-index accessor returns a row, the error is
`KeyPath queries not supported for object comparisons.`. -/
theorem C11_link_through_hops_fails (fp : FloatingExtraction) (args : Arguments)
    (schema : Schema) (objectType : String) (p : Property) (indexes : List Nat)
    (negate keypath_left : Bool) (op : Operator) (option : OperatorOption)
    (key_path text : String) (subs : List Predicate) (i : Int) (m : Machine)
    (hres : PropertyExpression.new schema (schema.find objectType) key_path
      = .ok { prop := some p, indexes := indexes })
    (hhops : indexes ≠ [])
    (hlink : p.type = PropertyType.Object ∨ p.type = PropertyType.Array)
    (hi : stot_int text = .ok i)
    (hnull : args.is_argument_null i = .ok false) :
    (∃ e, (update_query_with_predicate fp args schema objectType
        (.mk .Comparison negate
          (comparison_of keypath_left op option key_path ⟨.Argument, text⟩) subs) m).1
        = .error e)
      ∧ (update_query_with_predicate fp args schema objectType
          (.mk .Comparison negate
            (comparison_of keypath_left op option key_path ⟨.Argument, text⟩) subs) m).2.query
        = m.query ++ (if negate then [QueryOp.Not] else [])
      ∧ (∀ r, args.object_index_for_argument i = .ok r →
          (update_query_with_predicate fp args schema objectType
            (.mk .Comparison negate
              (comparison_of keypath_left op option key_path ⟨.Argument, text⟩) subs) m).1
            = .error (.logic_error "KeyPath queries not supported for object comparisons.")) := by
  have hval : is_present_value args ⟨.Argument, text⟩ = true := by
    simp [is_present_value, hi, hnull]
  rw [update_comparison_present fp args schema objectType _ negate keypath_left op option
    key_path _ subs m hres hval]
  rcases p with ⟨pname, ptype, pobj, pcol⟩
  simp only at hlink
  cases hrow : args.object_index_for_argument i with
  | error e =>
    rcases hlink with h | h <;> subst h <;> cases keypath_left <;>
      simp [do_add_comparison_to_query, sides_of, bind_apply, pure_apply, Build.deref,
        Build.pure, link_argument, Build.lift, hi, Build.call, hrow, before_dispatch]
  | ok r =>
    rcases hlink with h | h <;> subst h <;> cases keypath_left <;>
      simp [do_add_comparison_to_query, sides_of, bind_apply, pure_apply, Build.deref,
        Build.pure, link_argument, Build.lift, hi, Build.call, hrow, before_dispatch,
        add_link_constraint_to_query, hhops, Build.throw]

/-- C11, at an input: `best_friend.best_friend == $0` on `Person` (one hop,
terminal property an object link). -/
theorem C11_link_through_hops_fails_witness :
    (∃ e, (update_query_with_predicate no_floating sample_arguments person_schema "Person"
        (.mk .Comparison false
          (comparison_of true .Equal .None "best_friend.best_friend" ⟨.Argument, "0"⟩) [])
        empty_machine).1 = .error e)
      ∧ (update_query_with_predicate no_floating sample_arguments person_schema "Person"
          (.mk .Comparison false
            (comparison_of true .Equal .None "best_friend.best_friend" ⟨.Argument, "0"⟩) [])
          empty_machine).2.query
        = [] ++ (if false then [QueryOp.Not] else [])
      ∧ (∀ r, sample_arguments.object_index_for_argument 0 = .ok r →
          (update_query_with_predicate no_floating sample_arguments person_schema "Person"
            (.mk .Comparison false
              (comparison_of true .Equal .None "best_friend.best_friend" ⟨.Argument, "0"⟩) [])
            empty_machine).1
            = .error (.logic_error "KeyPath queries not supported for object comparisons.")) :=
  C11_link_through_hops_fails no_floating sample_arguments person_schema "Person"
    ⟨"best_friend", .Object, "Person", 2⟩ [2] false true .Equal .None
    "best_friend.best_friend" "0" [] 0 empty_machine (by rfl) (by decide) (Or.inl rfl)
    (by rfl) (by rfl)

theorem literal_present (args : Arguments) (value : Expression)
    (hlit : is_literal value = true) : is_present_value args value = true := by
  rcases value with ⟨vtype, text⟩
  cases vtype <;> simp [is_literal] at hlit <;> simp [is_present_value]

theorem literal_null_test_calls (value : Expression) (hlit : is_literal value = true) :
    null_test_calls value = [] := by
  rcases value with ⟨vtype, text⟩
  cases vtype <;> simp [is_literal] at hlit <;> simp [null_test_calls]

theorem literal_not_argument (value : Expression) (hlit : is_literal value = true) :
    value.type ≠ ExpressionType.Argument := by
  rcases value with ⟨vtype, text⟩
  cases vtype <;> simp [is_literal] at hlit <;> simp

theorem before_dispatch_literal (negate : Bool) (value : Expression) (m : Machine)
    (hlit : is_literal value = true) :
    before_dispatch negate value m
      = { query := m.query ++ (if negate then [QueryOp.Not] else []), calls := m.calls } := by
  simp [before_dispatch, literal_null_test_calls value hlit]

/-- C12 (counterexample): the date property `born` compared with the number
literal `1451606400` and with the string literal `2016-01-01`: neither text is
parsed, both comparisons fail with `You must pass in a date argument to
compare`. -/
theorem C12_date_literal_counterexample :
    update_query_with_predicate no_floating sample_arguments person_schema "Person"
        (comparison .GreaterThan ⟨.KeyPath, "born"⟩ ⟨.Number, "1451606400"⟩) empty_machine
        = (.error (.logic_error "You must pass in a date argument to compare"), empty_machine)
      ∧ update_query_with_predicate no_floating sample_arguments person_schema "Person"
          (comparison .Equal ⟨.KeyPath, "born"⟩ ⟨.String, "2016-01-01"⟩) empty_machine
        = (.error (.logic_error "You must pass in a date argument to compare"),
            empty_machine) :=
  ⟨rfl, rfl⟩

/-- C12 (amended): for a date property (reached by any key path that resolves)
compared with a literal, on either side and with any operator, no text is
parsed: compilation fails for every literal, whatever its text, with the
`logic_error` `You must pass in a date argument to compare`, having added
nothing for the comparison and called no accessor.  So no comparison of a date
property with a literal compiles. -/
theorem C12_date_literal_rejected (fp : FloatingExtraction) (args : Arguments)
    (schema : Schema) (objectType : String) (p : Property) (indexes : List Nat)
    (negate keypath_left : Bool) (op : Operator) (option : OperatorOption)
    (key_path : String) (value : Expression) (subs : List Predicate) (m : Machine)
    (hres : PropertyExpression.new schema (schema.find objectType) key_path
      = .ok { prop := some p, indexes := indexes })
    (hdate : p.type = PropertyType.Date)
    (hlit : is_literal value = true) :
    update_query_with_predicate fp args schema objectType
        (.mk .Comparison negate (comparison_of keypath_left op option key_path value) subs) m
      = (.error (.logic_error "You must pass in a date argument to compare"),
          { query := m.query ++ (if negate then [QueryOp.Not] else []), calls := m.calls }) := by
  rw [update_comparison_present fp args schema objectType _ negate keypath_left op option
    key_path _ subs m hres (literal_present args value hlit),
    before_dispatch_literal negate value m hlit]
  have harg := literal_not_argument value hlit
  rcases p with ⟨pname, ptype, pobj, pcol⟩
  simp only at hdate
  subst hdate
  cases keypath_left <;>
    simp [do_add_comparison_to_query, sides_of, bind_apply, pure_apply, Build.deref,
      Build.pure, values_of_type_for_query, ColumnGetter.convert,
      ValueGetter.Timestamp.convert, harg, Build.throw]

/-- C12 (amended), at an input: `born > 1451606400` on `Person`. -/
theorem C12_date_literal_rejected_witness :
    update_query_with_predicate no_floating sample_arguments person_schema "Person"
        (.mk .Comparison false
          (comparison_of true .GreaterThan .None "born" ⟨.Number, "1451606400"⟩) [])
        empty_machine
      = (.error (.logic_error "You must pass in a date argument to compare"),
          { query := [] ++ (if false then [QueryOp.Not] else []), calls := [] }) :=
  C12_date_literal_rejected no_floating sample_arguments person_schema "Person"
    ⟨"born", .Date, "", 6⟩ [] false true .GreaterThan .None "born" ⟨.Number, "1451606400"⟩ []
    empty_machine (by rfl) rfl (by rfl)

/-- The exception of `stot` for an integral type carries the whole text. -/
theorem stot_integral_error (lo hi : Int) (s : String) (e : Exception)
    (h : stot_integral lo hi s = .error e) :
    e = .invalid_argument ("Cannot convert string '" ++ s ++ "'") := by
  unfold stot_integral at h
  simp only at h
  split_ifs at h <;> exact (Except.error.inj h).symm

/-- For a date, double, float or int property, `do_add_comparison_to_query`
runs the value getter of the type and gives the column and the value, each on
the side it was written, to `add_numeric_constraint_to_query`. -/
theorem do_add_comparison_numeric (fp : FloatingExtraction) (args : Arguments)
    (cmp : Comparison) (p : Property) (indexes : List Nat) (keypath_left : Bool)
    (value : Expression) (T : ColumnType)
    (getter : Expression → Arguments → Build Operand) (m : Machine)
    (hnum : numeric_getter fp p.type = some (T, getter)) :
    do_add_comparison_to_query fp cmp ⟨some p, indexes⟩
        (sides_of keypath_left ⟨some p, indexes⟩ value) args m
      = match getter value args m with
        | (.ok v, m1) =>
          add_numeric_constraint_to_query cmp.op
            (if keypath_left then .column ⟨T, indexes, p.table_column⟩ else v)
            (if keypath_left then v else .column ⟨T, indexes, p.table_column⟩) m1
        | (.error e, m1) => (.error e, m1) := by
  rcases p with ⟨pname, ptype, pobj, pcol⟩
  cases ptype <;> simp [numeric_getter] at hnum <;> obtain ⟨rfl, rfl⟩ := hnum
  · rcases hg : ValueGetter.Int.convert value args m with ⟨_ | _, _⟩ <;>
      cases keypath_left <;>
      simp [do_add_comparison_to_query, sides_of, bind_apply, pure_apply, Build.deref,
        Build.pure, values_of_type_for_query, ColumnGetter.convert,
        PropertyExpression.table_getter, hg]
  · rcases hg : ValueGetter.Float.convert fp value args m with ⟨_ | _, _⟩ <;>
      cases keypath_left <;>
      simp [do_add_comparison_to_query, sides_of, bind_apply, pure_apply, Build.deref,
        Build.pure, values_of_type_for_query, ColumnGetter.convert,
        PropertyExpression.table_getter, hg]
  · rcases hg : ValueGetter.Double.convert fp value args m with ⟨_ | _, _⟩ <;>
      cases keypath_left <;>
      simp [do_add_comparison_to_query, sides_of, bind_apply, pure_apply, Build.deref,
        Build.pure, values_of_type_for_query, ColumnGetter.convert,
        PropertyExpression.table_getter, hg]
  · rcases hg : ValueGetter.Timestamp.convert value args m with ⟨_ | _, _⟩ <;>
      cases keypath_left <;>
      simp [do_add_comparison_to_query, sides_of, bind_apply, pure_apply, Build.deref,
        Build.pure, values_of_type_for_query, ColumnGetter.convert,
        PropertyExpression.table_getter, hg]

/-- The numeric relation applied to two operands. -/
theorem add_numeric_constraint_relation (op : Operator) (rel : Relation) (lhs rhs : Operand)
    (m : Machine) (hrel : numeric_relation op = some rel) :
    add_numeric_constraint_to_query op lhs rhs m
      = (.ok (), { m with query := m.query ++ [.and_query (.compare rel lhs rhs)] }) := by
  cases op <;> simp [numeric_relation] at hrel <;> subst hrel <;>
    simp [add_numeric_constraint_to_query, Build.append]
/-- C13 (counterexample): against the int property `age`, the literal texts
`12abc` and `1.5` are not rejected: `operator>>` reads the leading digits and
leaves the rest unread, so the comparisons compile with the values 12 and 1.
The text `abc` is rejected. -/
theorem C13_numeric_literal_counterexample :
    update_query_with_predicate no_floating sample_arguments person_schema "Person"
        (comparison .Equal ⟨.KeyPath, "age"⟩ ⟨.Number, "12abc"⟩) empty_machine
        = (.ok (), ⟨[.and_query (.compare .eq (.column ⟨.Int, [], 1⟩) (.int 12))], []⟩)
      ∧ update_query_with_predicate no_floating sample_arguments person_schema "Person"
          (comparison .Equal ⟨.KeyPath, "age"⟩ ⟨.Number, "1.5"⟩) empty_machine
        = (.ok (), ⟨[.and_query (.compare .eq (.column ⟨.Int, [], 1⟩) (.int 1))], []⟩)
      ∧ update_query_with_predicate no_floating sample_arguments person_schema "Person"
          (comparison .Equal ⟨.KeyPath, "age"⟩ ⟨.Number, "abc"⟩) empty_machine
        = (.error (.invalid_argument "Cannot convert string 'abc'"), empty_machine) :=
  ⟨rfl, rfl, rfl⟩

/-- C13 (amended): for an int, double or float property (reached by any key
path that resolves) compared with a literal, on either side, with one of `<`,
`<=`, `>`, `>=`, `==`, `!=`: the value used is the one that `stot` extracts from
the front of the literal's text (`stot<long long>` for int, `stot<double>`,
`stot<float>`), and the comparison compiles with it; when the extraction fails,
and only then, compilation fails, with the `invalid_argument`
`Cannot convert string '<text>'`, which holds the whole text.  For an int
property the extraction reads optional white space, an optional sign and the
longest run of digits, and ignores what follows (`stot_integral`). -/
theorem C13_numeric_literal_extraction (fp : FloatingExtraction) (args : Arguments)
    (schema : Schema) (objectType : String) (p : Property) (indexes : List Nat)
    (negate keypath_left : Bool) (op : Operator) (rel : Relation) (option : OperatorOption)
    (key_path : String) (value : Expression) (subs : List Predicate) (m : Machine)
    (hres : PropertyExpression.new schema (schema.find objectType) key_path
      = .ok { prop := some p, indexes := indexes })
    (hlit : is_literal value = true)
    (hrel : numeric_relation op = some rel) :
    (p.type = PropertyType.Int →
        (∀ v, stot_long_long value.s = .ok v →
          update_query_with_predicate fp args schema objectType
              (.mk .Comparison negate (comparison_of keypath_left op option key_path value)
                subs) m
            = (.ok (),
                { query := m.query ++ (if negate then [QueryOp.Not] else [])
                    ++ [compare_op keypath_left rel ⟨.Int, indexes, p.table_column⟩ (.int v)]
                  calls := m.calls }))
        ∧ ((∀ v, stot_long_long value.s ≠ .ok v) →
          update_query_with_predicate fp args schema objectType
              (.mk .Comparison negate (comparison_of keypath_left op option key_path value)
                subs) m
            = (.error (.invalid_argument ("Cannot convert string '" ++ value.s ++ "'")),
                { query := m.query ++ (if negate then [QueryOp.Not] else [])
                  calls := m.calls })))
      ∧ (p.type = PropertyType.Double →
        (∀ v, fp.extract_double value.s = some v →
          update_query_with_predicate fp args schema objectType
              (.mk .Comparison negate (comparison_of keypath_left op option key_path value)
                subs) m
            = (.ok (),
                { query := m.query ++ (if negate then [QueryOp.Not] else [])
                    ++ [compare_op keypath_left rel ⟨.Double, indexes, p.table_column⟩
                          (.double v)]
                  calls := m.calls }))
        ∧ (fp.extract_double value.s = none →
          update_query_with_predicate fp args schema objectType
              (.mk .Comparison negate (comparison_of keypath_left op option key_path value)
                subs) m
            = (.error (.invalid_argument ("Cannot convert string '" ++ value.s ++ "'")),
                { query := m.query ++ (if negate then [QueryOp.Not] else [])
                  calls := m.calls })))
      ∧ (p.type = PropertyType.Float →
        (∀ v, fp.extract_float value.s = some v →
          update_query_with_predicate fp args schema objectType
              (.mk .Comparison negate (comparison_of keypath_left op option key_path value)
                subs) m
            = (.ok (),
                { query := m.query ++ (if negate then [QueryOp.Not] else [])
                    ++ [compare_op keypath_left rel ⟨.Float, indexes, p.table_column⟩
                          (.float v)]
                  calls := m.calls }))
        ∧ (fp.extract_float value.s = none →
          update_query_with_predicate fp args schema objectType
              (.mk .Comparison negate (comparison_of keypath_left op option key_path value)
                subs) m
            = (.error (.invalid_argument ("Cannot convert string '" ++ value.s ++ "'")),
                { query := m.query ++ (if negate then [QueryOp.Not] else [])
                  calls := m.calls }))) := by
  rw [update_comparison_present fp args schema objectType _ negate keypath_left op option
    key_path _ subs m hres (literal_present args value hlit),
    before_dispatch_literal negate value m hlit]
  have harg := literal_not_argument value hlit
  have hop := comparison_of_op keypath_left op option key_path value
  refine ⟨?_, ?_, ?_⟩
  · intro ht
    rw [do_add_comparison_numeric fp args _ p indexes keypath_left value .Int _ _
      (by rw [ht]; rfl)]
    constructor
    · intro v hv
      cases keypath_left <;>
        simp [ValueGetter.Int.convert, harg, Build.lift, hv, bind_apply, pure_apply, hop,
          add_numeric_constraint_relation _ rel _ _ _ hrel, compare_op]
    · intro hv
      cases hs : stot_long_long value.s with
      | ok v => exact absurd hs (hv v)
      | error e =>
        have he := stot_integral_error _ _ _ _ hs
        subst he
        simp [ValueGetter.Int.convert, harg, Build.lift, hs, bind_apply]
  · intro ht
    rw [do_add_comparison_numeric fp args _ p indexes keypath_left value .Double _ _
      (by rw [ht]; rfl)]
    constructor
    · intro v hv
      cases keypath_left <;>
        simp [ValueGetter.Double.convert, harg, Build.lift, stot_double, hv, bind_apply,
          pure_apply, hop, add_numeric_constraint_relation _ rel _ _ _ hrel, compare_op]
    · intro hv
      simp [ValueGetter.Double.convert, harg, Build.lift, stot_double, hv, bind_apply]
  · intro ht
    rw [do_add_comparison_numeric fp args _ p indexes keypath_left value .Float _ _
      (by rw [ht]; rfl)]
    constructor
    · intro v hv
      cases keypath_left <;>
        simp [ValueGetter.Float.convert, harg, Build.lift, stot_float, hv, bind_apply,
          pure_apply, hop, add_numeric_constraint_relation _ rel _ _ _ hrel, compare_op]
    · intro hv
      simp [ValueGetter.Float.convert, harg, Build.lift, stot_float, hv, bind_apply]

/-- C13 (amended), at an input: `age == 12abc` on `Person` compiles with the
value 12 that `stot<long long>` extracts from `12abc`. -/
theorem C13_numeric_literal_extraction_witness :
    update_query_with_predicate no_floating sample_arguments person_schema "Person"
        (.mk .Comparison false (comparison_of true .Equal .None "age" ⟨.Number, "12abc"⟩) [])
        empty_machine
      = (.ok (),
          { query := [] ++ (if false then [QueryOp.Not] else [])
              ++ [compare_op true .eq ⟨.Int, [], 1⟩ (.int 12)]
            calls := [] }) :=
  ((C13_numeric_literal_extraction no_floating sample_arguments person_schema "Person"
    ⟨"age", .Int, "", 1⟩ [] false true .Equal .eq .None "age" ⟨.Number, "12abc"⟩ []
    empty_machine (by rfl) (by rfl) (by rfl)).1 rfl).1 12 (by rfl)

theorem argument_present (args : Arguments) (text : String) (i : Int)
    (hi : stot_int text = .ok i) (hnull : args.is_argument_null i = .ok false) :
    is_present_value args ⟨.Argument, text⟩ = true := by
  simp [is_present_value, hi, hnull]

theorem before_dispatch_argument (negate : Bool) (text : String) (i : Int) (m : Machine)
    (hi : stot_int text = .ok i) :
    before_dispatch negate ⟨.Argument, text⟩ m
      = { query := m.query ++ (if negate then [QueryOp.Not] else [])
          calls := m.calls ++ [Call.is_argument_null i] } := by
  simp [before_dispatch, null_test_calls, hi]

/-- The value kinds of a bool property, for `==`. -/
theorem bool_value_kinds (fp : FloatingExtraction) (args : Arguments)
    (schema : Schema) (objectType : String) (p : Property) (indexes : List Nat)
    (negate keypath_left : Bool) (op : Operator) (option : OperatorOption)
    (key_path : String) (subs : List Predicate) (m : Machine)
    (hres : PropertyExpression.new schema (schema.find objectType) key_path
      = .ok { prop := some p, indexes := indexes })
    (ht : p.type = PropertyType.Bool) :
    (∀ text i b, stot_int text = .ok i → args.is_argument_null i = .ok false →
        args.bool_for_argument i = .ok b →
        update_query_with_predicate fp args schema objectType
            (.mk .Comparison negate
              (comparison_of keypath_left .Equal option key_path ⟨.Argument, text⟩) subs) m
          = (.ok (), after_argument negate i (.bool_for_argument i)
              [compare_op keypath_left .eq ⟨.Bool, indexes, p.table_column⟩ (.bool b)] m))
      ∧ (∀ value : Expression,
        value.type = ExpressionType.True ∨ value.type = ExpressionType.False →
        update_query_with_predicate fp args schema objectType
            (.mk .Comparison negate
              (comparison_of keypath_left .Equal option key_path value) subs) m
          = (.ok (), after_literal negate
              [compare_op keypath_left .eq ⟨.Bool, indexes, p.table_column⟩
                (.bool (decide (value.type = ExpressionType.True)))] m))
      ∧ (∀ value : Expression,
        value.type = ExpressionType.Number ∨ value.type = ExpressionType.String →
        update_query_with_predicate fp args schema objectType
            (.mk .Comparison negate (comparison_of keypath_left op option key_path value) subs)
            m
          = (.error (.logic_error "Attempting to compare bool property to a non-bool value"),
              after_literal negate [] m)) := by
  rcases p with ⟨pname, ptype, pobj, pcol⟩
  simp only at ht
  subst ht
  refine ⟨?_, ?_, ?_⟩
  · intro text i b hi hnull hb
    rw [update_comparison_present fp args schema objectType _ negate keypath_left _ option
      key_path _ subs m hres (argument_present args text i hi hnull),
      before_dispatch_argument negate text i m hi]
    cases keypath_left <;>
      simp [do_add_comparison_to_query, sides_of, comparison_of, bind_apply, pure_apply,
        Build.deref, Build.pure, values_of_type_for_query, ColumnGetter.convert,
        ValueGetter.bool.convert, Build.lift, hi, Build.call, hb,
        add_bool_constraint_to_query, Build.append, compare_op, after_argument,
        PropertyExpression.table_getter]
  · intro value hv
    have hlit : is_literal value = true := by
      rcases hv with h | h <;> simp [is_literal, h]
    rw [update_comparison_present fp args schema objectType _ negate keypath_left _ option
      key_path _ subs m hres (literal_present args value hlit),
      before_dispatch_literal negate value m hlit]
    rcases hv with h | h <;> cases keypath_left <;>
      simp [do_add_comparison_to_query, sides_of, comparison_of, bind_apply, pure_apply,
        Build.deref, Build.pure, values_of_type_for_query, ColumnGetter.convert,
        ValueGetter.bool.convert, h, add_bool_constraint_to_query, Build.append,
        compare_op, after_literal, PropertyExpression.table_getter]
  · intro value hv
    have hlit : is_literal value = true := by
      rcases hv with h | h <;> simp [is_literal, h]
    rw [update_comparison_present fp args schema objectType _ negate keypath_left _ option
      key_path _ subs m hres (literal_present args value hlit),
      before_dispatch_literal negate value m hlit]
    rcases hv with h | h <;> cases keypath_left <;>
      simp [do_add_comparison_to_query, sides_of, bind_apply, pure_apply,
        Build.deref, Build.pure, values_of_type_for_query, ColumnGetter.convert,
        ValueGetter.bool.convert, h, Build.throw, after_literal]
/-- The value kinds of a string property, for `==`. -/
theorem string_value_kinds (fp : FloatingExtraction) (args : Arguments)
    (schema : Schema) (objectType : String) (p : Property) (indexes : List Nat)
    (negate keypath_left : Bool) (op : Operator) (option : OperatorOption)
    (key_path : String) (subs : List Predicate) (m : Machine)
    (hres : PropertyExpression.new schema (schema.find objectType) key_path
      = .ok { prop := some p, indexes := indexes })
    (ht : p.type = PropertyType.String) :
    (∀ text i s, stot_int text = .ok i → args.is_argument_null i = .ok false →
        args.string_for_argument i = .ok s →
        update_query_with_predicate fp args schema objectType
            (.mk .Comparison negate
              (comparison_of keypath_left .Equal option key_path ⟨.Argument, text⟩) subs) m
          = (.ok (), after_argument negate i (.string_for_argument i)
              [string_equal_op option ⟨.String, indexes, p.table_column⟩ s] m))
      ∧ (∀ value : Expression, value.type = ExpressionType.String →
        update_query_with_predicate fp args schema objectType
            (.mk .Comparison negate
              (comparison_of keypath_left .Equal option key_path value) subs) m
          = (.ok (), after_literal negate
              [string_equal_op option ⟨.String, indexes, p.table_column⟩ value.s] m))
      ∧ (∀ value : Expression,
        value.type = ExpressionType.Number ∨ value.type = ExpressionType.True
          ∨ value.type = ExpressionType.False →
        update_query_with_predicate fp args schema objectType
            (.mk .Comparison negate (comparison_of keypath_left op option key_path value) subs)
            m
          = (.error
              (.logic_error "Attempting to compare String property to a non-String value"),
              after_literal negate [] m)) := by
  rcases p with ⟨pname, ptype, pobj, pcol⟩
  simp only at ht
  subst ht
  refine ⟨?_, ?_, ?_⟩
  · intro text i s hi hnull hs
    rw [update_comparison_present fp args schema objectType _ negate keypath_left _ option
      key_path _ subs m hres (argument_present args text i hi hnull),
      before_dispatch_argument negate text i m hi]
    cases keypath_left <;>
      simp [do_add_comparison_to_query, sides_of, comparison_of, bind_apply, pure_apply,
        Build.deref, Build.pure, ColumnGetter.convert,
        ValueGetter.String.convert, Build.lift, hi, Build.call, hs,
        add_string_constraint_to_query_column_value,
        add_string_constraint_to_query_value_column, Build.append, string_equal_op,
        after_argument, PropertyExpression.table_getter]
  · intro value hv
    have hlit : is_literal value = true := by simp [is_literal, hv]
    rw [update_comparison_present fp args schema objectType _ negate keypath_left _ option
      key_path _ subs m hres (literal_present args value hlit),
      before_dispatch_literal negate value m hlit]
    cases keypath_left <;>
      simp [do_add_comparison_to_query, sides_of, comparison_of, bind_apply, pure_apply,
        Build.deref, Build.pure, ColumnGetter.convert,
        ValueGetter.String.convert, hv, add_string_constraint_to_query_column_value,
        add_string_constraint_to_query_value_column, Build.append, string_equal_op,
        after_literal, PropertyExpression.table_getter]
  · intro value hv
    have hlit : is_literal value = true := by
      rcases hv with h | h | h <;> simp [is_literal, h]
    rw [update_comparison_present fp args schema objectType _ negate keypath_left _ option
      key_path _ subs m hres (literal_present args value hlit),
      before_dispatch_literal negate value m hlit]
    rcases hv with h | h | h <;> cases keypath_left <;>
      simp [do_add_comparison_to_query, sides_of, bind_apply, pure_apply,
        Build.deref, Build.pure, ColumnGetter.convert,
        ValueGetter.String.convert, h, Build.throw, after_literal]

/-- The value kinds of a binary property, for `==`. -/
theorem binary_value_kinds (fp : FloatingExtraction) (args : Arguments)
    (schema : Schema) (objectType : String) (p : Property) (indexes : List Nat)
    (negate keypath_left : Bool) (op : Operator) (option : OperatorOption)
    (key_path : String) (subs : List Predicate) (m : Machine)
    (hres : PropertyExpression.new schema (schema.find objectType) key_path
      = .ok { prop := some p, indexes := indexes })
    (ht : p.type = PropertyType.Data) :
    (∀ text i s, stot_int text = .ok i → args.is_argument_null i = .ok false →
        args.binary_for_argument i = .ok s →
        update_query_with_predicate fp args schema objectType
            (.mk .Comparison negate
              (comparison_of keypath_left .Equal option key_path ⟨.Argument, text⟩) subs) m
          = (.ok (), after_argument negate i (.binary_for_argument i)
              [.binary_equal p.table_column s] m))
      ∧ (∀ value : Expression, is_literal value = true →
        update_query_with_predicate fp args schema objectType
            (.mk .Comparison negate (comparison_of keypath_left op option key_path value) subs)
            m
          = (.error
              (.logic_error "Binary properties must be compared against a binary argument."),
              after_literal negate [] m)) := by
  rcases p with ⟨pname, ptype, pobj, pcol⟩
  simp only at ht
  subst ht
  refine ⟨?_, ?_⟩
  · intro text i s hi hnull hs
    rw [update_comparison_present fp args schema objectType _ negate keypath_left _ option
      key_path _ subs m hres (argument_present args text i hi hnull),
      before_dispatch_argument negate text i m hi]
    cases keypath_left <;>
      simp [do_add_comparison_to_query, sides_of, comparison_of, bind_apply, pure_apply,
        Build.deref, Build.pure, ColumnGetter.convert,
        ValueGetter.Binary.convert, Build.lift, hi, Build.call, hs,
        add_binary_constraint_to_query_column_value,
        add_binary_constraint_to_query_value_column, Build.append,
        after_argument, PropertyExpression.table_getter]
  · intro value hlit
    have harg := literal_not_argument value hlit
    rw [update_comparison_present fp args schema objectType _ negate keypath_left _ option
      key_path _ subs m hres (literal_present args value hlit),
      before_dispatch_literal negate value m hlit]
    cases keypath_left <;>
      simp [do_add_comparison_to_query, sides_of, bind_apply, pure_apply,
        Build.deref, Build.pure, ColumnGetter.convert,
        ValueGetter.Binary.convert, harg, Build.throw, after_literal]

/-- C14: for a present (non-null) value, the key path on either side and
resolving to the property `p`.  A bool property accepts an Argument, whose value
is the one the bool accessor returns, the `true` literal (value true) and the
`false` literal (value false), and rejects a number or string literal, with
`Attempting to compare bool property to a non-bool value`.  A string property
accepts an Argument, through the string accessor, and a string literal, whose
value is its text, and rejects a number, `true` or `false` literal, with
`Attempting to compare String property to a non-String value`.  A binary
property accepts an Argument, through the binary accessor, and rejects every
literal, with `Binary properties must be compared against a binary argument.`.
Acceptance is shown on the comparison `==`, which compiles with the value;
rejection holds for every operator, and nothing is added for the comparison. -/
theorem C14_value_kinds (fp : FloatingExtraction) (args : Arguments)
    (schema : Schema) (objectType : String) (p : Property) (indexes : List Nat)
    (negate keypath_left : Bool) (op : Operator) (option : OperatorOption)
    (key_path : String) (subs : List Predicate) (m : Machine)
    (hres : PropertyExpression.new schema (schema.find objectType) key_path
      = .ok { prop := some p, indexes := indexes }) :
    (p.type = PropertyType.Bool →
      (∀ text i b, stot_int text = .ok i → args.is_argument_null i = .ok false →
          args.bool_for_argument i = .ok b →
          update_query_with_predicate fp args schema objectType
              (.mk .Comparison negate
                (comparison_of keypath_left .Equal option key_path ⟨.Argument, text⟩) subs) m
            = (.ok (), after_argument negate i (.bool_for_argument i)
                [compare_op keypath_left .eq ⟨.Bool, indexes, p.table_column⟩ (.bool b)] m))
        ∧ (∀ value : Expression,
          value.type = ExpressionType.True ∨ value.type = ExpressionType.False →
          update_query_with_predicate fp args schema objectType
              (.mk .Comparison negate
                (comparison_of keypath_left .Equal option key_path value) subs) m
            = (.ok (), after_literal negate
                [compare_op keypath_left .eq ⟨.Bool, indexes, p.table_column⟩
                  (.bool (decide (value.type = ExpressionType.True)))] m))
        ∧ (∀ value : Expression,
          value.type = ExpressionType.Number ∨ value.type = ExpressionType.String →
          update_query_with_predicate fp args schema objectType
              (.mk .Comparison negate (comparison_of keypath_left op option key_path value)
                subs) m
            = (.error (.logic_error "Attempting to compare bool property to a non-bool value"),
                after_literal negate [] m)))
      ∧ (p.type = PropertyType.String →
        (∀ text i s, stot_int text = .ok i → args.is_argument_null i = .ok false →
            args.string_for_argument i = .ok s →
            update_query_with_predicate fp args schema objectType
                (.mk .Comparison negate
                  (comparison_of keypath_left .Equal option key_path ⟨.Argument, text⟩) subs) m
              = (.ok (), after_argument negate i (.string_for_argument i)
                  [string_equal_op option ⟨.String, indexes, p.table_column⟩ s] m))
          ∧ (∀ value : Expression, value.type = ExpressionType.String →
            update_query_with_predicate fp args schema objectType
                (.mk .Comparison negate
                  (comparison_of keypath_left .Equal option key_path value) subs) m
              = (.ok (), after_literal negate
                  [string_equal_op option ⟨.String, indexes, p.table_column⟩ value.s] m))
          ∧ (∀ value : Expression,
            value.type = ExpressionType.Number ∨ value.type = ExpressionType.True
              ∨ value.type = ExpressionType.False →
            update_query_with_predicate fp args schema objectType
                (.mk .Comparison negate (comparison_of keypath_left op option key_path value)
                  subs) m
              = (.error
                  (.logic_error "Attempting to compare String property to a non-String value"),
                  after_literal negate [] m)))
      ∧ (p.type = PropertyType.Data →
        (∀ text i s, stot_int text = .ok i → args.is_argument_null i = .ok false →
            args.binary_for_argument i = .ok s →
            update_query_with_predicate fp args schema objectType
                (.mk .Comparison negate
                  (comparison_of keypath_left .Equal option key_path ⟨.Argument, text⟩) subs) m
              = (.ok (), after_argument negate i (.binary_for_argument i)
                  [.binary_equal p.table_column s] m))
          ∧ (∀ value : Expression, is_literal value = true →
            update_query_with_predicate fp args schema objectType
                (.mk .Comparison negate (comparison_of keypath_left op option key_path value)
                  subs) m
              = (.error
                  (.logic_error
                    "Binary properties must be compared against a binary argument."),
                  after_literal negate [] m))) :=
  ⟨bool_value_kinds fp args schema objectType p indexes negate keypath_left op option
      key_path subs m hres,
    string_value_kinds fp args schema objectType p indexes negate keypath_left op option
      key_path subs m hres,
    binary_value_kinds fp args schema objectType p indexes negate keypath_left op option
      key_path subs m hres⟩

/-- C14, at an input: on `Person`, `retired == 7` (a number literal against the
bool property `retired`) is rejected. -/
theorem C14_value_kinds_witness :
    update_query_with_predicate no_floating sample_arguments person_schema "Person"
        (.mk .Comparison false (comparison_of true .Equal .None "retired" ⟨.Number, "7"⟩) [])
        empty_machine
      = (.error (.logic_error "Attempting to compare bool property to a non-bool value"),
          after_literal false [] empty_machine) :=
  ((C14_value_kinds no_floating sample_arguments person_schema "Person"
    ⟨"retired", .Bool, "", 4⟩ [] false true .Equal .None "retired" [] empty_machine
    (by rfl)).1 rfl).2.2 ⟨.Number, "7"⟩ (Or.inl rfl)

/-- Sequencing two computations that leave the query as it is. -/
theorem bind_keeps_query {α β : Type} (x : Build α) (f : α → Build β)
    (hx : ∀ m, (x m).2.query = m.query) (hf : ∀ a m, (f a m).2.query = m.query) :
    ∀ m, ((x >>= f) m).2.query = m.query := by
  intro m
  rw [bind_apply]
  have h := hx m
  rcases hxm : x m with ⟨r, m1⟩
  rw [hxm] at h
  cases r with
  | error e => exact h
  | ok a =>
    simp only at h ⊢
    rw [hf a m1, h]

/-- The value getters of the numeric property types do not touch the query. -/
theorem numeric_getter_query (fp : FloatingExtraction) (args : Arguments) (t : PropertyType)
    (T : ColumnType) (getter : Expression → Arguments → Build Operand) (value : Expression)
    (m : Machine) (hnum : numeric_getter fp t = some (T, getter)) :
    (getter value args m).2.query = m.query := by
  cases t <;> simp [numeric_getter] at hnum <;> obtain ⟨rfl, rfl⟩ := hnum <;>
    refine bind_keeps_query _ _ ?_ (fun _ _ => rfl) m <;>
    intro m0 <;>
    simp only [ValueGetter.Int.convert, ValueGetter.Float.convert, ValueGetter.Double.convert,
      ValueGetter.Timestamp.convert] <;>
    split_ifs <;>
    first
      | rfl
      | exact bind_keeps_query _ _ (fun _ => rfl) (fun _ _ => rfl) m0

/-- C15: for every date, double, float or int property (reached by any key path
that resolves), each of `<`, `<=`, `>`, `>=`, `==`, `!=`, and every present
value for which the value getter of the property's type returns `v`, the
comparison compiles to one core comparison whose relation `rel` is the one of
the predicate operator (`numeric_relation`) and whose operands stand on the
side they were written: `keypath OP value` gives `column rel v`, `value OP
keypath` gives `v rel column`.  The operator is neither inverted nor mirrored. -/
theorem C15_operator_orientation (fp : FloatingExtraction) (args : Arguments)
    (schema : Schema) (objectType : String) (p : Property) (indexes : List Nat)
    (negate keypath_left : Bool) (op : Operator) (rel : Relation) (option : OperatorOption)
    (key_path : String) (value : Expression) (subs : List Predicate) (m : Machine)
    (T : ColumnType) (getter : Expression → Arguments → Build Operand) (v : Operand)
    (hres : PropertyExpression.new schema (schema.find objectType) key_path
      = .ok { prop := some p, indexes := indexes })
    (hval : is_present_value args value = true)
    (hnum : numeric_getter fp p.type = some (T, getter))
    (hrel : numeric_relation op = some rel)
    (hv : (getter value args (before_dispatch negate value m)).1 = .ok v) :
    (update_query_with_predicate fp args schema objectType
        (.mk .Comparison negate (comparison_of keypath_left op option key_path value) subs)
        m).1 = .ok ()
      ∧ (update_query_with_predicate fp args schema objectType
          (.mk .Comparison negate (comparison_of keypath_left op option key_path value) subs)
          m).2.query
        = m.query ++ (if negate then [QueryOp.Not] else [])
            ++ [.and_query
                (if keypath_left then
                  .compare rel (.column ⟨T, indexes, p.table_column⟩) v
                else
                  .compare rel v (.column ⟨T, indexes, p.table_column⟩))] := by
  have hq := numeric_getter_query fp args p.type T getter value
    (before_dispatch negate value m) hnum
  rw [update_comparison_present fp args schema objectType _ negate keypath_left op option
    key_path _ subs m hres hval,
    do_add_comparison_numeric fp args _ p indexes keypath_left value T getter _ hnum,
    comparison_of_op]
  rcases hg : getter value args (before_dispatch negate value m) with ⟨r, m1⟩
  rw [hg] at hv hq
  simp only at hv hq
  subst hv
  simp only [add_numeric_constraint_relation _ rel _ _ _ hrel, hq]
  cases keypath_left <;> simp [before_dispatch]

/-- C15, at an input: `30 < age` on `Person` compiles to `30 < column`, the
value on the left, with the relation `<`. -/
theorem C15_operator_orientation_witness :
    (update_query_with_predicate no_floating sample_arguments person_schema "Person"
        (.mk .Comparison false (comparison_of false .LessThan .None "age" ⟨.Number, "30"⟩) [])
        empty_machine).1 = .ok ()
      ∧ (update_query_with_predicate no_floating sample_arguments person_schema "Person"
          (.mk .Comparison false (comparison_of false .LessThan .None "age" ⟨.Number, "30"⟩)
            [])
          empty_machine).2.query
        = [] ++ (if false then [QueryOp.Not] else [])
            ++ [.and_query
                (if false then
                  .compare .lt (.column ⟨.Int, [], 1⟩) (.int 30)
                else
                  .compare .lt (.int 30) (.column ⟨.Int, [], 1⟩))] :=
  C15_operator_orientation no_floating sample_arguments person_schema "Person"
    ⟨"age", .Int, "", 1⟩ [] false false .LessThan .lt .None "age" ⟨.Number, "30"⟩ []
    empty_machine .Int
    (fun value args => do
      let v ← ValueGetter.Int.convert value args
      pure (Operand.int v))
    (.int 30) (by rfl) (by rfl) (by rfl) (by rfl) (by rfl)

/-- C16: when both sides of a comparison are key paths, or neither is,
compilation fails, for every operator, schema, root type and argument resolver,
with `Predicate expressions must compare a keypath and another keypath or a
constant value`; `add_comparison_to_query` leaves the state as it found it, so
nothing is added to the query for the comparison and the argument resolver is
not called, and no key path is resolved (the outcome is the same whatever the
schema holds).  Hence a comparison compiles only if exactly one of its sides is
a key path. -/
theorem C16_one_key_path_required (fp : FloatingExtraction) (args : Arguments)
    (schema : Schema) (type : String) (ptype : PredicateType) (negate : Bool)
    (cmpr : Comparison) (subs : List Predicate) (m : Machine)
    (h : cmpr.expr0.type = ExpressionType.KeyPath ↔ cmpr.expr1.type = ExpressionType.KeyPath) :
    add_comparison_to_query fp (.mk ptype negate cmpr subs) args schema type m
        = (.error (.logic_error
            "Predicate expressions must compare a keypath and another keypath or a constant value"),
            m)
      ∧ update_query_with_predicate fp args schema type (.mk .Comparison negate cmpr subs) m
        = (.error (.logic_error
            "Predicate expressions must compare a keypath and another keypath or a constant value"),
            { query := m.query ++ (if negate then [QueryOp.Not] else []), calls := m.calls }) := by
  have hadd : ∀ (pt : PredicateType) (m0 : Machine),
      add_comparison_to_query fp (.mk pt negate cmpr subs) args schema type m0
        = (.error (.logic_error
            "Predicate expressions must compare a keypath and another keypath or a constant value"),
            m0) := by
    intro pt m0
    by_cases h0 : cmpr.expr0.type = ExpressionType.KeyPath
    · have h1 := h.mp h0
      simp [add_comparison_to_query, Predicate.cmpr, h0, h1, Build.throw]
    · have h1 : ¬ cmpr.expr1.type = ExpressionType.KeyPath := fun h1 => h0 (h.mpr h1)
      simp [add_comparison_to_query, Predicate.cmpr, h0, h1, Build.throw]
  refine ⟨hadd ptype m, ?_⟩
  rw [update_comparison, hadd]
  cases negate <;> simp

/-- C16, at an input: `age == name`, both sides key paths, on `Person`. -/
theorem C16_one_key_path_required_witness :
    add_comparison_to_query no_floating
        (.mk .Comparison false ⟨.Equal, .None, ⟨.KeyPath, "age"⟩, ⟨.KeyPath, "name"⟩⟩ [])
        sample_arguments person_schema "Person" empty_machine
        = (.error (.logic_error
            "Predicate expressions must compare a keypath and another keypath or a constant value"),
            empty_machine)
      ∧ update_query_with_predicate no_floating sample_arguments person_schema "Person"
          (.mk .Comparison false ⟨.Equal, .None, ⟨.KeyPath, "age"⟩, ⟨.KeyPath, "name"⟩⟩ [])
          empty_machine
        = (.error (.logic_error
            "Predicate expressions must compare a keypath and another keypath or a constant value"),
            { query := empty_machine.query ++ (if false then [QueryOp.Not] else [])
              calls := empty_machine.calls }) :=
  C16_one_key_path_required no_floating sample_arguments person_schema "Person" .Comparison
    false ⟨.Equal, .None, ⟨.KeyPath, "age"⟩, ⟨.KeyPath, "name"⟩⟩ [] empty_machine
    (by decide)

/-- C17: `apply_predicate` compiles the tree and then, only if that succeeded,
calls `validate` once on the query built.  When compilation succeeds with the
state `m1`: if `validate` returns the empty string `apply_predicate` succeeds,
and if it returns a non-empty diagnostic `apply_predicate` fails with a
`logic_error` whose message is exactly that diagnostic; so it succeeds if and
only if `validate` returns the empty string.  When compilation fails with `e`
in the state `m1`, `apply_predicate` fails with `e` in that same state, whatever
`validate` is: `validate` is not called. -/
theorem C17_validation (fp : FloatingExtraction) (validate : List QueryOp → String)
    (predicate : Predicate) (arguments : Arguments) (schema : Schema) (objectType : String)
    (m : Machine) :
    (∀ m1, update_query_with_predicate fp arguments schema objectType predicate m
          = (.ok (), m1) →
        (validate m1.query = "" →
          apply_predicate fp validate predicate arguments schema objectType m
            = (.ok (), { m1 with calls := m1.calls ++ [Call.validate] }))
        ∧ (validate m1.query ≠ "" →
          apply_predicate fp validate predicate arguments schema objectType m
            = (.error (.logic_error (validate m1.query)),
                { m1 with calls := m1.calls ++ [Call.validate] }))
        ∧ ((apply_predicate fp validate predicate arguments schema objectType m).1 = .ok ()
            ↔ validate m1.query = ""))
      ∧ (∀ e m1, update_query_with_predicate fp arguments schema objectType predicate m
          = (.error e, m1) →
        ∀ validate1 : List QueryOp → String,
          apply_predicate fp validate1 predicate arguments schema objectType m
            = (.error e, m1)) := by
  constructor
  · intro m1 hok
    have hyes : validate m1.query = "" →
        apply_predicate fp validate predicate arguments schema objectType m
          = (.ok (), { m1 with calls := m1.calls ++ [Call.validate] }) := by
      intro hv
      have hv2 : (validate m1.query).isEmpty = true := by
        rw [String.isEmpty_iff]
        exact hv
      simp [apply_predicate, bind_apply, hok, Build.call, hv2, pure_apply]
    have hno : validate m1.query ≠ "" →
        apply_predicate fp validate predicate arguments schema objectType m
          = (.error (.logic_error (validate m1.query)),
              { m1 with calls := m1.calls ++ [Call.validate] }) := by
      intro hv
      have hv2 : ¬ (validate m1.query).isEmpty = true := by
        rw [String.isEmpty_iff]
        exact hv
      simp [apply_predicate, bind_apply, hok, Build.call, hv2, Build.throw]
    refine ⟨hyes, hno, ?_⟩
    constructor
    · intro h
      by_contra hv
      rw [hno hv] at h
      simp at h
    · intro hv
      rw [hyes hv]
  · intro e m1 herr validate1
    exact apply_predicate_error fp validate1 predicate arguments schema objectType m m1 e herr

/-- C17, at an input: for the predicate `True` and a `validate` that returns
the diagnostic `Syntax error`, `apply_predicate` fails with exactly that
message, after one call of `validate`. -/
theorem C17_validation_witness :
    apply_predicate no_floating (fun _ => "Syntax error") true_predicate sample_arguments
        person_schema "Person" empty_machine
      = (.error (.logic_error ((fun _ => "Syntax error")
            ([QueryOp.and_query QueryExpression.TrueExpression]))),
          { query := [.and_query .TrueExpression], calls := [] ++ [Call.validate] }) :=
  ((C17_validation no_floating (fun _ => "Syntax error") true_predicate sample_arguments
    person_schema "Person" empty_machine).1
    ⟨[.and_query .TrueExpression], []⟩ rfl).2.1 (by decide)

/-- C18 (counterexample): `apply_predicate` on `And[age > 30, missing == 1]`,
started on the empty query, fails on the unknown property `missing` and leaves
in the query the `group` and the comparison `age > 30` added before the
failure: the query is not what it was before the call. -/
theorem C18_partial_query_counterexample :
    apply_predicate no_floating (fun _ => "") and_valid_then_unknown sample_arguments
        person_schema "Person" empty_machine
        = (.error (.logic_error "No property 'missing' on object of type 'Person'"),
            { query := [.group, .and_query (.compare .gt (.column ⟨.Int, [], 1⟩) (.int 30))]
              calls := [] })
      ∧ (apply_predicate no_floating (fun _ => "") and_valid_then_unknown sample_arguments
          person_schema "Person" empty_machine).2.query ≠ empty_machine.query :=
  ⟨rfl, by decide⟩

/-- C18 (amended): if `apply_predicate` fails while compiling the predicate
tree, it stops there: it returns the error of the compilation in the state
reached at the failure, without calling `validate` and without adding anything
more.  The query is not restored: it holds what it held before the call,
followed by the ops that the compilation added before it failed. -/
theorem C18_failure_keeps_added_ops (fp : FloatingExtraction)
    (validate : List QueryOp → String) (predicate : Predicate) (arguments : Arguments)
    (schema : Schema) (objectType : String) (m m1 : Machine) (e : Exception)
    (herr : update_query_with_predicate fp arguments schema objectType predicate m
      = (.error e, m1)) :
    apply_predicate fp validate predicate arguments schema objectType m = (.error e, m1)
      ∧ (apply_predicate fp validate predicate arguments schema objectType m).2.query
        = m.query
            ++ emitted (update_query_with_predicate fp arguments schema objectType predicate)
      ∧ (apply_predicate fp validate predicate arguments schema objectType m).2.calls
        = m1.calls := by
  have happly := apply_predicate_error fp validate predicate arguments schema objectType
    m m1 e herr
  refine ⟨happly, ?_, ?_⟩
  · rw [happly, ← herr]
    exact framed_query _ (framed_update fp arguments schema objectType predicate) m
  · rw [happly]

/-- C18 (amended), at an input: `And[age > 30, missing == 1]` on `Person`. -/
theorem C18_failure_keeps_added_ops_witness :
    apply_predicate no_floating (fun _ => "") and_valid_then_unknown sample_arguments
        person_schema "Person" empty_machine
        = (.error (.logic_error "No property 'missing' on object of type 'Person'"),
            { query := [.group, .and_query (.compare .gt (.column ⟨.Int, [], 1⟩) (.int 30))]
              calls := [] })
      ∧ (apply_predicate no_floating (fun _ => "") and_valid_then_unknown sample_arguments
          person_schema "Person" empty_machine).2.query
        = empty_machine.query
            ++ emitted (update_query_with_predicate no_floating sample_arguments person_schema
                "Person" and_valid_then_unknown)
      ∧ (apply_predicate no_floating (fun _ => "") and_valid_then_unknown sample_arguments
          person_schema "Person" empty_machine).2.calls
        = ({ query := [.group, .and_query (.compare .gt (.column ⟨.Int, [], 1⟩) (.int 30))]
             calls := [] } : Machine).calls :=
  C18_failure_keeps_added_ops no_floating (fun _ => "") and_valid_then_unknown
    sample_arguments person_schema "Person" empty_machine
    { query := [.group, .and_query (.compare .gt (.column ⟨.Int, [], 1⟩) (.int 30))]
      calls := [] }
    (.logic_error "No property 'missing' on object of type 'Person'") rfl

/-- For a string or binary property, `do_add_comparison_to_query` runs the value
getter of the type and gives the column and the text to the overload of the
constraint function for the side the key path is on. -/
theorem do_add_comparison_text (fp : FloatingExtraction) (args : Arguments)
    (cmp : Comparison) (p : Property) (indexes : List Nat) (keypath_left : Bool)
    (value : Expression) (T : ColumnType)
    (getter : Expression → Arguments → Build String) (m : Machine)
    (htext : text_getter p.type = some (T, getter)) :
    do_add_comparison_to_query fp cmp ⟨some p, indexes⟩
        (sides_of keypath_left ⟨some p, indexes⟩ value) args m
      = match getter value args m with
        | (.ok s, m1) =>
          match text_constraint p.type keypath_left cmp ⟨T, indexes, p.table_column⟩ s with
          | some constraint => constraint m1
          | none => (.ok (), m1)
        | (.error e, m1) => (.error e, m1) := by
  rcases p with ⟨pname, ptype, pobj, pcol⟩
  cases ptype <;> simp [text_getter] at htext <;> obtain ⟨rfl, rfl⟩ := htext
  · rcases hg : ValueGetter.String.convert value args m with ⟨_ | _, _⟩ <;>
      cases keypath_left <;>
      simp [do_add_comparison_to_query, sides_of, bind_apply, pure_apply, Build.deref,
        Build.pure, ColumnGetter.convert, PropertyExpression.table_getter, hg,
        text_constraint]
  · rcases hg : ValueGetter.Binary.convert value args m with ⟨_ | _, _⟩ <;>
      cases keypath_left <;>
      simp [do_add_comparison_to_query, sides_of, bind_apply, pure_apply, Build.deref,
        Build.pure, ColumnGetter.convert, PropertyExpression.table_getter, hg,
        text_constraint]

/-- The value getters of the string and binary property types do not touch the
query. -/
theorem text_getter_query (args : Arguments) (t : PropertyType) (T : ColumnType)
    (getter : Expression → Arguments → Build String) (value : Expression) (m : Machine)
    (htext : text_getter t = some (T, getter)) :
    (getter value args m).2.query = m.query := by
  cases t <;> simp [text_getter] at htext <;> obtain ⟨rfl, rfl⟩ := htext <;>
    simp only [ValueGetter.String.convert, ValueGetter.Binary.convert] <;>
    split_ifs <;>
    first
      | rfl
      | exact bind_keeps_query _ _ (fun _ => rfl) (fun _ _ => rfl) m

/-- C19: for a string property (reached by any key path that resolves) and a
present value whose text the string getter returns as `s`, every string
comparison that is emitted, that is `begins-with`, `ends-with`, `contains`,
`==` and `!=` with the key path on the left and `==` and `!=` with the key
path on the right, is the core expression of the operator on the column and
`s` with the case-sensitive flag `option ≠ CaseInsensitive`: the flag is false
exactly when the option is `CaseInsensitive`, and true for every other
option. -/
theorem C19_case_sensitive_flag (fp : FloatingExtraction) (args : Arguments)
    (schema : Schema) (objectType : String) (p : Property) (indexes : List Nat)
    (negate keypath_left : Bool) (op : Operator) (option : OperatorOption)
    (key_path : String) (value : Expression) (subs : List Predicate) (m : Machine)
    (expression : Columns → String → Bool → QueryExpression) (s : String)
    (hres : PropertyExpression.new schema (schema.find objectType) key_path
      = .ok { prop := some p, indexes := indexes })
    (ht : p.type = PropertyType.String)
    (hval : is_present_value args value = true)
    (hop : string_expression op = some expression)
    (hside : keypath_left = true ∨ op = Operator.Equal ∨ op = Operator.NotEqual)
    (hs : (ValueGetter.String.convert value args (before_dispatch negate value m)).1 = .ok s) :
    (update_query_with_predicate fp args schema objectType
        (.mk .Comparison negate (comparison_of keypath_left op option key_path value) subs)
        m).1 = .ok ()
      ∧ (update_query_with_predicate fp args schema objectType
          (.mk .Comparison negate (comparison_of keypath_left op option key_path value) subs)
          m).2.query
        = m.query ++ (if negate then [QueryOp.Not] else [])
            ++ [.and_query (expression ⟨.String, indexes, p.table_column⟩ s
                (decide (option ≠ OperatorOption.CaseInsensitive)))]
      ∧ (decide (option ≠ OperatorOption.CaseInsensitive) = false
          ↔ option = OperatorOption.CaseInsensitive) := by
  have htext : text_getter p.type = some (.String, ValueGetter.String.convert) := by
    rw [ht]
    rfl
  have hq := text_getter_query args p.type _ _ value (before_dispatch negate value m) htext
  rw [update_comparison_present fp args schema objectType _ negate keypath_left op option
    key_path _ subs m hres hval,
    do_add_comparison_text fp args _ p indexes keypath_left value _ _ _ htext]
  rcases hg : ValueGetter.String.convert value args (before_dispatch negate value m)
    with ⟨r, m1⟩
  rw [hg] at hs hq
  simp only at hs hq
  subst hs
  rw [ht]
  have hopt := comparison_of_option keypath_left op option key_path value
  have hop2 := comparison_of_op keypath_left op option key_path value
  refine ⟨?_, ?_, by simp⟩
  · cases keypath_left <;> cases op <;> simp [string_expression] at hop <;>
      simp at hside <;>
      simp [text_constraint, add_string_constraint_to_query_column_value,
        add_string_constraint_to_query_value_column, hop2, Build.append]
  · cases keypath_left <;> cases op <;> simp [string_expression] at hop <;>
      simp at hside <;> subst hop <;>
      simp [text_constraint, add_string_constraint_to_query_column_value,
        add_string_constraint_to_query_value_column, hop2, hopt, Build.append, hq,
        before_dispatch]

/-- C19, at an input: `name CONTAINS "ABC"` with the option `CaseInsensitive` on
`Person` passes the flag false. -/
theorem C19_case_sensitive_flag_witness :
    (update_query_with_predicate no_floating sample_arguments person_schema "Person"
        (.mk .Comparison false
          (comparison_of true .Contains .CaseInsensitive "name" ⟨.String, "ABC"⟩) [])
        empty_machine).1 = .ok ()
      ∧ (update_query_with_predicate no_floating sample_arguments person_schema "Person"
          (.mk .Comparison false
            (comparison_of true .Contains .CaseInsensitive "name" ⟨.String, "ABC"⟩) [])
          empty_machine).2.query
        = [] ++ (if false then [QueryOp.Not] else [])
            ++ [.and_query (QueryExpression.contains ⟨.String, [], 0⟩ "ABC"
                (decide (OperatorOption.CaseInsensitive ≠ OperatorOption.CaseInsensitive)))]
      ∧ (decide (OperatorOption.CaseInsensitive ≠ OperatorOption.CaseInsensitive) = false
          ↔ OperatorOption.CaseInsensitive = OperatorOption.CaseInsensitive) :=
  C19_case_sensitive_flag no_floating sample_arguments person_schema "Person"
    ⟨"name", .String, "", 0⟩ [] false true .Contains .CaseInsensitive "name" ⟨.String, "ABC"⟩
    [] empty_machine QueryExpression.contains "ABC" (by rfl) rfl (by rfl) (by rfl)
    (Or.inl rfl) (by rfl)

theorem key_path_items_nil (cs : List Char) :
    ∀ item : List Char, key_path_items item cs = [] → item = [] ∧ cs = [] := by
  induction cs with
  | nil =>
    intro item h
    cases item with
    | nil => exact ⟨rfl, rfl⟩
    | cons c rest => simp [key_path_items] at h
  | cons c rest ih =>
    intro item h
    by_cases hc : c = '.'
    · simp [key_path_items, hc] at h
    · simp only [key_path_items, hc, if_false] at h
      exact absurd (ih (c :: item) h).1 (by simp)

/-- Only the empty string has no segment. -/
theorem key_path_from_string_nil (s : String) (h : key_path_from_string s = []) : s = "" := by
  have hdata := (key_path_items_nil s.toList [] h).2
  rcases s with ⟨data⟩
  simp only [String.toList] at hdata
  subst hdata
  rfl

/-- When the constructor's loop ends without an exception, the terminal
property is present if there was a segment to visit or a property was already
held. -/
theorem walk_prop_present (schema : Schema) (segments : List String) :
    ∀ (desc : Option ObjectSchema) (prop : Option Property) (indexes : List Nat)
      (expr : PropertyExpression),
      PropertyExpression.walk schema segments desc prop indexes = .ok expr →
      segments ≠ [] ∨ prop ≠ none → expr.prop ≠ none := by
  induction segments with
  | nil =>
    intro desc prop indexes expr h hor
    simp only [PropertyExpression.walk, Except.ok.injEq] at h
    subst h
    rcases hor with h | h
    · exact absurd rfl h
    · exact h
  | cons segment rest ih =>
    intro desc prop indexes expr h _
    simp only [PropertyExpression.walk] at h
    split at h
    · simp at h
    · split at h
      · simp at h
      · split at h
        · simp at h
        · exact ih _ _ _ expr h (Or.inr (by simp))
/-- The null test of a null value reports true, after the calls of
`null_test_calls`. -/
theorem expression_is_null_of_null (args : Arguments) (value : Expression) (m : Machine)
    (hnull : is_null_value args value = true) :
    expression_is_null value args m
      = (.ok true, { m with calls := m.calls ++ null_test_calls value }) := by
  rcases value with ⟨vtype, text⟩
  cases vtype <;> simp [is_null_value] at hnull
  · cases hi : stot_int text with
    | error e => simp [hi] at hnull
    | ok i =>
      cases hn : args.is_argument_null i with
      | error e => simp [hi, hn] at hnull
      | ok b =>
        simp [hi, hn] at hnull
        subst hnull
        simp [expression_is_null, bind_apply, Build.lift, hi, hn, Build.call, null_test_calls]
  · simp [expression_is_null, pure_apply, null_test_calls]

theorem null_not_key_path (args : Arguments) (value : Expression)
    (hnull : is_null_value args value = true) : value.type ≠ ExpressionType.KeyPath := by
  intro h
  simp [is_null_value, h] at hnull

/-- A comparison between a key path that resolves to `expr` and a null value,
the key path on either side, goes to `do_add_null_comparison_to_query` after
`Not` (when the node is negated) and the null test of the value. -/
theorem update_comparison_null (fp : FloatingExtraction) (args : Arguments)
    (schema : Schema) (objectType : String) (expr : PropertyExpression)
    (negate keypath_left : Bool) (op : Operator) (option : OperatorOption)
    (key_path : String) (value : Expression) (subs : List Predicate) (m : Machine)
    (hres : PropertyExpression.new schema (schema.find objectType) key_path = .ok expr)
    (hnull : is_null_value args value = true) :
    update_query_with_predicate fp args schema objectType
        (.mk .Comparison negate (comparison_of keypath_left op option key_path value) subs) m
      = do_add_null_comparison_to_query (comparison_of keypath_left op option key_path value)
          expr (before_dispatch negate value m) := by
  have hkp := null_not_key_path args value hnull
  have htest := fun m0 => expression_is_null_of_null args value m0 hnull
  rw [update_comparison]
  cases negate <;> cases keypath_left <;>
    simp [add_comparison_to_query, comparison_of, Predicate.cmpr, hres, hkp,
      bind_apply, Build.lift, htest, before_dispatch]

/-- C21 (as the code behaves): the empty key path has no segment, so the loop
of the constructor of `PropertyExpression` is not entered and resolution
succeeds with an absent (null) terminal property, for every schema and starting
object schema; the type dispatch of a comparison whose key path is empty, with
a present value or with a null value and the key path on either side, then
reads `expr.prop->type` through the null pointer (undefined behaviour).  For
every other key-path string a successful resolution does yield a present
terminal property. -/
theorem C21_empty_key_path_absent_property (fp : FloatingExtraction) (args : Arguments)
    (schema : Schema) (objectType : String) (negate keypath_left : Bool) (op : Operator)
    (option : OperatorOption) (subs : List Predicate) (m : Machine) :
    (∀ desc : Option ObjectSchema,
        PropertyExpression.new schema desc "" = .ok { prop := none, indexes := [] })
      ∧ (∀ value : Expression, is_present_value args value = true →
          update_query_with_predicate fp args schema objectType
              (.mk .Comparison negate (comparison_of keypath_left op option "" value) subs) m
            = (.error (.undefined "expr.prop->type"), before_dispatch negate value m))
      ∧ (∀ value : Expression, is_null_value args value = true →
          update_query_with_predicate fp args schema objectType
              (.mk .Comparison negate (comparison_of keypath_left op option "" value) subs) m
            = (.error (.undefined "expr.prop->type"), before_dispatch negate value m))
      ∧ (∀ (desc : Option ObjectSchema) (key_path : String) (expr : PropertyExpression),
          key_path ≠ "" → PropertyExpression.new schema desc key_path = .ok expr →
          expr.prop ≠ none) := by
  have hnew : ∀ desc : Option ObjectSchema,
      PropertyExpression.new schema desc "" = .ok { prop := none, indexes := [] } :=
    fun _ => rfl
  refine ⟨hnew, ?_, ?_, ?_⟩
  · intro value hval
    rw [update_comparison_present fp args schema objectType _ negate keypath_left op option
      "" value subs m (hnew _) hval]
    simp [do_add_comparison_to_query, bind_apply, Build.deref, Build.throw]
  · intro value hnull
    rw [update_comparison_null fp args schema objectType _ negate keypath_left op option
      "" value subs m (hnew _) hnull]
    simp [do_add_null_comparison_to_query, bind_apply, Build.deref, Build.throw]
  · intro desc key_path expr hne hres
    refine walk_prop_present schema _ desc none [] expr hres (Or.inl ?_)
    intro hnil
    exact hne (key_path_from_string_nil key_path hnil)

/-- C21, at the failing input: the comparison ` == 1` whose key path is the
empty string, on `Person`: resolution succeeds with no property and the
dispatch dereferences the null pointer. -/
theorem C21_empty_key_path_absent_property_witness :
    PropertyExpression.new person_schema (person_schema.find "Person") ""
        = .ok { prop := none, indexes := [] }
      ∧ update_query_with_predicate no_floating sample_arguments person_schema "Person"
          (.mk .Comparison false (comparison_of true .Equal .None "" ⟨.Number, "1"⟩) [])
          empty_machine
        = (.error (.undefined "expr.prop->type"),
            before_dispatch false ⟨.Number, "1"⟩ empty_machine) :=
  ⟨(C21_empty_key_path_absent_property no_floating sample_arguments person_schema "Person"
      false true .Equal .None [] empty_machine).1 (person_schema.find "Person"),
   (C21_empty_key_path_absent_property no_floating sample_arguments person_schema "Person"
      false true .Equal .None [] empty_machine).2.1 ⟨.Number, "1"⟩ (by rfl)⟩

set_option maxHeartbeats 4000000 in
/-- The null comparison of a property reached through at least one hop, by type
and operator. -/
theorem do_add_null_comparison_hops (cmp : Comparison) (p : Property) (indexes : List Nat)
    (m : Machine) (hhops : indexes ≠ []) :
    (p.type = PropertyType.Data →
        do_add_null_comparison_to_query cmp ⟨some p, indexes⟩ m
          = (.error (.logic_error "KeyPath queries not supported for data comparisons."), m))
      ∧ (p.type = PropertyType.Object →
        do_add_null_comparison_to_query cmp ⟨some p, indexes⟩ m
          = (.error (.logic_error "KeyPath queries not supported for object comparisons."),
              m))
      ∧ (p.type ≠ PropertyType.Data → p.type ≠ PropertyType.Object →
          p.type ≠ PropertyType.Array →
          cmp.op = Operator.Equal ∨ cmp.op = Operator.NotEqual →
        do_add_null_comparison_to_query cmp ⟨some p, indexes⟩ m
          = (.ok (), { m with query := m.query
              ++ [.and_query (.compare (if cmp.op = Operator.Equal then .eq else .ne)
                    (.column ⟨scalar_column_type p.type, indexes, p.table_column⟩) .null)] })) := by
  rcases p with ⟨pname, ptype, pobj, pcol⟩
  rcases cmp with ⟨op, option, e0, e1⟩
  cases ptype <;> cases op <;>
    simp [do_add_null_comparison_to_query, do_add_null_comparison_to_query_T,
      do_add_null_comparison_to_query_Binary, do_add_null_comparison_to_query_Link,
      bind_apply, pure_apply, Build.deref, Build.pure, Build.append, Build.throw,
      PropertyExpression.table_getter, scalar_column_type, hhops]

/-- C23: for every key path that resolves with at least one link hop, compared
with a null value (the null literal or an Argument whose null test reports
true), the key path on either side.  When the terminal property is binary the
comparison fails for every operator, with `KeyPath queries not supported for
data comparisons.`, and when it is an object link it fails for every operator,
with `KeyPath queries not supported for object comparisons.`; nothing is added
for the comparison.  When the terminal property is a bool, date, double, float,
int or string, `==` and `!=` compile to the comparison with `realm::null()` of
the column taken after the hops, in their order (its link chain is the hop
list). -/
theorem C23_null_through_hops (fp : FloatingExtraction) (args : Arguments)
    (schema : Schema) (objectType : String) (p : Property) (indexes : List Nat)
    (negate keypath_left : Bool) (op : Operator) (option : OperatorOption)
    (key_path : String) (value : Expression) (subs : List Predicate) (m : Machine)
    (hres : PropertyExpression.new schema (schema.find objectType) key_path
      = .ok { prop := some p, indexes := indexes })
    (hhops : indexes ≠ [])
    (hnull : is_null_value args value = true) :
    (p.type = PropertyType.Data →
        update_query_with_predicate fp args schema objectType
            (.mk .Comparison negate (comparison_of keypath_left op option key_path value) subs)
            m
          = (.error (.logic_error "KeyPath queries not supported for data comparisons."),
              before_dispatch negate value m))
      ∧ (p.type = PropertyType.Object →
        update_query_with_predicate fp args schema objectType
            (.mk .Comparison negate (comparison_of keypath_left op option key_path value) subs)
            m
          = (.error (.logic_error "KeyPath queries not supported for object comparisons."),
              before_dispatch negate value m))
      ∧ (p.type ≠ PropertyType.Data → p.type ≠ PropertyType.Object →
          p.type ≠ PropertyType.Array →
          op = Operator.Equal ∨ op = Operator.NotEqual →
        update_query_with_predicate fp args schema objectType
            (.mk .Comparison negate (comparison_of keypath_left op option key_path value) subs)
            m
          = (.ok (),
              { query := (before_dispatch negate value m).query
                  ++ [.and_query (.compare (if op = Operator.Equal then .eq else .ne)
                        (.column ⟨scalar_column_type p.type, indexes, p.table_column⟩) .null)]
                calls := (before_dispatch negate value m).calls })) := by
  have hdirect := do_add_null_comparison_hops
    (comparison_of keypath_left op option key_path value) p indexes
    (before_dispatch negate value m) hhops
  rw [comparison_of_op] at hdirect
  rw [update_comparison_null fp args schema objectType _ negate keypath_left op option
    key_path value subs m hres hnull]
  exact hdirect

/-- C23, at an input: `best_friend.age == null` on `Person` compiles to the null
comparison of the int column 1 after the hop over the link column 2. -/
theorem C23_null_through_hops_witness :
    update_query_with_predicate no_floating sample_arguments person_schema "Person"
        (.mk .Comparison false
          (comparison_of true .Equal .None "best_friend.age" ⟨.Null, "null"⟩) [])
        empty_machine
      = (.ok (),
          { query := (before_dispatch false ⟨.Null, "null"⟩ empty_machine).query
              ++ [.and_query (.compare (if Operator.Equal = Operator.Equal then .eq else .ne)
                    (.column ⟨scalar_column_type .Int, [2], 1⟩) .null)]
            calls := (before_dispatch false ⟨.Null, "null"⟩ empty_machine).calls }) :=
  (C23_null_through_hops no_floating sample_arguments person_schema "Person"
    ⟨"age", .Int, "", 1⟩ [2] false true .Equal .None "best_friend.age" ⟨.Null, "null"⟩ []
    empty_machine (by rfl) (by decide) (by rfl)).2.2 (by decide) (by decide) (by decide)
    (Or.inl rfl)

/-! ## Groups are balanced -/

theorem ungrouped_pure {α : Type} (a : α) : Ungrouped (pure a : Build α) :=
  fun _ => ⟨rfl, rfl⟩

theorem ungrouped_build_pure {α : Type} (a : α) : Ungrouped (Build.pure a) :=
  fun _ => ⟨rfl, rfl⟩

theorem ungrouped_throw {α : Type} (e : Exception) : Ungrouped (Build.throw e : Build α) :=
  fun _ => ⟨rfl, rfl⟩

theorem ungrouped_call {α : Type} (c : Call) (r : Except Exception α) :
    Ungrouped (Build.call c r) :=
  fun _ => ⟨rfl, rfl⟩

theorem ungrouped_lift {α : Type} (r : Except Exception α) : Ungrouped (Build.lift r) :=
  fun _ => ⟨rfl, rfl⟩

theorem ungrouped_deref {α : Type} (what : String) (o : Option α) :
    Ungrouped (Build.deref what o) := by
  cases o
  · exact ungrouped_throw _
  · exact ungrouped_build_pure _

theorem ungrouped_append (op : QueryOp) (h1 : op ≠ QueryOp.group)
    (h2 : op ≠ QueryOp.end_group) : Ungrouped (Build.append op) := by
  intro m
  simp [Build.append, List.count_append, List.count_cons, h1, h2]

theorem ungrouped_bind {α β : Type} (x : Build α) (f : α → Build β) (hx : Ungrouped x)
    (hf : ∀ a, Ungrouped (f a)) : Ungrouped (x >>= f) := by
  intro m
  rw [bind_apply]
  have h := hx m
  rcases hxm : x m with ⟨r, m1⟩
  rw [hxm] at h
  cases r with
  | error e => exact h
  | ok a =>
    simp only at h ⊢
    have h2 := hf a m1
    exact ⟨h2.1.trans h.1, h2.2.trans h.2⟩
theorem ungrouped_add_numeric (op : Operator) (lhs rhs : Operand) :
    Ungrouped (add_numeric_constraint_to_query op lhs rhs) := by
  cases op <;>
    first | exact ungrouped_append _ (by simp) (by simp) | exact ungrouped_throw _

theorem ungrouped_add_bool (op : Operator) (lhs rhs : Operand) :
    Ungrouped (add_bool_constraint_to_query op lhs rhs) := by
  cases op <;>
    first | exact ungrouped_append _ (by simp) (by simp) | exact ungrouped_throw _

theorem ungrouped_add_string_column_value (cmp : Comparison) (column : Columns)
    (value : String) :
    Ungrouped (add_string_constraint_to_query_column_value cmp column value) := by
  unfold add_string_constraint_to_query_column_value
  split <;> first | exact ungrouped_append _ (by simp) (by simp) | exact ungrouped_throw _

theorem ungrouped_add_string_value_column (cmp : Comparison) (value : String)
    (column : Columns) :
    Ungrouped (add_string_constraint_to_query_value_column cmp value column) := by
  unfold add_string_constraint_to_query_value_column
  split <;> first | exact ungrouped_append _ (by simp) (by simp) | exact ungrouped_throw _

theorem ungrouped_add_binary_column_value (op : Operator) (column : Columns) (value : String) :
    Ungrouped (add_binary_constraint_to_query_column_value op column value) := by
  cases op <;>
    first | exact ungrouped_append _ (by simp) (by simp) | exact ungrouped_throw _

theorem ungrouped_add_binary_value_column (op : Operator) (value : String) (column : Columns) :
    Ungrouped (add_binary_constraint_to_query_value_column op value column) := by
  cases op <;>
    first | exact ungrouped_append _ (by simp) (by simp) | exact ungrouped_throw _

theorem ungrouped_add_link (op : Operator) (prop_expr : PropertyExpression) (row_index : Nat) :
    Ungrouped (add_link_constraint_to_query op prop_expr row_index) := by
  unfold add_link_constraint_to_query
  repeat' first
    | exact ungrouped_throw _ | exact ungrouped_deref _ _
    | exact ungrouped_append _ (by simp) (by simp)
    | apply ungrouped_bind | split | intro _

theorem ungrouped_link_argument (argExpr : Expression) (args : Arguments) :
    Ungrouped (link_argument argExpr args) :=
  ungrouped_bind _ _ (ungrouped_lift _) fun _ => ungrouped_call _ _

theorem ungrouped_column_getter (RetType : ColumnType) (table : List Nat)
    (expr : PropertyExpression) : Ungrouped (ColumnGetter.convert RetType table expr) :=
  ungrouped_bind _ _ (ungrouped_deref _ _) fun _ => ungrouped_pure _

theorem ungrouped_value_timestamp (value : Expression) (args : Arguments) :
    Ungrouped (ValueGetter.Timestamp.convert value args) := by
  unfold ValueGetter.Timestamp.convert
  repeat' first
    | exact ungrouped_pure _ | exact ungrouped_throw _ | exact ungrouped_call _ _
    | exact ungrouped_lift _ | apply ungrouped_bind | split | intro _

theorem ungrouped_value_bool (value : Expression) (args : Arguments) :
    Ungrouped (ValueGetter.bool.convert value args) := by
  unfold ValueGetter.bool.convert
  repeat' first
    | exact ungrouped_pure _ | exact ungrouped_throw _ | exact ungrouped_call _ _
    | exact ungrouped_lift _ | apply ungrouped_bind | split | intro _

theorem ungrouped_value_double (fp : FloatingExtraction) (value : Expression)
    (args : Arguments) : Ungrouped (ValueGetter.Double.convert fp value args) := by
  unfold ValueGetter.Double.convert
  repeat' first
    | exact ungrouped_pure _ | exact ungrouped_throw _ | exact ungrouped_call _ _
    | exact ungrouped_lift _ | apply ungrouped_bind | split | intro _

theorem ungrouped_value_float (fp : FloatingExtraction) (value : Expression)
    (args : Arguments) : Ungrouped (ValueGetter.Float.convert fp value args) := by
  unfold ValueGetter.Float.convert
  repeat' first
    | exact ungrouped_pure _ | exact ungrouped_throw _ | exact ungrouped_call _ _
    | exact ungrouped_lift _ | apply ungrouped_bind | split | intro _

theorem ungrouped_value_int (value : Expression) (args : Arguments) :
    Ungrouped (ValueGetter.Int.convert value args) := by
  unfold ValueGetter.Int.convert
  repeat' first
    | exact ungrouped_pure _ | exact ungrouped_throw _ | exact ungrouped_call _ _
    | exact ungrouped_lift _ | apply ungrouped_bind | split | intro _

theorem ungrouped_value_string (value : Expression) (args : Arguments) :
    Ungrouped (ValueGetter.String.convert value args) := by
  unfold ValueGetter.String.convert
  repeat' first
    | exact ungrouped_pure _ | exact ungrouped_throw _ | exact ungrouped_call _ _
    | exact ungrouped_lift _ | apply ungrouped_bind | split | intro _

theorem ungrouped_value_binary (value : Expression) (args : Arguments) :
    Ungrouped (ValueGetter.Binary.convert value args) := by
  unfold ValueGetter.Binary.convert
  repeat' first
    | exact ungrouped_pure _ | exact ungrouped_throw _ | exact ungrouped_call _ _
    | exact ungrouped_lift _ | apply ungrouped_bind | split | intro _

theorem ungrouped_values_of_type {α : Type} (RetType : ColumnType)
    (getter : Expression → Arguments → Build α) (wrap : α → Operand)
    (expr : PropertyExpression) (sides : Sides) (args : Arguments)
    (hg : ∀ v, Ungrouped (getter v args)) :
    Ungrouped (values_of_type_for_query RetType getter wrap expr sides args) := by
  unfold values_of_type_for_query
  repeat' first
    | exact ungrouped_pure _ | exact hg _ | exact ungrouped_column_getter _ _ _
    | apply ungrouped_bind | split | intro _

theorem ungrouped_do_add_comparison (fp : FloatingExtraction) (cmp : Comparison)
    (expr : PropertyExpression) (sides : Sides) (args : Arguments) :
    Ungrouped (do_add_comparison_to_query fp cmp expr sides args) := by
  unfold do_add_comparison_to_query
  refine ungrouped_bind _ _ (ungrouped_deref _ _) fun prop => ?_
  split
  · exact ungrouped_bind _ _
      (ungrouped_values_of_type _ _ _ _ _ _ (ungrouped_value_bool · args))
      fun _ => ungrouped_add_bool _ _ _
  · exact ungrouped_bind _ _
      (ungrouped_values_of_type _ _ _ _ _ _ (ungrouped_value_timestamp · args))
      fun _ => ungrouped_add_numeric _ _ _
  · exact ungrouped_bind _ _
      (ungrouped_values_of_type _ _ _ _ _ _ (ungrouped_value_double fp · args))
      fun _ => ungrouped_add_numeric _ _ _
  · exact ungrouped_bind _ _
      (ungrouped_values_of_type _ _ _ _ _ _ (ungrouped_value_float fp · args))
      fun _ => ungrouped_add_numeric _ _ _
  · exact ungrouped_bind _ _
      (ungrouped_values_of_type _ _ _ _ _ _ (ungrouped_value_int · args))
      fun _ => ungrouped_add_numeric _ _ _
  · split
    · exact ungrouped_bind _ _ (ungrouped_column_getter _ _ _) fun _ =>
        ungrouped_bind _ _ (ungrouped_value_string _ _) fun _ =>
          ungrouped_add_string_column_value _ _ _
    · exact ungrouped_bind _ _ (ungrouped_value_string _ _) fun _ =>
        ungrouped_bind _ _ (ungrouped_column_getter _ _ _) fun _ =>
          ungrouped_add_string_value_column _ _ _
  · split
    · exact ungrouped_bind _ _ (ungrouped_column_getter _ _ _) fun _ =>
        ungrouped_bind _ _ (ungrouped_value_binary _ _) fun _ =>
          ungrouped_add_binary_column_value _ _ _
    · exact ungrouped_bind _ _ (ungrouped_value_binary _ _) fun _ =>
        ungrouped_bind _ _ (ungrouped_column_getter _ _ _) fun _ =>
          ungrouped_add_binary_value_column _ _ _
  · split <;>
      exact ungrouped_bind _ _ (ungrouped_link_argument _ _) fun _ =>
        ungrouped_add_link _ _ _
  · split <;>
      exact ungrouped_bind _ _ (ungrouped_link_argument _ _) fun _ =>
        ungrouped_add_link _ _ _

theorem ungrouped_null_T (T : ColumnType) (op : Operator) (expr : PropertyExpression) :
    Ungrouped (do_add_null_comparison_to_query_T T op expr) := by
  unfold do_add_null_comparison_to_query_T
  repeat' first
    | exact ungrouped_deref _ _ | exact ungrouped_append _ (by simp) (by simp)
    | exact ungrouped_throw _ | apply ungrouped_bind | split | intro _

theorem ungrouped_null_Binary (op : Operator) (expr : PropertyExpression) :
    Ungrouped (do_add_null_comparison_to_query_Binary op expr) := by
  unfold do_add_null_comparison_to_query_Binary
  repeat' first
    | exact ungrouped_deref _ _ | exact ungrouped_append _ (by simp) (by simp)
    | exact ungrouped_throw _ | apply ungrouped_bind | split | intro _

theorem ungrouped_null_Link (op : Operator) (expr : PropertyExpression) :
    Ungrouped (do_add_null_comparison_to_query_Link op expr) := by
  unfold do_add_null_comparison_to_query_Link
  repeat' first
    | exact ungrouped_deref _ _ | exact ungrouped_append _ (by simp) (by simp)
    | exact ungrouped_throw _ | apply ungrouped_bind | split | intro _

theorem ungrouped_do_add_null_comparison (cmp : Comparison) (expr : PropertyExpression) :
    Ungrouped (do_add_null_comparison_to_query cmp expr) := by
  unfold do_add_null_comparison_to_query
  repeat' first
    | exact ungrouped_deref _ _ | exact ungrouped_throw _
    | exact ungrouped_null_T _ _ _ | exact ungrouped_null_Binary _ _
    | exact ungrouped_null_Link _ _
    | apply ungrouped_bind | split | intro _

theorem ungrouped_expression_is_null (expr : Expression) (args : Arguments) :
    Ungrouped (expression_is_null expr args) := by
  unfold expression_is_null
  repeat' first
    | exact ungrouped_pure _ | exact ungrouped_call _ _ | exact ungrouped_lift _
    | apply ungrouped_bind | split | intro _

/-- A comparison adds neither `group` nor `end_group`. -/
theorem ungrouped_add_comparison (fp : FloatingExtraction) (pred : Predicate)
    (args : Arguments) (schema : Schema) (type : String) :
    Ungrouped (add_comparison_to_query fp pred args schema type) := by
  unfold add_comparison_to_query
  dsimp only
  repeat' first
    | exact ungrouped_lift _ | exact ungrouped_throw _
    | exact ungrouped_expression_is_null _ _
    | exact ungrouped_do_add_null_comparison _ _
    | exact ungrouped_do_add_comparison _ _ _ _ _
    | apply ungrouped_bind | split | intro _
theorem balanced_flat (ops : List QueryOp) (h1 : ops.count QueryOp.group = 0)
    (h2 : ops.count QueryOp.end_group = 0) : balanced 0 ops := by
  refine ⟨fun k => ?_, h1, h2⟩
  have h := (List.take_sublist k ops).count_le QueryOp.end_group
  omega

theorem balanced_append (a b : Nat) (x y : List QueryOp) (hx : balanced a x)
    (hy : balanced b y) : balanced (a + b) (x ++ y) := by
  refine ⟨fun k => ?_, ?_, ?_⟩
  · rw [List.take_append_eq_append_take, List.count_append, List.count_append]
    have h1 := hx.1 k
    have h2 := hy.1 (k - x.length)
    omega
  · rw [List.count_append, hx.2.1, hy.2.1]
  · rw [List.count_append, hx.2.2, hy.2.2]

theorem balanced_wrap (n : Nat) (x : List QueryOp) (hx : balanced n x) :
    balanced (1 + n) (QueryOp.group :: (x ++ [QueryOp.end_group])) := by
  refine ⟨fun k => ?_, ?_, ?_⟩
  · cases k with
    | zero => simp
    | succ j =>
      rw [List.take_succ_cons, List.take_append_eq_append_take]
      have h1 := hx.1 j
      have h2 := (List.take_sublist (j - x.length) [QueryOp.end_group]).count_le
        QueryOp.end_group
      have h3 : List.count QueryOp.end_group [QueryOp.end_group] = 1 := by simp
      simp only [List.count_cons, List.count_append]
      simp
      omega
  · simp [List.count_cons, List.count_append, hx.2.1]
    omega
  · simp [List.count_cons, List.count_append, hx.2.2]
    omega

/-- A computation that adds neither `group` nor `end_group` adds a balanced
sequence with no group. -/
theorem grouped_of_ungrouped (x : Build Unit) (hf : Framed x) (hu : Ungrouped x) :
    Grouped 0 x := by
  intro m _
  refine ⟨emitted x, framed_query x hf m, balanced_flat _ ?_ ?_⟩
  · have h := (hu empty_machine).1
    simpa [emitted, empty_machine] using h
  · have h := (hu empty_machine).2
    simpa [emitted, empty_machine] using h

theorem grouped_bind (a b : Nat) (x y : Build Unit) (hx : Grouped a x) (hy : Grouped b y) :
    Grouped (a + b) (x >>= fun _ => y) := by
  intro m hok
  rw [bind_apply] at hok ⊢
  have h1 := hx m
  rcases hxm : x m with ⟨r, m1⟩
  rw [hxm] at hok h1
  cases r with
  | error e => simp at hok
  | ok u =>
    simp only at hok h1 ⊢
    obtain ⟨ops1, hq1, hb1⟩ := h1 trivial
    obtain ⟨ops2, hq2, hb2⟩ := hy m1 hok
    exact ⟨ops1 ++ ops2, by rw [hq2, hq1, List.append_assoc],
      balanced_append a b ops1 ops2 hb1 hb2⟩

theorem grouped_append (op : QueryOp) (h1 : op ≠ QueryOp.group)
    (h2 : op ≠ QueryOp.end_group) : Grouped 0 (Build.append op) :=
  grouped_of_ungrouped _ (framed_append op) (ungrouped_append op h1 h2)

theorem grouped_pure : Grouped 0 (pure () : Build Unit) :=
  grouped_of_ungrouped _ (framed_pure ()) (ungrouped_pure ())

/-- A negated node is grouped as the node with the flag cleared. -/
theorem grouped_negate (fp : FloatingExtraction) (arguments : Arguments) (schema : Schema)
    (type : String) (n : Nat) (ptype : PredicateType) (cmpr : Comparison)
    (subs : List Predicate)
    (h : Grouped n (update_query_with_predicate fp arguments schema type
      (.mk ptype false cmpr subs))) :
    Grouped n (update_query_with_predicate fp arguments schema type
      (.mk ptype true cmpr subs)) := by
  intro m hok
  rw [update_negate] at hok ⊢
  obtain ⟨ops, hq, hb⟩ := h _ hok
  refine ⟨QueryOp.Not :: ops, by rw [hq]; simp, ?_⟩
  have hnot : balanced 0 [QueryOp.Not] := balanced_flat _ (by simp) (by simp)
  have := balanced_append 0 n [QueryOp.Not] ops hnot hb
  simpa using this

/-- An `And` or `Or` node, not negated, whose loop is grouped with `n` groups is
grouped with one group more. -/
theorem grouped_compound (n : Nat) (loop : Build Unit) (sentinel : List QueryOp)
    (node : Build Unit) (hloop : Grouped n loop)
    (hs1 : sentinel.count QueryOp.group = 0) (hs2 : sentinel.count QueryOp.end_group = 0)
    (hnode : ∀ m, node m
      = match loop { m with query := m.query ++ [.group] } with
        | (.ok _, m1) =>
          (.ok (), { m1 with query := m1.query ++ sentinel ++ [.end_group] })
        | (.error e, m1) => (.error e, m1)) :
    Grouped (1 + n) node := by
  intro m hok
  rw [hnode] at hok ⊢
  have h1 := hloop { m with query := m.query ++ [.group] }
  rcases hl : loop { m with query := m.query ++ [.group] } with ⟨r, m1⟩
  rw [hl] at hok h1
  cases r with
  | error e => simp at hok
  | ok u =>
    simp only at h1 ⊢
    obtain ⟨ops, hq, hb⟩ := h1 trivial
    refine ⟨QueryOp.group :: ((ops ++ sentinel) ++ [QueryOp.end_group]), ?_, ?_⟩
    · rw [hq]
      simp
    · have hsent : balanced 0 sentinel := balanced_flat _ hs1 hs2
      have := balanced_append n 0 ops sentinel hb hsent
      exact balanced_wrap n _ (by simpa using this)

mutual
/-- Every predicate tree that compiles adds a sequence of ops balanced in
`group` and `end_group`, with as many groups as it has `And` and `Or` nodes. -/
theorem grouped_update (fp : FloatingExtraction) (arguments : Arguments) (schema : Schema)
    (type : String) :
    ∀ pred : Predicate,
      Grouped (compound_nodes pred) (update_query_with_predicate fp arguments schema type pred)
  | .mk ptype negate cmpr subs => by
    have hand := grouped_and_subs fp arguments schema type subs
    have hor := grouped_or_subs fp arguments schema type subs
    have hplain : Grouped (compound_nodes (.mk ptype false cmpr subs))
        (update_query_with_predicate fp arguments schema type (.mk ptype false cmpr subs)) := by
      cases ptype with
      | Comparison =>
        simp only [compound_nodes]
        refine grouped_of_ungrouped _ (framed_update fp arguments schema type _) ?_
        intro m
        rw [update_comparison]
        exact ungrouped_add_comparison fp _ arguments schema type _
      | Or =>
        simp only [compound_nodes]
        refine grouped_compound _ _
          (if subs.length = 0 then [.and_query .FalseExpression] else []) _ hor ?_ ?_ ?_
        · split <;> simp
        · split <;> simp
        · intro m
          exact update_or fp arguments schema type cmpr subs m
      | And =>
        simp only [compound_nodes]
        refine grouped_compound _ _
          (if subs.length = 0 then [.and_query .TrueExpression] else []) _ hand ?_ ?_ ?_
        · split <;> simp
        · split <;> simp
        · intro m
          exact update_and fp arguments schema type cmpr subs m
      | True =>
        simp only [compound_nodes]
        refine grouped_of_ungrouped _ (framed_update fp arguments schema type _) ?_
        intro m
        simp [update_query_with_predicate, bind_apply, pure_apply, Build.append,
          List.count_append]
      | False =>
        simp only [compound_nodes]
        refine grouped_of_ungrouped _ (framed_update fp arguments schema type _) ?_
        intro m
        simp [update_query_with_predicate, bind_apply, pure_apply, Build.append,
          List.count_append]
    cases negate with
    | false => exact hplain
    | true =>
      have hn : compound_nodes (.mk ptype true cmpr subs)
          = compound_nodes (.mk ptype false cmpr subs) := by
        simp only [compound_nodes]
      rw [hn]
      exact grouped_negate fp arguments schema type _ ptype cmpr subs hplain
theorem grouped_and_subs (fp : FloatingExtraction) (arguments : Arguments) (schema : Schema)
    (type : String) :
    ∀ subs : List Predicate,
      Grouped (compound_nodes_list subs)
        (update_query_with_and_subs fp arguments schema type subs)
  | [] => by
    unfold update_query_with_and_subs
    simp only [compound_nodes_list]
    exact grouped_pure
  | sub :: rest => by
    have h1 := grouped_update fp arguments schema type sub
    have h2 := grouped_and_subs fp arguments schema type rest
    unfold update_query_with_and_subs
    simp only [compound_nodes_list]
    exact grouped_bind _ _ _ _ h1 h2
theorem grouped_or_subs (fp : FloatingExtraction) (arguments : Arguments) (schema : Schema)
    (type : String) :
    ∀ subs : List Predicate,
      Grouped (compound_nodes_list subs)
        (update_query_with_or_subs fp arguments schema type subs)
  | [] => by
    unfold update_query_with_or_subs
    simp only [compound_nodes_list]
    exact grouped_pure
  | sub :: rest => by
    have h1 := grouped_update fp arguments schema type sub
    have h2 := grouped_or_subs fp arguments schema type rest
    unfold update_query_with_or_subs
    simp only [compound_nodes_list]
    have h := grouped_bind _ _ _ _ (grouped_append .Or (by simp) (by simp))
      (grouped_bind _ _ _ _ h1 h2)
    simpa using h
end
/-- C22: for every predicate tree that compiles successfully, the ops added to
the query are balanced in `group` and `end_group`: in every prefix of the added
ops the number of `end_group` is at most the number of `group`, and over the
whole sequence both equal the number of `And` and `Or` nodes of the tree. -/
theorem C22_groups_balanced (fp : FloatingExtraction) (arguments : Arguments)
    (schema : Schema) (type : String) (pred : Predicate) (m : Machine)
    (hok : (update_query_with_predicate fp arguments schema type pred m).1 = .ok ()) :
    (update_query_with_predicate fp arguments schema type pred m).2.query
        = m.query ++ emitted (update_query_with_predicate fp arguments schema type pred)
      ∧ (∀ k : Nat,
          ((emitted (update_query_with_predicate fp arguments schema type pred)).take k).count
              QueryOp.end_group
            ≤ ((emitted (update_query_with_predicate fp arguments schema type pred)).take
                k).count QueryOp.group)
      ∧ (emitted (update_query_with_predicate fp arguments schema type pred)).count
          QueryOp.group = compound_nodes pred
      ∧ (emitted (update_query_with_predicate fp arguments schema type pred)).count
          QueryOp.end_group = compound_nodes pred := by
  have hq := framed_query _ (framed_update fp arguments schema type pred) m
  obtain ⟨ops, hops, hb⟩ := grouped_update fp arguments schema type pred m hok
  have heq : ops = emitted (update_query_with_predicate fp arguments schema type pred) := by
    rw [hq] at hops
    exact (List.append_cancel_left hops).symm
  subst heq
  exact ⟨hq, hb.1, hb.2.1, hb.2.2⟩

/-- C22, at an input: `And[True, Or[]]`, a tree with two compound nodes, which
compiles to `group`, the true sentinel, `group`, the false sentinel,
`end_group`, `end_group`. -/
theorem C22_groups_balanced_witness :
    (update_query_with_predicate no_floating sample_arguments person_schema "Person"
        (.mk .And false no_comparison [true_predicate, .mk .Or false no_comparison []])
        empty_machine).2.query
        = empty_machine.query
            ++ emitted (update_query_with_predicate no_floating sample_arguments
                person_schema "Person"
                (.mk .And false no_comparison [true_predicate, .mk .Or false no_comparison []]))
      ∧ (∀ k : Nat,
          ((emitted (update_query_with_predicate no_floating sample_arguments person_schema
              "Person"
              (.mk .And false no_comparison
                [true_predicate, .mk .Or false no_comparison []]))).take k).count
              QueryOp.end_group
            ≤ ((emitted (update_query_with_predicate no_floating sample_arguments
                person_schema "Person"
                (.mk .And false no_comparison
                  [true_predicate, .mk .Or false no_comparison []]))).take k).count
                QueryOp.group)
      ∧ (emitted (update_query_with_predicate no_floating sample_arguments person_schema
            "Person"
            (.mk .And false no_comparison
              [true_predicate, .mk .Or false no_comparison []]))).count QueryOp.group
          = compound_nodes
              (.mk .And false no_comparison [true_predicate, .mk .Or false no_comparison []])
      ∧ (emitted (update_query_with_predicate no_floating sample_arguments person_schema
            "Person"
            (.mk .And false no_comparison
              [true_predicate, .mk .Or false no_comparison []]))).count QueryOp.end_group
          = compound_nodes
              (.mk .And false no_comparison [true_predicate, .mk .Or false no_comparison []]) :=
  C22_groups_balanced no_floating sample_arguments person_schema "Person"
    (.mk .And false no_comparison [true_predicate, .mk .Or false no_comparison []])
    empty_machine (by rfl)

end QueryBuilder
